import Mathlib

/-!
Sweetiebot: command dispatch and deadlock detector.

A shallow embedding of `sweetiebot.go` (`deadlockDetector`, `SBProcessCommand`)
followed by theorems about it.

Conventions of the embedding:

* a Go `string` is its sequence of bytes, `List Nat`;
* a Go `map` is an association list, of which only key presence, lookup and
  emptiness are used;
* `uint32` arithmetic is arithmetic modulo `2 ^ 32`;
* calls that leave the process (transport, database, module hooks, command
  handlers) are recorded as events, their return values are read from an
  environment record.
-/

namespace Sweetiebot

/-! ## Strings and maps -/

/-- A Go string: the sequence of its bytes. -/
abbrev GoString := List Nat

/-- UTF-8 encoding of one code point, as Go stores a string literal. -/
def utf8Bytes (c : Nat) : List Nat :=
  if c < 0x80 then [c]
  else if c < 0x800 then [0xC0 + c / 64, 0x80 + c % 64]
  else if c < 0x10000 then [0xE0 + c / 4096, 0x80 + c / 64 % 64, 0x80 + c % 64]
  else [0xF0 + c / 262144, 0x80 + c / 4096 % 64, 0x80 + c / 64 % 64, 0x80 + c % 64]

/-- The bytes of a string literal. -/
def str (s : String) : GoString :=
  s.toList.flatMap (fun c => utf8Bytes c.toNat)

/-! ## Data read and written by `SBProcessCommand` -/

/-- A Go map as an association list; the first binding of a key is the one in force. -/
abbrev GoMap (α β : Type) := List (α × β)

/-- The lookup `v, ok := m[k]`. -/
def mapGet? {α β : Type} [DecidableEq α] : GoMap α β → α → Option β
  | [], _ => none
  | (k, v) :: m, x => if k = x then some v else mapGet? m x

/-- The test `_, ok := m[k]`. -/
def mapHas {α β : Type} [DecidableEq α] (m : GoMap α β) (k : α) : Bool :=
  (mapGet? m k).isSome

/-- The read `m[k]`, which yields the zero value `d` of the element type for a missing key. -/
def mapGetD {α β : Type} [DecidableEq α] (m : GoMap α β) (k : α) (d : β) : β :=
  (mapGet? m k).getD d

/-- The assignment `m[k] = v`. -/
def mapSet {α β : Type} [DecidableEq α] : GoMap α β → α → β → GoMap α β
  | [], k, v => [(k, v)]
  | (k1, v1) :: m, k, v => if k1 = k then (k, v) :: m else (k1, v1) :: mapSet m k v

/-- The fields of `discordgo.Message` that `SBProcessCommand` uses. -/
structure Message where
  Content : GoString
  ChannelID : GoString
  /-- The field `m.Author.ID`. -/
  AuthorID : GoString
  deriving DecidableEq, Repr

/-- What a command handler returns: reply text, the private-message hint and the embed
(`none` for a nil pointer). -/
structure Reply where
  result : GoString
  usepm : Bool
  resultembed : Option GoString
  deriving DecidableEq, Repr

/-- The `Command` interface as far as the dispatcher uses it. -/
structure Command where
  Name : GoString
  /-- The call `Process(args, msg, indices, info)`, a handler outside the dispatcher. -/
  Process : List GoString → Message → List Int → Reply

/-- The struct `SaturationLimit` without its lock. -/
structure SaturationLimit where
  times : List Int
  index : Int
  deriving DecidableEq, Repr

/-- A module hook as the dispatcher sees it. -/
structure Hook where
  /-- The value of `info.ProcessModule(channelID, h)`. -/
  ProcessModule : GoString → Bool
  /-- The value returned by `h.OnCommand(info, m)`. -/
  OnCommand : Message → Bool

/-- The fields of `BotConfig` that `SBProcessCommand` reads. -/
structure BotConfig where
  IgnoreInvalidCommands : Bool
  AlertRole : Nat
  FreeChannels : GoMap GoString Bool
  Aliases : GoMap GoString GoString
  CommandPrefix : GoString
  CommandRoles : GoMap GoString (GoMap GoString Bool)
  CommandChannels : GoMap GoString (GoMap GoString Bool)
  CommandLimits : GoMap GoString Int
  CommandDisabled : GoMap GoString Bool
  CommandPerDuration : Int
  CommandMaxDuration : Int

/-- The fields of `GuildInfo` that `SBProcessCommand` uses. -/
structure GuildInfo where
  ID : GoString
  OwnerID : GoString
  config : BotConfig
  commands : GoMap GoString Command
  commandLast : GoMap GoString (GoMap GoString Int)
  commandlimit : SaturationLimit
  /-- The list `info.hooks.OnCommand`. -/
  hooksOnCommand : List Hook
  /-- The list `info.hooks.OnMessageCreate`. -/
  hooksOnMessageCreate : List Hook

/-- The fields of the global `sb` that `SBProcessCommand` reads. -/
structure SweetieBot where
  SelfID : GoString
  Owners : GoMap Nat Bool
  RestrictedCommands : GoMap GoString Bool
  NonServerCommands : GoMap GoString Bool
  MainGuildID : Nat
  guilds : GoMap Nat GuildInfo
  /-- The value of `sb.db.status.get()`. -/
  dbStatus : Bool

/-- Functions that `SBProcessCommand` calls and that are defined outside `sweetiebot.go`
(other files of the package, the Go library, the transport). They are parameters of the model. -/
structure Env where
  SBatoi : GoString → Nat
  SBitoa : Nat → GoString
  /-- The library function `strings.ToLower`. -/
  ToLower : GoString → GoString
  /-- The tokenizer: the argument list and the index of every argument. -/
  ParseArguments : GoString → List GoString × List Int
  getDefaultServer : Nat → Option GuildInfo
  /-- The query `sb.db.GetUserGuilds`. -/
  GetUserGuilds : Nat → List Nat
  /-- The method `info.UserHasRole(user, role)`. -/
  UserHasRole : GuildInfo → GoString → GoString → Bool
  /-- The method `info.UserHasAnyRole(user, roles)`. -/
  UserHasAnyRole : GuildInfo → GoString → GoMap GoString Bool → Bool
  /-- The method `info.GetRoles(c)`: the text naming the roles allowed to run `c`. -/
  GetRoles : GuildInfo → Command → GoString
  /-- The method `SaturationLimit.check(num, period, curtime)`. -/
  check : SaturationLimit → Int → Int → Int → Bool
  /-- The method `SaturationLimit.append(time)`. -/
  append : SaturationLimit → Int → SaturationLimit
  /-- The function `RateLimit(&lastcmd, interval)`, applied to the value of `lastcmd`. -/
  RateLimit : Int → Int → Bool
  /-- The call `s.UserChannelCreate(userID)`: the channel id, or `none` for an error. -/
  UserChannelCreate : GoString → Option GoString
  /-- The outcome of the test `rand.Float32() < 0.01`. -/
  randBelow : Bool

/-- The diagnostics and notices `SBProcessCommand` sends, by the data their text is built from. -/
inductive Diag
  /-- The text "A temporary database error means I can't process any private message commands
  right now." -/
  | dbError
  /-- The text "Cannot determine what server you belong to! ..." -/
  | noServer
  /-- The text "I haven't been loaded on that server yet!" -/
  | notLoaded
  /-- The text "You can't input more than N commands every TimeDiff(D)!" followed by
  `getAddMsg(info)`. -/
  | saturation (n : Int) (d : Int)
  /-- The text "You don't have permission to run this command! Allowed Roles: " followed by
  `info.GetRoles(c)`. -/
  | noPermission (roles : GoString)
  /-- The text "You can only run that command once every TimeDiff(L)!" followed by
  `getAddMsg(info)`. -/
  | cooldown (l : Int)
  /-- The text "Sorry, ARG is not a valid command. For a list of valid commands, type !help." -/
  | invalidCommand (arg : GoString)
  /-- The notice "Check your Private Messages for my reply!", in the variant chosen by
  `rand.Float32() < 0.01`. -/
  | checkPM (rare : Bool)
  /-- The reply text of a command handler. -/
  | reply (text : GoString)
  deriving DecidableEq, Repr

/-- The calls `SBProcessCommand` makes that are visible outside it, in program order. -/
inductive Event
  /-- The call `h.OnCommand(info, m)` of the hook at this position of `info.hooks.OnCommand`. -/
  | OnCommand (hook : Nat)
  /-- The call `h.OnMessageCreate(info, m)` of the hook at this position. -/
  | OnMessageCreate (hook : Nat)
  /-- The call `ParseArguments(s)`. -/
  | ParseArguments (s : GoString)
  /-- The call `s.ChannelMessageSend(channel, text)`. -/
  | ChannelMessageSend (channel : GoString) (text : Diag)
  /-- The call `sb.db.Audit(AUDIT_TYPE_COMMAND, m.Author, m.Content, guild)`. -/
  | Audit (author : GoString) (content : GoString) (guild : Nat)
  /-- The call `info.Error(channel, text)`. -/
  | Error (channel : GoString) (text : Diag)
  /-- The call `info.commandlimit.check(num, period, curtime)`. -/
  | check (num period curtime : Int)
  /-- The call `info.commandlimit.append(t)`. -/
  | append (t : Int)
  /-- The read `info.commandLast[channel][command]`. -/
  | readCommandLast (channel command : GoString)
  /-- The write `info.commandLast[channel][command] = t`. -/
  | writeCommandLast (channel command : GoString) (t : Int)
  /-- The call `c.Process(args, m, indices, info)` of the command named `command`. -/
  | Process (command : GoString) (args : List GoString) (content : GoString) (indices : List Int)
  /-- The call `s.UserChannelCreate(author)`. -/
  | UserChannelCreate (author : GoString)
  /-- The call `info.LogError("Error opening private channel: ", err)`; `failed` is `err != nil`. -/
  | LogError (failed : Bool)
  /-- The call `info.SendMessage(channel, text)`. -/
  | SendMessage (channel : GoString) (text : Diag)
  /-- The call `info.SendEmbed(channel, embed)`. -/
  | SendEmbed (channel : GoString) (embed : GoString)
  deriving DecidableEq, Repr

/-- The access-control and rate-limit `return` statements of `SBProcessCommand`. -/
inductive Denial
  /-- Line 703: the command is disabled. -/
  | disabled
  /-- Line 706: the command is restricted and the guild is not a database guild. -/
  | restricted
  /-- Line 712: the channel list of the command. -/
  | channel
  /-- Line 721: the saturation limiter. -/
  | saturation
  /-- Line 727: the role list of the command. -/
  | role
  /-- Line 737: the cooldown of the command. -/
  | cooldown
  deriving DecidableEq, Repr

/-- The place where a call of `SBProcessCommand` ends. -/
inductive Exit
  /-- The text is not a command: the `else if` branch at line 775. -/
  | notCommand
  /-- Line 648: a module asked to ignore the command. -/
  | ignored
  /-- A run-time panic of Go: an index or a slice bound out of range. -/
  | panic
  /-- Line 655. -/
  | dbError
  /-- Line 665. -/
  | noServer
  /-- Line 676. -/
  | notLoaded
  /-- One of the denials of lines 702-737. -/
  | denied (d : Denial)
  /-- The handler was called at line 747 and its reply delivered. -/
  | executed
  /-- The `else` branch at line 770: no command of that name. -/
  | invalid
  deriving DecidableEq, Repr

/-- The result of a call of `SBProcessCommand`: the calls made, where it ended, and the guild the
command was processed for (`none` when there is none) with its state after the call. -/
structure Outcome where
  events : List Event
  exit : Exit
  guild : Option GuildInfo

/-- The position of an exit of `runCommand` in program order: the denials in the order of their
`return` statements, then the call of the handler; `0` for the exits outside `runCommand`. Used to
tell the stages apart in proofs. -/
def Exit.order : Exit → Nat
  | Exit.denied Denial.disabled => 1
  | Exit.denied Denial.restricted => 2
  | Exit.denied Denial.channel => 3
  | Exit.denied Denial.saturation => 4
  | Exit.denied Denial.role => 5
  | Exit.denied Denial.cooldown => 6
  | Exit.executed => 7
  | Exit.panic => 7
  | _ => 0

/-! ## `SBProcessCommand` (sweetiebot.go 622-782) -/

/-- Two's-complement wrap-around of a Go `int` (64 bits). -/
def wrapInt (x : Int) : Int := (x + 2 ^ 63) % 2 ^ 64 - 2 ^ 63

/-- The slice expression `s[i:]`: `none` stands for the run-time panic on a bound out of range. -/
def sliceFrom (s : GoString) (i : Int) : Option GoString :=
  if 0 ≤ i ∧ i ≤ (s.length : Int) then some (s.drop i.toNat) else none

/-- Lines 624-627: the byte the dispatcher takes for the command prefix. `33` is `'!'`. -/
def effectivePrefix (info : Option GuildInfo) : Nat :=
  match info with
  | some g =>
    if g.config.CommandPrefix.length = 1 then g.config.CommandPrefix.getD 0 0 else 33
  | none => 33

/-- Line 630: the test that decides whether the text is processed as a command. -/
def isCommand (pre : Nat) (content : GoString) : Bool :=
  decide (content.length > 1) && decide (content.getD 0 0 = pre) &&
    (decide (content.length < 2) || decide (content.getD 1 0 ≠ pre))

/-- Lines 641-646: the loop over `info.hooks.OnCommand`, from position `i` on. The right operand of
`ignore || h.OnCommand(info, m)` is not evaluated once `ignore` is true. -/
def runOnCommand (m : Message) : List Hook → Nat → Bool → Bool × List Event
  | [], _, ignore => (ignore, [])
  | h :: hs, i, ignore =>
    if h.ProcessModule m.ChannelID then
      if ignore then runOnCommand m hs (i + 1) true
      else
        let r := runOnCommand m hs (i + 1) (h.OnCommand m)
        (r.1, Event.OnCommand i :: r.2)
    else runOnCommand m hs (i + 1) ignore

/-- Lines 776-780: the loop over `info.hooks.OnMessageCreate`, from position `i` on. -/
def runOnMessageCreate (m : Message) : List Hook → Nat → List Event
  | [], _ => []
  | h :: hs, i =>
    if h.ProcessModule m.ChannelID then Event.OnMessageCreate i :: runOnMessageCreate m hs (i + 1)
    else runOnMessageCreate m hs (i + 1)

/-- Lines 653-678: the guild a command is processed for, or the exit and the message sent when
none is found. -/
def resolveGuild (sb : SweetieBot) (env : Env) (m : Message) (info : Option GuildInfo)
    (arg : GoString) : Except (Exit × Diag) GuildInfo :=
  match info with
  | some g => .ok g
  | none =>
    if !sb.dbStatus then .error (Exit.dbError, Diag.dbError)
    else
      let authorid := env.SBatoi m.AuthorID
      match env.getDefaultServer authorid with
      | some g => .ok g
      | none =>
        let gIDs := env.GetUserGuilds authorid
        let independent := mapHas sb.NonServerCommands arg
        if !independent && decide (gIDs.length ≠ 1) then .error (Exit.noServer, Diag.noServer)
        else
          let gIDs1 := if gIDs.length = 0 then [sb.MainGuildID] else gIDs
          match mapGet? sb.guilds (gIDs1.getD 0 0) with
          | some g => .ok g
          | none => .error (Exit.notLoaded, Diag.notLoaded)

/-- The state of the local variables after lines 679-692. -/
structure Resolution where
  /-- The message, whose `Content` an alias rewrites. -/
  m : Message
  args : List GoString
  indices : List Int
  /-- The pair `c, ok`: the command found, if any. -/
  c : Option Command
  events : List Event
  /-- Whether a run-time panic struck: `m.Content[indices[1]:]`, `m.Content[1:]` or `args[0]` out
  of range. -/
  panicked : Bool

/-- Lines 683-687: the text an alias is rewritten to; `none` stands for the panic of
`m.Content[indices[1]:]` on an index out of range. -/
def aliasRewrite (info : GuildInfo) (m : Message) (indices : List Int) (aliasTarget : GoString) :
    Option GoString :=
  if indices.length > 1 then
    (sliceFrom m.Content (indices.getD 1 0)).map
      (fun rest => info.config.CommandPrefix ++ aliasTarget ++ str " " ++ rest)
  else some (info.config.CommandPrefix ++ aliasTarget)

/-- Lines 679-692: look the name up in the command table, then once in the alias table. -/
def resolveCommand (env : Env) (info : GuildInfo) (m : Message) (args : List GoString)
    (indices : List Int) (arg : GoString) : Resolution :=
  match mapGet? info.commands arg with
  | some c =>
    { m := m, args := args, indices := indices, c := some c, events := [], panicked := false }
  | none =>
    match mapGet? info.config.Aliases arg with
    | none =>
      { m := m, args := args, indices := indices, c := none, events := [], panicked := false }
    | some aliasTarget =>
      match aliasRewrite info m indices aliasTarget with
      | none =>
        { m := m, args := args, indices := indices, c := none, events := [], panicked := true }
      | some [] =>
        { m := { m with Content := [] }, args := args, indices := indices, c := none,
          events := [], panicked := true }
      | some (b :: text) =>
        let parsed := env.ParseArguments text
        match parsed.1 with
        | [] =>
          { m := { m with Content := b :: text }, args := [], indices := parsed.2, c := none,
            events := [Event.ParseArguments text], panicked := true }
        | a0 :: as =>
          { m := { m with Content := b :: text }, args := a0 :: as, indices := parsed.2,
            c := mapGet? info.commands (env.ToLower a0),
            events := [Event.ParseArguments text], panicked := false }

/-- Lines 748-769: deliver the reply of a handler. `isPrivate` is the local `private`. -/
def deliver (env : Env) (m : Message) (isPrivate : Bool) (r : Reply) : List Event :=
  if decide (r.result.length > 0) || r.resultembed.isSome then
    let target : GoString × List Event :=
      if r.usepm && !isPrivate then
        match env.UserChannelCreate m.AuthorID with
        | some channel =>
          (channel, [Event.UserChannelCreate m.AuthorID, Event.LogError false,
            Event.SendMessage m.ChannelID (Diag.checkPM env.randBelow)])
        | none => (m.ChannelID, [Event.UserChannelCreate m.AuthorID, Event.LogError true])
      else (m.ChannelID, [])
    target.2 ++
      [match r.resultembed with
       | some embed => Event.SendEmbed target.1 embed
       | none => Event.SendMessage target.1 (Diag.reply r.result)]
  else []

/-- Lines 747-769: call the handler and deliver its reply. `events` are the calls made so far,
`info` the guild as the earlier stages left it. The panic is that of `args[1:]` or `indices[1:]` on
an empty slice. -/
def executeStage (env : Env) (m : Message) (info : GuildInfo) (c : Command) (cmdname : GoString)
    (args : List GoString) (indices : List Int) (isPrivate : Bool) (events : List Event) :
    Outcome :=
  match args, indices with
  | _ :: args1, _ :: indices1 =>
    { events := events ++ [Event.Process cmdname args1 m.Content indices1] ++
        deliver env m isPrivate (c.Process args1 m indices1),
      exit := Exit.executed, guild := some info }
  | _, _ => { events := events, exit := Exit.panic, guild := some info }

/-- Lines 730-745: the cooldown of the command, then the handler. -/
def cooldownStage (env : Env) (m : Message) (info : GuildInfo) (c : Command)
    (cmdname : GoString) (args : List GoString) (indices : List Int) (t : Int)
    (isPrivate isfree isSelf : Bool) (events : List Event) : Outcome :=
  let cmdlimit := mapGetD info.config.CommandLimits cmdname 0
  if !isfree && decide (cmdlimit > 0) && !isSelf then
    let lastcmd := mapGetD (mapGetD info.commandLast m.ChannelID []) cmdname 0
    if !env.RateLimit lastcmd cmdlimit then
      { events := events ++
          [Event.readCommandLast m.ChannelID cmdname,
           Event.Error m.ChannelID (Diag.cooldown cmdlimit)],
        exit := Exit.denied Denial.cooldown, guild := some info }
    else
      let commandLast1 :=
        mapSet info.commandLast m.ChannelID
          (mapSet (mapGetD info.commandLast m.ChannelID []) cmdname t)
      executeStage env m { info with commandLast := commandLast1 } c cmdname args indices
        isPrivate
        (events ++
          [Event.readCommandLast m.ChannelID cmdname,
           Event.writeCommandLast m.ChannelID cmdname t])
  else executeStage env m info c cmdname args indices isPrivate events

/-- Lines 725-728: the role list of the command, then the later stages. `isOwner` is the local
`isOwner` after line 697. -/
def roleStage (env : Env) (m : Message) (info : GuildInfo) (c : Command)
    (cmdname : GoString) (args : List GoString) (indices : List Int) (t : Int)
    (isPrivate isfree isOwner isSelf : Bool) (events : List Event) : Outcome :=
  if !isOwner && !isSelf &&
      !env.UserHasAnyRole info m.AuthorID (mapGetD info.config.CommandRoles cmdname []) then
    { events := events ++ [Event.Error m.ChannelID (Diag.noPermission (env.GetRoles info c))],
      exit := Exit.denied Denial.role, guild := some info }
  else cooldownStage env m info c cmdname args indices t isPrivate isfree isSelf events

/-- Line 715: whether the saturation limiter is consulted for the invocation. -/
def saturationApplies (env : Env) (m : Message) (info : GuildInfo)
    (isdebug isfree isSelf : Bool) : Bool :=
  !isdebug && !isfree && !isSelf && decide (info.config.CommandPerDuration > 0) &&
    !env.UserHasRole info m.AuthorID (env.SBitoa info.config.AlertRole)

/-- Lines 716-718 in a run in which `make` returns: the limiter, with its buffer made anew when
it is shorter than `CommandPerDuration*2`. The run-time panic of `make` for a length it cannot
allocate is the subject of `resizeBuffer`, which yields this limiter whenever `make` returns. -/
def resizedLimit (info : GuildInfo) : SaturationLimit :=
  if (info.commandlimit.times.length : Int) < wrapInt (info.config.CommandPerDuration * 2) then
    { info.commandlimit with
      times := List.replicate (wrapInt (info.config.CommandPerDuration * 2)).toNat 0 }
  else info.commandlimit

/-- The call `make([]int64, n, n)`: a slice of `n` zeros, or `none` when the call does not return.
The run-time panics with `makeslice: len out of range` for a negative `n` and for an `n` above
what it can allocate; `limit` is the largest length for which the call returns on the machine. -/
def makeInt64 (limit : Nat) (n : Int) : Option (List Int) :=
  if 0 ≤ n ∧ n ≤ (limit : Int) then some (List.replicate n.toNat 0) else none

/-- Lines 716-718: the limiter that line 719 calls `check` on, or `none` when `make` panics and
line 719 is not reached. -/
def resizeBuffer (limit : Nat) (info : GuildInfo) : Option SaturationLimit :=
  if (info.commandlimit.times.length : Int) < wrapInt (info.config.CommandPerDuration * 2) then
    match makeInt64 limit (wrapInt (info.config.CommandPerDuration * 2)) with
    | some times => some { info.commandlimit with times := times }
    | none => none
  else some info.commandlimit

/-- Lines 715-724: the saturation limiter, then the later stages, in a run in which the `make`
of line 717 returns (`resizeBuffer` tells when it does, and that the limiter is then
`resizedLimit`). -/
def saturationStage (env : Env) (m : Message) (info : GuildInfo) (c : Command)
    (cmdname : GoString) (args : List GoString) (indices : List Int) (t : Int)
    (isdebug isPrivate isfree isOwner isSelf : Bool) (events : List Event) : Outcome :=
  let n := info.config.CommandPerDuration
  if saturationApplies env m info isdebug isfree isSelf then
    if env.check (resizedLimit info) n info.config.CommandMaxDuration t then
      { events := events ++
          [Event.check n info.config.CommandMaxDuration t,
           Event.Error m.ChannelID (Diag.saturation n info.config.CommandMaxDuration)],
        exit := Exit.denied Denial.saturation,
        guild := some { info with commandlimit := resizedLimit info } }
    else
      roleStage env m { info with commandlimit := env.append (resizedLimit info) t } c cmdname
        args indices t isPrivate isfree isOwner isSelf
        (events ++ [Event.check n info.config.CommandMaxDuration t, Event.append t])
  else roleStage env m info c cmdname args indices t isPrivate isfree isOwner isSelf events

/-- The guild as the role check of line 725 finds it: with the invocation recorded in the
saturation limiter when the limiter is consulted. -/
def afterSaturation (env : Env) (m : Message) (info : GuildInfo) (t : Int)
    (isdebug isfree isSelf : Bool) : GuildInfo :=
  if saturationApplies env m info isdebug isfree isSelf then
    { info with commandlimit := env.append (resizedLimit info) t }
  else info

/-- Lines 694-696: the audit record of a resolved command. -/
def auditEvents (sb : SweetieBot) (env : Env) (m : Message) (info : GuildInfo)
    (isdbguild : Bool) : List Event :=
  if isdbguild && sb.dbStatus && decide (m.AuthorID ≠ sb.SelfID) then
    [Event.Audit m.AuthorID m.Content (env.SBatoi info.ID)]
  else []

/-- Line 702: the condition of the `disabled` return; `isOwner` is the local after line 697. -/
def disabledCheck (info : GuildInfo) (cmdname : GoString) (isOwner isSelf : Bool) : Bool :=
  mapHas info.config.CommandDisabled cmdname && !isOwner && !isSelf

/-- Line 705: the condition of the `restricted` return. -/
def restrictedCheck (sb : SweetieBot) (cmdname : GoString) (isdbguild : Bool) : Bool :=
  mapHas sb.RestrictedCommands cmdname && !isdbguild

/-- Lines 708-711: the condition of the channel-list return, `ok == reverse` inside the `if`. -/
def channelCheck (m : Message) (info : GuildInfo) (cmdname : GoString)
    (isPrivate isSelf : Bool) : Bool :=
  !isPrivate && decide ((mapGetD info.config.CommandChannels cmdname []).length > 0) && !isSelf &&
    (mapHas (mapGetD info.config.CommandChannels cmdname []) m.ChannelID ==
      mapHas (mapGetD info.config.CommandChannels cmdname []) (str "!"))

/-- Lines 693-769: the path of a resolved command `c`. `isPrivate`, `isfree`, `isOwner` and `isSelf`
are the locals `private`, `isfree`, `isOwner` and `isSelf` as set at lines 631-638. -/
def runCommand (sb : SweetieBot) (env : Env) (m : Message) (info : GuildInfo) (c : Command)
    (args : List GoString) (indices : List Int) (t : Int)
    (isdbguild isdebug isPrivate isfree isOwner isSelf : Bool) : Outcome :=
  let audit := auditEvents sb env m info isdbguild
  let isOwner1 := isOwner || decide (m.AuthorID = info.OwnerID)
  let cmdname := env.ToLower c.Name
  if disabledCheck info cmdname isOwner1 isSelf then
    { events := audit, exit := Exit.denied Denial.disabled, guild := some info }
  else if restrictedCheck sb cmdname isdbguild then
    { events := audit, exit := Exit.denied Denial.restricted, guild := some info }
  else if channelCheck m info cmdname isPrivate isSelf then
    { events := audit, exit := Exit.denied Denial.channel, guild := some info }
  else
    saturationStage env m info c cmdname args indices t isdebug isPrivate isfree isOwner1 isSelf
      audit

/-- Lines 640-650: the `OnCommand` hooks. The result is whether the command is dropped at line
648, and the calls made. -/
def commandHooks (sb : SweetieBot) (env : Env) (m : Message) (info : Option GuildInfo) :
    Bool × List Event :=
  match info with
  | some g =>
    if !decide (m.AuthorID = sb.SelfID) then
      ((runOnCommand m g.hooksOnCommand 0 false).1 && !mapHas sb.Owners (env.SBatoi m.AuthorID) &&
          decide (m.AuthorID ≠ g.OwnerID),
        (runOnCommand m g.hooksOnCommand 0 false).2)
    else (false, [])
  | none => (false, [])

/-- Lines 632-636: the local `isfree`, true in a private message and in a channel that is a key of
`basic.freechannels`. -/
def isFreeChannel (info : Option GuildInfo) (channel : GoString) : Bool :=
  match info with
  | some g => mapHas g.config.FreeChannels channel
  | none => true

/-- Lines 679-774 for the guild `g` found: resolve the name, then run the command or report that
there is none. `events` are the calls made so far. -/
def dispatch (sb : SweetieBot) (env : Env) (m : Message) (info : Option GuildInfo)
    (g : GuildInfo) (args : List GoString) (indices : List Int) (t : Int)
    (isdbguild isdebug : Bool) (events : List Event) : Outcome :=
  let r := resolveCommand env g m args indices (env.ToLower (args.getD 0 []))
  if r.panicked then { events := events ++ r.events, exit := Exit.panic, guild := some g }
  else
    match r.c with
    | some c =>
      runCommand sb env r.m g c r.args r.indices t isdbguild isdebug info.isNone
        (isFreeChannel info m.ChannelID)
        (mapHas sb.Owners (env.SBatoi m.AuthorID)) (decide (m.AuthorID = sb.SelfID))
      |> fun out => { out with events := events ++ r.events ++ out.events }
    | none =>
      { events := events ++ r.events ++
          (if !g.config.IgnoreInvalidCommands then
            [Event.Error m.ChannelID (Diag.invalidCommand (r.args.getD 0 []))]
           else []),
        exit := Exit.invalid, guild := some g }

/-- Lines 651-774: tokenize the text, find the guild, dispatch. -/
def processCommand (sb : SweetieBot) (env : Env) (m : Message) (info : Option GuildInfo)
    (t : Int) (isdbguild isdebug : Bool) (events : List Event) : Outcome :=
  let events1 := events ++ [Event.ParseArguments m.Content.tail]
  match (env.ParseArguments m.Content.tail).1 with
  | [] => { events := events1, exit := Exit.panic, guild := info }
  | a0 :: as =>
    match resolveGuild sb env m info (env.ToLower a0) with
    | .error e =>
      { events := events1 ++ [Event.ChannelMessageSend m.ChannelID e.2], exit := e.1,
        guild := none }
    | .ok g =>
      dispatch sb env m info g (a0 :: as) (env.ParseArguments m.Content.tail).2 t isdbguild
        isdebug events1

/-- The function `SBProcessCommand(s, m, info, t, isdbguild, isdebug)`; `sb` is the global bot
object and `env` the functions defined elsewhere. -/
def SBProcessCommand (sb : SweetieBot) (env : Env) (m : Message) (info : Option GuildInfo)
    (t : Int) (isdbguild isdebug : Bool) : Outcome :=
  if isCommand (effectivePrefix info) m.Content then
    if (commandHooks sb env m info).1 then
      { events := (commandHooks sb env m info).2, exit := Exit.ignored, guild := info }
    else processCommand sb env m info t isdbguild isdebug (commandHooks sb env m info).2
  else
    match info with
    | some g =>
      { events := runOnMessageCreate m g.hooksOnMessageCreate 0, exit := Exit.notCommand,
        guild := info }
    | none => { events := [], exit := Exit.notCommand, guild := info }

/-- The command test in the words of section 4.1 step 1: the text begins with the prefix byte and
is not just that byte doubled. -/
def specIsCommand (pre : Nat) (content : GoString) : Bool :=
  decide (content.head? = some pre) && decide (content ≠ [pre, pre])

/-! ## A sample environment and guild, to evaluate the dispatcher on concrete messages -/

/-- White space for the tokenizer: space, tab, line feed, carriage return. -/
def isSpace (b : Nat) : Bool := b == 32 || b == 9 || b == 10 || b == 13

/-- The scan of `tokenizeArguments`: `pos` is the index of the next byte, `cur` the token being
read (its bytes in reverse, the index of its first byte, whether it is quoted). -/
def tokenizeFrom : GoString → Nat → Option (GoString × Nat × Bool) → List (GoString × Int)
  | [], _, none => []
  | [], _, some (tok, start, _) => [(tok.reverse, (start : Int))]
  | b :: bs, pos, none =>
    if isSpace b then tokenizeFrom bs (pos + 1) none
    else if b = 34 then tokenizeFrom bs (pos + 1) (some ([], pos + 1, true))
    else tokenizeFrom bs (pos + 1) (some ([b], pos, false))
  | b :: bs, pos, some (tok, start, quoted) =>
    if (quoted && b == 34) || (!quoted && isSpace b) then
      (tok.reverse, (start : Int)) :: tokenizeFrom bs (pos + 1) none
    else tokenizeFrom bs (pos + 1) (some (b :: tok, start, quoted))

/-- Modelled from the spec: `ParseArguments` is not among the sources. Section 4.1 step 2 asks for
an argument list that preserves quoted substrings: arguments are separated by white space, and an
argument that opens with a double quote runs to the next double quote. The index of an argument is
its position in the message text, one more than its position in the string given (the text without
its prefix byte), so that `m.Content[indices[1]:]` is the text that follows the first argument, as
step 3 has it. -/
def tokenizeArguments (s : GoString) : List GoString × List Int :=
  ((tokenizeFrom s 1 none).map Prod.fst, (tokenizeFrom s 1 none).map Prod.snd)

/-- The function `strings.ToLower` on ASCII text. -/
def asciiToLower (s : GoString) : GoString :=
  s.map (fun b => if 65 ≤ b ∧ b ≤ 90 then b + 32 else b)

/-- The value of a string of decimal digits, `0` for any other string. -/
def decimalValue (s : GoString) : Nat :=
  if s.all (fun b => decide (48 ≤ b ∧ b ≤ 57)) then s.foldl (fun n b => 10 * n + (b - 48)) 0
  else 0

/-- A sample environment. `roles` lists the roles every user holds. Tokens are split by
`tokenizeArguments`, names are lower-cased as ASCII, ids are decimal numbers; a user has any role
of an empty role set, as section 4.2 item 4 says; the saturation limiter is never saturated and
the cooldown never refuses; no default server is set and private channels cannot be opened. -/
def sampleEnv (roles : GoMap GoString (List GoString)) : Env where
  SBatoi := decimalValue
  SBitoa := fun n => (Nat.toDigits 10 n).map Char.toNat
  ToLower := asciiToLower
  ParseArguments := tokenizeArguments
  getDefaultServer := fun _ => none
  GetUserGuilds := fun _ => []
  UserHasRole := fun _ user role => (mapGetD roles user []).contains role
  UserHasAnyRole := fun _ user allowed =>
    allowed.isEmpty || (mapGetD roles user []).any (fun r => mapHas allowed r)
  GetRoles := fun info c =>
    ((mapGetD info.config.CommandRoles (asciiToLower c.Name) []).map Prod.fst).flatten
  check := fun _ _ _ _ => false
  append := fun limit _ => limit
  RateLimit := fun _ _ => true
  UserChannelCreate := fun _ => none
  randBelow := false

/-- A command named `name` whose handler replies with its first argument. -/
def echoCommand (name : String) : Command where
  Name := str name
  Process := fun args _ _ => { result := args.getD 0 (str "ok"), usepm := false, resultembed := none }

/-- A configuration with the given prefix setting and aliases and no other restriction. -/
def sampleConfig (commandPrefix : GoString) (aliases : GoMap GoString GoString) : BotConfig where
  IgnoreInvalidCommands := false
  AlertRole := 0
  FreeChannels := []
  Aliases := aliases
  CommandPrefix := commandPrefix
  CommandRoles := []
  CommandChannels := []
  CommandLimits := []
  CommandDisabled := []
  CommandPerDuration := 0
  CommandMaxDuration := 20
  
/-- A guild with id 1 and owner 2 that registers the commands `pick`, `z` and `search`. -/
def sampleGuild (config : BotConfig) : GuildInfo where
  ID := str "1"
  OwnerID := str "2"
  config := config
  commands := [(str "pick", echoCommand "Pick"), (str "z", echoCommand "Z"),
    (str "search", echoCommand "Search")]
  commandLast := []
  commandlimit := { times := [], index := 0 }
  hooksOnCommand := []
  hooksOnMessageCreate := []

/-- The bot object as `New` creates it, with id 9, the guild `g` registered as main guild 1 and no
other database guild. -/
def sampleBot (g : GuildInfo) : SweetieBot where
  SelfID := str "9"
  Owners := [(95585199324143616, true)]
  RestrictedCommands := [(str "search", true), (str "lastping", true), (str "setstatus", true)]
  NonServerCommands := [(str "about", true), (str "roll", true), (str "episodegen", true),
    (str "bestpony", true), (str "episodequote", true), (str "help", true),
    (str "listguilds", true), (str "update", true), (str "announce", true),
    (str "dumptables", true), (str "defaultserver", true)]
  MainGuildID := 1
  guilds := [(1, g)]
  dbStatus := true

/-- A message in channel 100 by user 7. -/
def sampleMessage (content : String) : Message :=
  { Content := str content, ChannelID := str "100", AuthorID := str "7" }

/-- A guild with prefix `!` whose aliases send `x` to `y` and `y` to `z`. -/
def aliasChainGuild : GuildInfo :=
  sampleGuild (sampleConfig (str "!") [(str "x", str "y"), (str "y", str "z")])

/-- A guild with the given prefix setting whose aliases send `x` to `az` and `az` to `z`; neither
`x` nor `az` is a registered command, `z` is. -/
def chainGuild (commandPrefix : String) : GuildInfo :=
  sampleGuild (sampleConfig (str commandPrefix) [(str "x", str "az"), (str "az", str "z")])

/-- A guild with the given prefix setting and the alias of the `basic.aliases` help text,
`kawaii` for `pick cute`. -/
def kawaiiGuild (commandPrefix : String) : GuildInfo :=
  sampleGuild (sampleConfig (str commandPrefix) [(str "kawaii", str "pick cute")])

/-- A guild with prefix `!` and the given `modules.commandchannels` and `modules.commandroles`. -/
def gatedGuild (channels roles : GoMap GoString (GoMap GoString Bool)) : GuildInfo :=
  sampleGuild
    { sampleConfig (str "!") [] with CommandChannels := channels, CommandRoles := roles }

/-! ## The deadlock detector (`deadlockDetector`, sweetiebot.go 1101-1141) -/

/-- The two local variables of `deadlockDetector`: `counter` is a `uint32`,
`missed` an `int` that the loop never lets grow past 5. -/
structure DetectorState where
  counter : Nat
  missed : Nat
  deriving DecidableEq, Repr

/-- What one pass of the detector loop reads from the rest of the process. -/
structure CycleObs where
  /-- The value of `sb.quit.get()` at the loop head. -/
  quit : Bool
  /-- The lookup `sb.guilds[sb.MainGuildID]`: the `basic.commandprefix` of the main guild when it is
  registered. -/
  mainGuild : Option GoString
  /-- The value of `atomic.LoadUint32(&sb.heartbeat)` in the comparison after the sleep. -/
  hbCheck : Nat
  /-- The value of `atomic.LoadUint32(&sb.heartbeat)` stored into `counter` on a miss. -/
  hbStore : Nat
  deriving DecidableEq, Repr

/-- The result of one pass of the detector loop. -/
structure CycleOutcome where
  state : DetectorState
  /-- The text of the synthetic message handed to `deadlockTestFunc`, if one was dispatched. -/
  dispatched : Option GoString
  /-- Whether `os.Exit(-1)` was reached. -/
  exited : Bool
  deriving DecidableEq, Repr

/-- The value `sb.heartbeat` is created with in `New`. -/
def initialHeartbeat : Nat := 4294967290

/-- The state `deadlockDetector` starts from: `counter = sb.heartbeat`, `missed = 0`. -/
def DetectorState.init : DetectorState := { counter := initialHeartbeat, missed := 0 }

/-- One pass of the body of the `for` loop of `deadlockDetector`. -/
def detectorCycle (s : DetectorState) (o : CycleObs) : CycleOutcome :=
  match o.mainGuild with
  | none => { state := s, dispatched := none, exited := false }
  | some commandPrefix =>
    let s1 : DetectorState :=
      if o.hbCheck = (s.counter + 1) % 2 ^ 32 then
        { counter := (s.counter + 1) % 2 ^ 32, missed := 0 }
      else
        { counter := o.hbStore, missed := s.missed + 1 }
    { state := s1
      dispatched := some (commandPrefix ++ str "about")
      exited := decide (s1.missed ≥ 5) }

/-- The loop of `deadlockDetector` over a sequence of observations: the outcome of every pass
that is run. The loop ends at the quit flag and at `os.Exit`. -/
def deadlockDetector (s : DetectorState) : List CycleObs → List CycleOutcome
  | [] => []
  | o :: os =>
    if o.quit then []
    else
      let r := detectorCycle s o
      r :: (if r.exited then [] else deadlockDetector r.state os)

/-- An observation of a cycle in which the main guild, with prefix setting `p`, is registered and
the heartbeat counter reads `h`. -/
def stalled (h : Nat) (p : GoString) : CycleObs :=
  { quit := false, mainGuild := some p, hbCheck := h, hbStore := h }

/-- An observation of a cycle in which the main guild is not registered; `h` are the values the
heartbeat counter has, which such a cycle does not read. -/
def guildAbsent (h : Nat × Nat) : CycleObs :=
  { quit := false, mainGuild := none, hbCheck := h.1, hbStore := h.2 }

/-- The observations of a run in which the quit flag stays clear, the main guild is registered and
the heartbeat counter, `c` before the first cycle, has advanced by exactly one (as a `uint32`) at
the end of every cycle. -/
def Advancing : Nat → List CycleObs → Prop
  | _, [] => True
  | c, o :: os =>
    o.quit = false ∧ o.mainGuild.isSome = true ∧ o.hbCheck = (c + 1) % 2 ^ 32 ∧
      Advancing ((c + 1) % 2 ^ 32) os

/-! ## Kinds of events -/

/-- Whether the event sends a text or an embed to a channel. -/
def Event.isSend : Event → Bool
  | Event.ChannelMessageSend _ _ => true
  | Event.Error _ _ => true
  | Event.SendMessage _ _ => true
  | Event.SendEmbed _ _ => true
  | _ => false

/-- Whether the event is the call of a command handler. -/
def Event.isProcess : Event → Bool
  | Event.Process _ _ _ _ => true
  | _ => false

/-- Whether the event writes an audit record. -/
def Event.isAudit : Event → Bool
  | Event.Audit _ _ _ => true
  | _ => false

/-- Whether the event is a call of `commandlimit.check`. -/
def Event.isCheck : Event → Bool
  | Event.check _ _ _ => true
  | _ => false

/-- Whether the event is a call of `commandlimit.append`. -/
def Event.isAppend : Event → Bool
  | Event.append _ => true
  | _ => false

/-- Whether the event reads or writes the cooldown table `commandLast`. -/
def Event.isCooldown : Event → Bool
  | Event.readCommandLast _ _ => true
  | Event.writeCommandLast _ _ _ => true
  | _ => false

/-- The entry of a cooldown table for a channel and a command, `none` when there is none. -/
def cooldownEntry (table : GoMap GoString (GoMap GoString Int)) (channel command : GoString) :
    Option Int :=
  mapGet? (mapGetD table channel []) command

/-- The guild with the saturation limiter `limit` in place of `info.commandlimit`. -/
def withLimit (info : GuildInfo) (limit : SaturationLimit) : GuildInfo :=
  { info with commandlimit := limit }

/-- Lines 739-744: the guild after the write `info.commandLast[channel][command] = t`. -/
def recordCooldown (info : GuildInfo) (channel command : GoString) (t : Int) : GuildInfo :=
  let inner := mapSet (mapGetD info.commandLast channel []) command t
  { info with commandLast := mapSet info.commandLast channel inner }

/-- Line 725: the condition of the role denial; `isOwner` is the local after line 697. -/
def roleDenies (env : Env) (m : Message) (info : GuildInfo) (cmdname : GoString)
    (isOwner isSelf : Bool) : Bool :=
  !isOwner && !isSelf &&
    !env.UserHasAnyRole info m.AuthorID (mapGetD info.config.CommandRoles cmdname [])

/-- Line 731: whether the cooldown of the command is consulted. -/
def cooldownApplies (info : GuildInfo) (cmdname : GoString) (isfree isSelf : Bool) : Bool :=
  !isfree && decide (mapGetD info.config.CommandLimits cmdname 0 > 0) && !isSelf

/-- Line 733: the value read into `lastcmd`, `0` when the table has no entry. -/
def lastInvocation (info : GuildInfo) (channel cmdname : GoString) : Int :=
  mapGetD (mapGetD info.commandLast channel []) cmdname 0

/-- Lines 719 and 723: the calls of the saturation limiter for an invocation it does not deny. -/
def saturationEvents (env : Env) (m : Message) (info : GuildInfo) (t : Int)
    (isdebug isfree isSelf : Bool) : List Event :=
  if saturationApplies env m info isdebug isfree isSelf then
    [Event.check info.config.CommandPerDuration info.config.CommandMaxDuration t, Event.append t]
  else []

/-! ## The rate limiters as the specification describes them -/

/-- Modelled from the spec: `RateLimit` is not among the sources. Section 4.3, Tier B: "if
`now − last < L`, deny and report remaining time; otherwise allow". The result is `true` when the
invocation is allowed; `now` is the clock the function reads. -/
def RateLimit (now prevtime interval : Int) : Bool :=
  !decide (now - prevtime < interval)

/-- The remaining wait of section 4.3 for a cooldown `interval`, the last invocation at `prevtime`
and the clock at `now`. -/
def remainingWait (now prevtime interval : Int) : Int :=
  interval - (now - prevtime)

/-- Modelled from the spec: `SaturationLimit.check` is not among the sources. Section 4.3, Tier A:
"count how many stored timestamps fall within `[now−D, now]`; if that count is ≥ N, the limiter is
saturated". The result is `true` when the limiter is saturated. -/
def SaturationLimit.check (s : SaturationLimit) (num period curtime : Int) : Bool :=
  decide (num ≤ ((s.times.filter
    (fun x => decide (curtime - period ≤ x ∧ x ≤ curtime))).length : Int))

/-- Modelled from the spec: `SaturationLimit.append` is not among the sources. Section 4.3, Tier A:
"the caller records `now` into the next circular slot (overwriting the oldest)": the cursor moves
to the next slot, back to the first after the last, and that slot takes the time. -/
def SaturationLimit.append (s : SaturationLimit) (time : Int) : SaturationLimit :=
  if s.times.length = 0 then s
  else
    { times := s.times.set ((s.index + 1) % (s.times.length : Int)).toNat time
      index := (s.index + 1) % (s.times.length : Int) }

/-- The sample environment with the rate limiters of the specification: the saturation limiter
counts the time stamps of its buffer and the cooldown reads the clock `now`. -/
def clockEnv (now : Int) (roles : GoMap GoString (List GoString)) : Env :=
  { sampleEnv roles with
    check := fun s num period curtime => s.check num period curtime
    append := fun s time => s.append time
    RateLimit := fun prevtime interval => RateLimit now prevtime interval }

/-- A guild with prefix `!` in which at most `n` commands run every 20 seconds, with the
cooldowns `limits`, the cooldown table `last` and the role lists `roles`; the buffer of the
limiter has `2 * n` slots, as `AttachToGuild` makes it. -/
def limitedGuild (n : Nat) (limits : GoMap GoString Int)
    (last : GoMap GoString (GoMap GoString Int))
    (roles : GoMap GoString (GoMap GoString Bool)) : GuildInfo :=
  { sampleGuild
      { sampleConfig (str "!") [] with
        CommandPerDuration := n, CommandLimits := limits, CommandRoles := roles } with
    commandLast := last
    commandlimit := { times := List.replicate (2 * n) 0, index := 0 } }

/-- A guild with prefix `!` and the given `modules.commanddisabled`. -/
def disabledGuild (disabled : GoMap GoString Bool) : GuildInfo :=
  sampleGuild { sampleConfig (str "!") [] with CommandDisabled := disabled }

/-- A guild with prefix `!` in which one command may run every 20 seconds and channel 100 is a
free channel. -/
def freeChannelGuild : GuildInfo :=
  sampleGuild
    { sampleConfig (str "!") [] with
      FreeChannels := [(str "100", true)], CommandPerDuration := 1 }

/-- The message the deadlock detector sends for the guild `info` (lines 1115-1124), with the bot
`sb` as author, for a command named `name` in place of `about`. -/
def heartbeatMessage (sb : SweetieBot) (info : GuildInfo) (name : String) : Message :=
  { Content := info.config.CommandPrefix ++ str name, ChannelID := str "heartbeat",
    AuthorID := sb.SelfID }

/-- A guild with prefix `!` in which one command may run every 20 seconds and `pick` has a
cooldown of 5 seconds and is allowed to role 55 only. -/
def lockedGuild : GuildInfo :=
  limitedGuild 1 [(str "pick", 5)] [] [(str "pick", [(str "55", true)])]

/-- Lines 764-768: the call that delivers the reply `r` to the channel `target`. -/
def replyEvent (target : GoString) (r : Reply) : Event :=
  match r.resultembed with
  | some embed => Event.SendEmbed target embed
  | none => Event.SendMessage target (Diag.reply r.result)

/-- A command named `name` whose handler returns the reply `r` whatever its arguments. -/
def constCommand (name : String) (r : Reply) : Command where
  Name := str name
  Process := fun _ _ _ => r

/-- The sample environment in which `UserChannelCreate` succeeds and returns the channel 555. -/
def pmEnv : Env :=
  { sampleEnv [] with UserChannelCreate := fun _ => some (str "555") }

/-- A guild with the given prefix setting that registers the command `about`. -/
def aboutGuild (commandPrefix : String) : GuildInfo :=
  { sampleGuild (sampleConfig (str commandPrefix) []) with
    commands := [(str "about", echoCommand "About")] }

/-- A guild with prefix `!` and the given `modules.commandperduration`, whose limiter has the
buffer `times`. -/
def burstGuild (n : Int) (times : List Int) : GuildInfo :=
  { sampleGuild { sampleConfig (str "!") [] with CommandPerDuration := n } with
    commandlimit := { times := times, index := 0 } }

/-! ## `BulkDelete` (sweetiebot.go 262-273) -/

/-- How a run of `BulkDelete` stands: returned, with the calls of `ChannelMessagesBulkDelete` made
and whether the error returned is non-nil, or still in its loop after the given number of
iterations. -/
inductive BulkRun
  | returned (calls : List (List GoString)) (failed : Bool)
  | looping (calls : List (List GoString))
  deriving DecidableEq, Repr

/-- The slice expression `s[i:j]` for bounds in range. -/
def sliceBetween (s : List GoString) (i j : Nat) : List GoString :=
  (s.take j).drop i

/-- The loop of lines 265-270 and the `return` of line 271, run for at most `fuel` iterations of
the loop. `transport batch` is whether `ChannelMessagesBulkDelete(channelID, batch)` returns a nil
error; `i` is the local `i`, which no statement of the loop assigns; `calls` are the calls made so
far. -/
def bulkDeleteLoop (transport : List GoString → Bool) (messages : List GoString) (i : Nat)
    (calls : List (List GoString)) : Nat → BulkRun
  | 0 => BulkRun.looping calls
  | fuel + 1 =>
    if (messages.length : Int) - (i : Int) > 99 then
      if transport (sliceBetween messages i (i + 99)) then
        bulkDeleteLoop transport messages i (calls ++ [sliceBetween messages i (i + 99)]) fuel
      else BulkRun.returned (calls ++ [sliceBetween messages i (i + 99)]) true
    else BulkRun.returned (calls ++ [messages.drop i]) (!transport (messages.drop i))

/-- The method `BulkDelete(channelID, messages)`, with `i := 0`. -/
def BulkDelete (transport : List GoString → Bool) (messages : List GoString) (fuel : Nat) :
    BulkRun :=
  bulkDeleteLoop transport messages 0 [] fuel

/-- The message ids `0`, `1`, ..., `n - 1`, in decimal. -/
def sampleIds (n : Nat) : List GoString :=
  (List.range n).map (fun k => (Nat.toDigits 10 k).map Char.toNat)

/-! ## `idleCheckLoop` (sweetiebot.go 1034-1087): the idle hooks -/

/-- The constant `time.Second`, a `time.Duration` in nanoseconds. -/
def nanosPerSecond : Int := 1000000000

/-- The method `Time.Sub` of Go: the difference as a `time.Duration`, or the largest or smallest
duration when the difference does not fit into 64 bits. -/
def clampDuration (d : Int) : Int :=
  if d < -(2 ^ 63) then -(2 ^ 63) else if 2 ^ 63 - 1 < d then 2 ^ 63 - 1 else d

/-- Line 1062: `diff := time.Now().UTC().Sub(time.Unix(t, 0))`, where `now` is the reading of the
clock in nanoseconds since the epoch and `t` the recorded time in seconds. -/
def elapsedSince (now t : Int) : Int :=
  clampDuration (now - t * nanosPerSecond)

/-- An idle hook of a guild: `ProcessModule channel` is `info.ProcessModule(ch.ID, h)`, whether
the module of the hook is enabled for the channel, and `IdlePeriod` is `h.IdlePeriod(info)`, an
`int64` number of seconds. -/
structure IdleHook where
  ProcessModule : GoString → Bool
  IdlePeriod : Int

/-- Line 1065: `time.Duration(h.IdlePeriod(info))*time.Second`, a 64-bit product. -/
def idleThreshold (h : IdleHook) : Int :=
  wrapInt (h.IdlePeriod * nanosPerSecond)

/-- Lines 1064-1068: the loop over `info.hooks.OnIdle` for one channel, from position `i` on; the
result lists the calls `h.OnIdle(info, ch)` as pairs of the channel and the position of the
hook. -/
def idleHooksFrom (channel : GoString) (diff : Int) : List IdleHook → Nat → List (GoString × Nat)
  | [], _ => []
  | h :: hs, i =>
    if h.ProcessModule channel && decide (diff ≥ idleThreshold h) then
      (channel, i) :: idleHooksFrom channel diff hs (i + 1)
    else idleHooksFrom channel diff hs (i + 1)

/-- Lines 1058-1070 for one channel: `lastMessages` is `sb.LastMessages` and `now` the reading of
the clock at line 1062. -/
def idleChannel (lastMessages : GoMap GoString Int) (hooks : List IdleHook)
    (channel : GoString) (now : Int) : List (GoString × Nat) :=
  match mapGet? lastMessages channel with
  | some t => idleHooksFrom channel (elapsedSince now t) hooks 0
  | none => []

/-- Lines 1057-1071: the loop over the channels of a guild; each channel comes with the reading of
the clock when the loop reaches it. -/
def idlePass (lastMessages : GoMap GoString Int) (hooks : List IdleHook) :
    List (GoString × Int) → List (GoString × Nat)
  | [] => []
  | (channel, now) :: rest =>
    idleChannel lastMessages hooks channel now ++ idlePass lastMessages hooks rest

/-- An idle hook that is enabled everywhere, with the idle period `seconds`. -/
def sampleIdleHook (seconds : Int) : IdleHook :=
  { ProcessModule := fun _ => true, IdlePeriod := seconds }

/-! ## Numbers as text (`fmt`, `strconv`, `strings`, `sort` of the Go library) -/

/-- The decimal text of a natural number: `%v` of a `byte` or of a non-negative `int`. -/
def fmtNat (n : Nat) : GoString :=
  (Nat.toDigits 10 n).map Char.toNat

/-- The decimal text of an `int`, as `%v` prints it; `45` is `'-'`. -/
def fmtInt (i : Int) : GoString :=
  if i < 0 then 45 :: fmtNat i.natAbs else fmtNat i.toNat

/-- Whether a byte is a decimal digit. -/
def isDigit (b : Nat) : Bool :=
  decide (48 ≤ b ∧ b ≤ 57)

/-- The function `strconv.Atoi`: the value and whether the error is nil. An optional sign (`43` is
`'+'`, `45` is `'-'`) is followed by at least one decimal digit; a malformed text gives `0` and an
error, a value outside the 64-bit range gives the nearest bound and an error. -/
def Atoi (s : GoString) : Int × Bool :=
  let digits :=
    match s with
    | 43 :: r => r
    | 45 :: r => r
    | _ => s
  if digits.isEmpty || !digits.all isDigit then (0, false)
  else
    let n : Nat := digits.foldl (fun n b => 10 * n + (b - 48)) 0
    let v : Int := if s.head? = some 45 then -(n : Int) else (n : Int)
    if v < -(2 ^ 63) then (-(2 ^ 63), false)
    else if 2 ^ 63 - 1 < v then (2 ^ 63 - 1, false)
    else (v, true)

/-- The function `sort.Ints`: ascending order. -/
def sortInts (l : List Int) : List Int :=
  l.insertionSort (fun a b => a ≤ b)

/-- The function `strings.Split(s, sep)` for a separator of one byte. -/
def splitOnByte (sep : Nat) : GoString → List GoString
  | [] => [[]]
  | b :: bs =>
    if b = sep then [] :: splitOnByte sep bs
    else
      match splitOnByte sep bs with
      | [] => [[b]]
      | part :: parts => (b :: part) :: parts

/-- The conversion `byte(i)` of an `int`. -/
def toByte (i : Int) : Nat :=
  (i % 256).toNat

/-- The keys of a map, each once: what a function such as `MapIntToSlice` returns, in some
order. -/
def mapKeys {β : Type} (m : GoMap Int β) : List Int :=
  (m.map Prod.fst).dedup

/-! ## `rulesCommand.Process` (HelpModule.go 179-206) -/

/-- The replies of `rulesCommand.Process`, by the data their text is built from. -/
inductive RulesReply
  /-- Line 181: the text that the rules of the server are not known. -/
  | unknown
  /-- Line 194: the text `strings.Join(lines, "\n")` and the hint `len(rules) > 4`. -/
  | listing (lines : List GoString) (usepm : Bool)
  /-- Line 199: "Rule index must be a number!". -/
  | notNumber
  /-- Line 203: the text that there is no such rule. -/
  | notRule
  /-- Line 205: the text `fmt.Sprintf("%v. %s", arg, rule)`. -/
  | rule (index : Int) (text : GoString)
  deriving DecidableEq, Repr

/-- Line 191: the line `fmt.Sprintf("%v. %s", v, info.config.Help.Rules[v])`. -/
def ruleLine (rules : GoMap Int GoString) (v : Int) : GoString :=
  fmtInt v ++ str ". " ++ mapGetD rules v []

/-- Line 185: the header line, `name` being `info.Name`. -/
def rulesHeader (name : GoString) : GoString :=
  str "Official rules of " ++ name ++ str ":"

/-- The method `rulesCommand.Process(args, msg, indices, info)`: `rules` is
`info.config.Help.Rules`, `hide` is `info.config.Help.HideNegativeRules`, `name` is `info.Name`.
`MapIntToSlice` is not among the sources and is a parameter. -/
def rulesCommandProcess (MapIntToSlice : GoMap Int GoString → List Int) (name : GoString)
    (rules : GoMap Int GoString) (hide : Bool) (args : List GoString) : RulesReply :=
  if rules.length = 0 then RulesReply.unknown
  else
    match args with
    | [] =>
      let keys := sortInts (MapIntToSlice rules)
      let lines := rulesHeader name ::
        (keys.filter (fun v => !hide || decide (v ≥ 0))).map (ruleLine rules)
      RulesReply.listing lines (decide (lines.length > 4))
    | a :: _ =>
      if !(Atoi a).2 then RulesReply.notNumber
      else
        match mapGet? rules (Atoi a).1 with
        | none => RulesReply.notRule
        | some rule => RulesReply.rule (Atoi a).1 rule

/-- The rules `2`, `-1` and `1` of a sample server. -/
def sampleRules : GoMap Int GoString :=
  [(2, str "be kind"), (-1, str "joke"), (1, str "no spam")]

/-! ## `Version` and `changelogCommand.Process` (sweetiebot.go 184-209, HelpModule.go 223-263) -/

/-- The struct `Version`; each field is a `byte`. -/
structure Version where
  major : Nat
  minor : Nat
  revision : Nat
  build : Nat
  deriving DecidableEq, Repr

/-- The method `Version.String`; `46` is `'.'`. -/
def Version.String (v : Version) : GoString :=
  if v.build > 0 then
    fmtNat v.major ++ (46 :: (fmtNat v.minor ++ (46 :: (fmtNat v.revision ++
      (46 :: fmtNat v.build)))))
  else if v.revision > 0 then
    fmtNat v.major ++ (46 :: (fmtNat v.minor ++ (46 :: fmtNat v.revision)))
  else fmtNat v.major ++ (46 :: fmtNat v.minor)

/-- The function `AssembleVersion`; the value is a non-negative `int` below `2^32` when the
arguments are bytes. -/
def AssembleVersion (major minor revision build : Nat) : Nat :=
  build ||| (revision <<< 8) ||| (minor <<< 16) ||| (major <<< 24)

/-- The method `Version.Integer`. -/
def Version.Integer (v : Version) : Nat :=
  AssembleVersion v.major v.minor v.revision v.build

/-- Line 232 of HelpModule.go: the version listed for the key `k` of `sb.changelog`. -/
def versionOfKey (k : Int) : Version :=
  { major := toByte (k >>> (24 : Nat)), minor := toByte (Int.land (k >>> (16 : Nat)) 0xFF),
    revision := toByte (Int.land (k >>> (8 : Nat)) 0xFF), build := toByte (Int.land k 0xFF) }

/-- Lines 240-256 of HelpModule.go: the version read from an argument; the errors of
`strconv.Atoi` are dropped. -/
def parseVersion (arg : GoString) : Version :=
  let s := splitOnByte 46 arg
  { major := if s.length > 0 then toByte (Atoi (s.getD 0 [])).1 else 0,
    minor := if s.length > 1 then toByte (Atoi (s.getD 1 [])).1 else 0,
    revision := if s.length > 2 then toByte (Atoi (s.getD 2 [])).1 else 0,
    build := if s.length > 3 then toByte (Atoi (s.getD 3 [])).1 else 0 }

/-- The replies of `changelogCommand.Process`, by the data their text is built from. -/
inductive ChangelogReply
  /-- Line 235: the lines joined inside a code block, and the hint `len(versions) > 6`. -/
  | listing (lines : List GoString) (usepm : Bool)
  /-- Line 260: "That's not a valid version of Sweetie Bot! ...". -/
  | invalid
  /-- Line 262: the text built from `v.String()` and the changelog entry. -/
  | entry (version : GoString) (log : GoString)
  deriving DecidableEq, Repr

/-- Line 227 of HelpModule.go: the header line of the listing. -/
def changelogHeader : GoString :=
  str "All versions of Sweetie Bot with a changelog:"

/-- The method `changelogCommand.Process(args, msg, indices, info)`: `changelog` is
`sb.changelog` and `current` is `sb.version`. `MapIntToSlice` is not among the sources and is a
parameter; `strings.ToLower` is taken on ASCII text. -/
def changelogCommandProcess (MapIntToSlice : GoMap Int GoString → List Int)
    (changelog : GoMap Int GoString) (current : Version) (args : List GoString) :
    ChangelogReply :=
  match args with
  | [] =>
    let keys := sortInts (MapIntToSlice changelog)
    let versions := changelogHeader :: keys.reverse.map (fun k => (versionOfKey k).String)
    ChangelogReply.listing versions (decide (versions.length > 6))
  | a :: _ =>
    let v := if asciiToLower a = str "current" then current else parseVersion a
    match mapGet? changelog (v.Integer : Int) with
    | none => ChangelogReply.invalid
    | some log => ChangelogReply.entry v.String log

/-- A changelog with the entries of the versions 0.9.8.14, 0.9.8 and 1.0. -/
def sampleChangelog : GoMap Int GoString :=
  [((AssembleVersion 0 9 8 14 : Nat), str "startup"), ((AssembleVersion 0 9 8 0 : Nat), str "first"),
    ((AssembleVersion 1 0 0 0 : Nat), str "one")]

/-! ## `PartialSanitize` (sweetiebot.go 275-279) -/

/-- The loop of `strings.Replace(s, old, new, -1)` for a non-empty `old`: the occurrences of `old`
are found from left to right without overlap and replaced by `new`; `skip` counts the bytes of the
occurrence just replaced that are still to be passed over. -/
def replaceAllFrom (old new : GoString) : GoString → Nat → GoString
  | [], _ => []
  | _ :: cs, skip + 1 => replaceAllFrom old new cs skip
  | c :: cs, 0 =>
    if old.isPrefixOf (c :: cs) then new ++ replaceAllFrom old new cs (old.length - 1)
    else c :: replaceAllFrom old new cs 0

/-- The function `strings.Replace(s, old, new, -1)` for a non-empty `old`. -/
def stringsReplace (s old new : GoString) : GoString :=
  replaceAllFrom old new s 0

/-- The function `strings.Contains(s, p)`, with the pattern first. -/
def containsSub (p : GoString) : GoString → Bool
  | [] => p.isEmpty
  | c :: cs => p.isPrefixOf (c :: cs) || containsSub p cs

/-- Three backticks; `96` is the backtick. -/
def fence : GoString := [96, 96, 96]

/-- Three backticks, each after a backslash (`92`): the replacement of line 277. -/
def escapedFence : GoString := [92, 96, 92, 96, 92, 96]

/-- The emote opener `[](/`. -/
def emoteOpener : GoString := [91, 93, 40, 47]

/-- The replacement of line 278: the emote opener with the zero-width space U+200B, the bytes
`226 128 139`, between its brackets. -/
def brokenEmoteOpener : GoString := [91, 226, 128, 139, 93, 40, 47]

/-- The function `PartialSanitize`. -/
def PartialSanitize (s : GoString) : GoString :=
  stringsReplace (stringsReplace s fence escapedFence) emoteOpener brokenEmoteOpener

/-- Five backticks. -/
def fiveBackticks : GoString := [96, 96, 96, 96, 96]

/-! ## Theorems: the deadlock detector -/

theorem stalled_ne (h : Nat) : ¬ h = (h + 1) % 2 ^ 32 := by omega

theorem detectorCycle_stalled (h n : Nat) (p : GoString) :
    detectorCycle { counter := h, missed := n } (stalled h p) =
      { state := { counter := h, missed := n + 1 }, dispatched := some (p ++ str "about"),
        exited := decide (n + 1 ≥ 5) } := by
  unfold detectorCycle stalled
  simp only [if_neg (stalled_ne h)]

theorem detector_invariant (obs : List CycleObs) :
    ∀ s : DetectorState, s.missed < 5 →
      ∀ r ∈ deadlockDetector s obs, (r.exited = true ↔ 5 ≤ r.state.missed) := by
  induction obs with
  | nil => intro s _ r hr; simp [deadlockDetector] at hr
  | cons o os ih =>
    intro s hs r hr
    simp only [deadlockDetector] at hr
    split at hr
    · simp at hr
    · rcases List.mem_cons.1 hr with h | h
      · subst h
        unfold detectorCycle
        split
        · simp; omega
        · simp
      · split at h
        · simp at h
        · rename_i hex
          have hlt : (detectorCycle s o).state.missed < 5 := by
            revert hex
            unfold detectorCycle
            split
            · intro _; exact hs
            · simp
          exact ih _ hlt r h

/-- C1. Starting from `missed = 0` with the heartbeat at `h`: five consecutive cycles in which the
heartbeat counter still reads `h` count 1, 2, 3, 4, 5 misses and reach `os.Exit` at the end of the
fifth cycle and not before; and in every run from `missed = 0`, a cycle reaches `os.Exit` exactly
when the miss counter has reached 5, so never while fewer than five misses are counted. -/
theorem deadlockDetector_five_misses (h c : Nat) (p1 p2 p3 p4 p5 : GoString)
    (obs : List CycleObs) :
    (deadlockDetector { counter := h, missed := 0 }
        [stalled h p1, stalled h p2, stalled h p3, stalled h p4, stalled h p5]).map
      (fun r => (r.state.missed, r.exited))
      = [(1, false), (2, false), (3, false), (4, false), (5, true)] ∧
    ∀ r ∈ deadlockDetector { counter := c, missed := 0 } obs,
      (r.exited = true ↔ 5 ≤ r.state.missed) := by
  refine ⟨?_, detector_invariant obs _ (by simp)⟩
  have hq : ∀ p, (stalled h p).quit = false := fun _ => rfl
  simp [deadlockDetector, detectorCycle_stalled, hq]

theorem advancing_run (obs : List CycleObs) :
    ∀ s : DetectorState, Advancing s.counter obs →
      (deadlockDetector s obs).length = obs.length ∧
      ∀ r ∈ deadlockDetector s obs, r.state.missed = 0 ∧ r.exited = false := by
  induction obs with
  | nil => intro s _; simp [deadlockDetector]
  | cons o os ih =>
    intro s hadv
    obtain ⟨hq, hg, hb, hrest⟩ := hadv
    obtain ⟨p, hp⟩ := Option.isSome_iff_exists.1 hg
    have hcyc : detectorCycle s o =
        { state := { counter := (s.counter + 1) % 2 ^ 32, missed := 0 },
          dispatched := some (p ++ str "about"), exited := false } := by
      simp [detectorCycle, hp, hb]
    have ih1 := ih { counter := (s.counter + 1) % 2 ^ 32, missed := 0 } hrest
    simp only [deadlockDetector, hq, hcyc]
    refine ⟨by simpa using ih1.1, ?_⟩
    intro r hr
    simp only [Bool.false_eq_true, if_false, List.mem_cons] at hr
    rcases hr with h | h
    · subst h; simp
    · exact ih1.2 r h

/-- C2. For a run of any length in which the heartbeat counter advances by exactly one (as a
`uint32`, so also across the wrap from `2 ^ 32 - 1` to `0`) in every cycle, every cycle is run,
the miss counter is zero after every cycle and `os.Exit` is never reached. -/
theorem deadlockDetector_advancing (s : DetectorState) (obs : List CycleObs)
    (h : Advancing s.counter obs) :
    (deadlockDetector s obs).length = obs.length ∧
    ∀ r ∈ deadlockDetector s obs, r.state.missed = 0 ∧ r.exited = false :=
  advancing_run obs s h

/-- C3. In a cycle that finds the main guild, the miss counter is zero afterwards exactly when the
heartbeat read at the end of the cycle is the remembered value plus one (as a `uint32`), and it is
the old miss counter plus one exactly when it is not. -/
theorem detectorCycle_missed (s : DetectorState) (quit : Bool) (p : GoString)
    (hbCheck hbStore : Nat) :
    ((detectorCycle s ⟨quit, some p, hbCheck, hbStore⟩).state.missed = 0 ↔
      hbCheck = (s.counter + 1) % 2 ^ 32) ∧
    ((detectorCycle s ⟨quit, some p, hbCheck, hbStore⟩).state.missed = s.missed + 1 ↔
      ¬ hbCheck = (s.counter + 1) % 2 ^ 32) := by
  by_cases h : hbCheck = (s.counter + 1) % 2 ^ 32
  · simp only [detectorCycle, if_pos h]
    exact ⟨⟨fun _ => h, fun _ => trivial⟩,
      ⟨fun h0 => absurd h0 (Nat.succ_ne_zero _).symm, fun h1 => absurd h h1⟩⟩
  · simp only [detectorCycle, if_neg h]
    exact ⟨⟨fun h0 => absurd h0 (Nat.succ_ne_zero _), fun h1 => absurd h1 h⟩,
      ⟨fun _ => h, fun _ => trivial⟩⟩

/-- C4. Cycles in which the main guild is not registered are skipped, however many occur in a
row: each is run to its end without dispatching a synthetic message, leaves `counter` and `missed`
as they were, and does not reach `os.Exit`. -/
theorem deadlockDetector_guild_absent (s : DetectorState) (hs : List (Nat × Nat)) :
    deadlockDetector s (hs.map guildAbsent) =
      hs.map (fun _ => { state := s, dispatched := none, exited := false }) := by
  induction hs with
  | nil => simp [deadlockDetector]
  | cons h hs ih => simp [deadlockDetector, detectorCycle, guildAbsent] at ih ⊢; exact ih

/-- A run of seven advancing cycles from the initial state, across the wrap of the counter. -/
theorem deadlockDetector_advancing_witness :
    (deadlockDetector DetectorState.init
        ([4294967291, 4294967292, 4294967293, 4294967294, 4294967295, 0, 1].map
          (fun h => stalled h (str "!")))).length = 7 ∧
    ∀ r ∈ deadlockDetector DetectorState.init
        ([4294967291, 4294967292, 4294967293, 4294967294, 4294967295, 0, 1].map
          (fun h => stalled h (str "!"))),
      r.state.missed = 0 ∧ r.exited = false :=
  deadlockDetector_advancing DetectorState.init _
    (by simp [Advancing, DetectorState.init, initialHeartbeat, stalled])

/-! ## Theorems: the command test of `SBProcessCommand` -/

theorem isCommand_iff (pre : Nat) (content : GoString) :
    isCommand pre content = true ↔ ∃ b rest, content = pre :: b :: rest ∧ b ≠ pre := by
  rcases content with _ | ⟨c0, _ | ⟨c1, rest⟩⟩
  · simp [isCommand]
  · simp [isCommand]
  · simp only [isCommand, List.length_cons, List.getD_cons_zero, List.getD_cons_succ]
    constructor
    · intro h
      simp at h
      refine ⟨c1, rest, by rw [h.1], ?_⟩
      rcases h.2 with h2 | h2
      · omega
      · exact h2
    · rintro ⟨b, r, h, hb⟩
      simp only [List.cons.injEq] at h
      obtain ⟨h0, h1, _⟩ := h
      subst h0 h1
      simp [hb]

theorem executeStage_order (env : Env) (m : Message) (info : GuildInfo) (c : Command)
    (cmdname : GoString) (args : List GoString) (indices : List Int) (isPrivate : Bool)
    (events : List Event) :
    (executeStage env m info c cmdname args indices isPrivate events).exit.order = 7 := by
  unfold executeStage
  split <;> rfl

theorem cooldownStage_order (env : Env) (m : Message) (info : GuildInfo) (c : Command)
    (cmdname : GoString) (args : List GoString) (indices : List Int) (t : Int)
    (isPrivate isfree isSelf : Bool) (events : List Event) :
    6 ≤ (cooldownStage env m info c cmdname args indices t isPrivate isfree isSelf
      events).exit.order := by
  unfold cooldownStage
  simp only []
  split_ifs
  all_goals first
    | exact le_refl _
    | (rw [executeStage_order]; decide)

theorem roleStage_order (env : Env) (m : Message) (info : GuildInfo) (c : Command)
    (cmdname : GoString) (args : List GoString) (indices : List Int) (t : Int)
    (isPrivate isfree isOwner isSelf : Bool) (events : List Event) :
    5 ≤ (roleStage env m info c cmdname args indices t isPrivate isfree isOwner isSelf
      events).exit.order := by
  unfold roleStage
  split_ifs
  all_goals first
    | exact le_refl _
    | exact le_trans (by decide) (cooldownStage_order _ _ _ _ _ _ _ _ _ _ _ _)

theorem saturationStage_order (env : Env) (m : Message) (info : GuildInfo) (c : Command)
    (cmdname : GoString) (args : List GoString) (indices : List Int) (t : Int)
    (isdebug isPrivate isfree isOwner isSelf : Bool) (events : List Event) :
    4 ≤ (saturationStage env m info c cmdname args indices t isdebug isPrivate isfree isOwner
      isSelf events).exit.order := by
  unfold saturationStage
  simp only []
  split_ifs
  all_goals first
    | exact le_refl _
    | exact le_trans (by decide) (roleStage_order _ _ _ _ _ _ _ _ _ _ _ _ _)

theorem runCommand_order (sb : SweetieBot) (env : Env) (m : Message) (info : GuildInfo)
    (c : Command) (args : List GoString) (indices : List Int) (t : Int)
    (isdbguild isdebug isPrivate isfree isOwner isSelf : Bool) :
    1 ≤ (runCommand sb env m info c args indices t isdbguild isdebug isPrivate isfree isOwner
      isSelf).exit.order := by
  unfold runCommand
  simp only []
  split_ifs
  all_goals first
    | exact le_refl _
    | exact Nat.le_succ _
    | exact Nat.le_add_left 1 2
    | exact le_trans (by decide) (saturationStage_order _ _ _ _ _ _ _ _ _ _ _ _ _ _)

theorem runCommand_exit_ne (sb : SweetieBot) (env : Env) (m : Message) (info : GuildInfo)
    (c : Command) (args : List GoString) (indices : List Int) (t : Int)
    (isdbguild isdebug isPrivate isfree isOwner isSelf : Bool) :
    (runCommand sb env m info c args indices t isdbguild isdebug isPrivate isfree isOwner
      isSelf).exit ≠ Exit.notCommand := by
  intro h
  have h1 := runCommand_order sb env m info c args indices t isdbguild isdebug isPrivate isfree
    isOwner isSelf
  rw [h] at h1
  exact absurd h1 (by decide)

theorem resolveGuild_error_ne (sb : SweetieBot) (env : Env) (m : Message)
    (info : Option GuildInfo) (arg : GoString) (e : Exit × Diag)
    (h : resolveGuild sb env m info arg = Except.error e) : e.1 ≠ Exit.notCommand := by
  unfold resolveGuild at h
  split at h
  · simp at h
  · split_ifs at h
    · cases h; simp
    · revert h
      simp only []
      split
      · simp
      · split_ifs
        · intro h; cases h; simp
        · split
          · simp
          · intro h; cases h; simp
        · split
          · simp
          · intro h; cases h; simp

theorem dispatch_exit_ne (sb : SweetieBot) (env : Env) (m : Message) (info : Option GuildInfo)
    (g : GuildInfo) (args : List GoString) (indices : List Int) (t : Int)
    (isdbguild isdebug : Bool) (events : List Event) :
    (dispatch sb env m info g args indices t isdbguild isdebug events).exit ≠ Exit.notCommand := by
  unfold dispatch
  simp only []
  generalize resolveCommand env g m args indices (env.ToLower (args.getD 0 [])) = r
  by_cases hp : r.panicked = true
  · simp [hp]
  · simp only [hp, Bool.false_eq_true, if_false]
    cases r.c with
    | some c => simpa using runCommand_exit_ne _ _ _ _ _ _ _ _ _ _ _ _ _ _
    | none => simp

theorem processCommand_exit_ne (sb : SweetieBot) (env : Env) (m : Message)
    (info : Option GuildInfo) (t : Int) (isdbguild isdebug : Bool) (events : List Event) :
    (processCommand sb env m info t isdbguild isdebug events).exit ≠ Exit.notCommand := by
  unfold processCommand
  simp only []
  split
  · simp
  · split
    · rename_i e he
      simpa using resolveGuild_error_ne sb env m info _ e he
    · exact dispatch_exit_ne _ _ _ _ _ _ _ _ _ _ _

theorem SBProcessCommand_exit_notCommand (sb : SweetieBot) (env : Env) (m : Message)
    (info : Option GuildInfo) (t : Int) (isdbguild isdebug : Bool) :
    (SBProcessCommand sb env m info t isdbguild isdebug).exit = Exit.notCommand ↔
      isCommand (effectivePrefix info) m.Content = false := by
  unfold SBProcessCommand
  by_cases hc : isCommand (effectivePrefix info) m.Content = true
  · simp only [hc, if_true]
    constructor
    · intro h
      exfalso
      revert h
      split_ifs
      · simp
      · exact processCommand_exit_ne _ _ _ _ _ _ _ _
    · intro h; simp at h
  · have hc1 : isCommand (effectivePrefix info) m.Content = false := by simpa using hc
    simp only [hc1, Bool.false_eq_true, if_false]
    cases info <;> simp

/-- C5, counterexample. In a guild whose prefix is `!`, the text `!` begins with the prefix and is
not the prefix doubled, yet `SBProcessCommand` does not treat it as a command. -/
theorem SBProcessCommand_lone_prefix :
    specIsCommand (effectivePrefix (some (sampleGuild (sampleConfig (str "!") []))))
      (str "!") = true ∧
    (SBProcessCommand (sampleBot (sampleGuild (sampleConfig (str "!") []))) (sampleEnv [])
      (sampleMessage "!") (some (sampleGuild (sampleConfig (str "!") []))) 0 true false).exit
      = Exit.notCommand := by
  decide

/-- C5, amended. `SBProcessCommand` treats a text as a command exactly when the text has at least
two bytes, the first is the prefix byte and the second is not; the prefix byte is the configured
`basic.commandprefix` when that setting is one byte long and `!` (33) otherwise, also when there
is no guild. Any other text only runs the `OnMessageCreate` hooks of the guild: nothing is
tokenized or resolved and the guild is left as it was. -/
theorem SBProcessCommand_command_test (sb : SweetieBot) (env : Env) (m : Message)
    (info : Option GuildInfo) (t : Int) (isdbguild isdebug : Bool) :
    ((SBProcessCommand sb env m info t isdbguild isdebug).exit ≠ Exit.notCommand ↔
      ∃ b rest, m.Content = effectivePrefix info :: b :: rest ∧ b ≠ effectivePrefix info) ∧
    ((SBProcessCommand sb env m info t isdbguild isdebug).exit = Exit.notCommand →
      (SBProcessCommand sb env m info t isdbguild isdebug).events =
          (match info with
           | some g => runOnMessageCreate m g.hooksOnMessageCreate 0
           | none => []) ∧
      (SBProcessCommand sb env m info t isdbguild isdebug).guild = info) ∧
    effectivePrefix none = 33 ∧
    (∀ g b, info = some g → g.config.CommandPrefix = [b] → effectivePrefix info = b) ∧
    (∀ g, info = some g → g.config.CommandPrefix.length ≠ 1 → effectivePrefix info = 33) := by
  refine ⟨?_, ?_, rfl, ?_, ?_⟩
  · rw [← isCommand_iff, Ne, SBProcessCommand_exit_notCommand]
    simp
  · intro h
    rw [SBProcessCommand_exit_notCommand] at h
    unfold SBProcessCommand
    simp only [h, Bool.false_eq_true, if_false]
    cases info <;> simp
  · intro g b hg hb
    subst hg
    simp [effectivePrefix, hb]
  · intro g hg hlen
    subst hg
    simp [effectivePrefix, hlen]

/-! ## Theorems: alias resolution -/

theorem runOnCommand_events (m : Message) (hs : List Hook) :
    ∀ (i : Nat) (ignore : Bool), ∀ e ∈ (runOnCommand m hs i ignore).2,
      ∃ k, e = Event.OnCommand k := by
  induction hs with
  | nil => intro i ignore e he; simp [runOnCommand] at he
  | cons h hs ih =>
    intro i ignore e he
    unfold runOnCommand at he
    split_ifs at he
    · exact ih _ _ e he
    · simp only [List.mem_cons] at he
      rcases he with he | he
      · exact ⟨i, he⟩
      · exact ih _ _ e he
    · exact ih _ _ e he

theorem commandHooks_events (sb : SweetieBot) (env : Env) (m : Message)
    (info : Option GuildInfo) :
    ∀ e ∈ (commandHooks sb env m info).2, ∃ k, e = Event.OnCommand k := by
  intro e he
  unfold commandHooks at he
  split at he
  · split_ifs at he
    · exact runOnCommand_events m _ _ _ e he
    · simp at he
  · simp at he

theorem resolveCommand_alias (env : Env) (g : GuildInfo) (m : Message) (args : List GoString)
    (indices : List Int) (x target text b0 : GoString) (b : Nat) (bs : List GoString)
    (indices2 : List Int)
    (hnx : mapGet? g.commands x = none) (hxy : mapGet? g.config.Aliases x = some target)
    (hrw : aliasRewrite g m indices target = some (b :: text))
    (hparse2 : env.ParseArguments text = (b0 :: bs, indices2)) :
    resolveCommand env g m args indices x =
      { m := { m with Content := b :: text }, args := b0 :: bs, indices := indices2,
        c := mapGet? g.commands (env.ToLower b0), events := [Event.ParseArguments text],
        panicked := false } := by
  unfold resolveCommand
  simp only [hnx, hxy, hrw, hparse2]

/-- Where the name read from the rewritten text is the alias target, alias resolution is one
level deep. Let the first token of a command message be `x`, not a registered command but an
alias for `y`, and let `y` be the name read from the rewritten text; let `y` not be a registered
command either, although it is itself an alias for a registered command `z`. Then, unless a module hook drops the message first, `SBProcessCommand` ends in the
branch for an unresolved command: both texts are tokenized, the "not a valid command" diagnostic
is sent unless the guild ignores invalid commands, the guild state is unchanged, and no command
handler, in particular not that of `z`, is called. -/
theorem SBProcessCommand_alias_one_level (sb : SweetieBot) (env : Env) (m : Message)
    (info : Option GuildInfo) (g : GuildInfo) (t : Int) (isdbguild isdebug : Bool)
    (x y z a0 b0 text : GoString) (as bs : List GoString) (indices indices2 : List Int)
    (b : Nat) (cz : Command)
    (hcmd : isCommand (effectivePrefix info) m.Content = true)
    (hparse : env.ParseArguments m.Content.tail = (a0 :: as, indices))
    (hx : env.ToLower a0 = x)
    (hguild : resolveGuild sb env m info x = Except.ok g)
    (hnx : mapGet? g.commands x = none)
    (hxy : mapGet? g.config.Aliases x = some y)
    (hrw : aliasRewrite g m indices y = some (b :: text))
    (hparse2 : env.ParseArguments text = (b0 :: bs, indices2))
    (hy : env.ToLower b0 = y)
    (hny : mapGet? g.commands y = none)
    (_hyz : mapGet? g.config.Aliases y = some z)
    (_hz : mapGet? g.commands z = some cz) :
    ((commandHooks sb env m info).1 = true →
      (SBProcessCommand sb env m info t isdbguild isdebug).exit = Exit.ignored) ∧
    ((commandHooks sb env m info).1 = false →
      (SBProcessCommand sb env m info t isdbguild isdebug).exit = Exit.invalid ∧
      (SBProcessCommand sb env m info t isdbguild isdebug).events =
        (commandHooks sb env m info).2 ++
          [Event.ParseArguments m.Content.tail, Event.ParseArguments text] ++
          (if g.config.IgnoreInvalidCommands then []
           else [Event.Error m.ChannelID (Diag.invalidCommand b0)]) ∧
      (SBProcessCommand sb env m info t isdbguild isdebug).guild = some g) ∧
    (∀ name args content idx,
      Event.Process name args content idx ∉
        (SBProcessCommand sb env m info t isdbguild isdebug).events) := by
  have hdisp : processCommand sb env m info t isdbguild isdebug (commandHooks sb env m info).2 =
      { events := (commandHooks sb env m info).2 ++
          [Event.ParseArguments m.Content.tail, Event.ParseArguments text] ++
          (if g.config.IgnoreInvalidCommands then []
           else [Event.Error m.ChannelID (Diag.invalidCommand b0)]),
        exit := Exit.invalid, guild := some g } := by
    unfold processCommand
    simp only [hparse, hx, hguild]
    unfold dispatch
    simp only [List.getD_cons_zero, hx]
    rw [resolveCommand_alias env g m (a0 :: as) indices x y text b0 b bs indices2 hnx hxy hrw
      hparse2]
    simp only [hy, hny, Bool.false_eq_true, if_false]
    cases g.config.IgnoreInvalidCommands <;> simp
  refine ⟨?_, ?_, ?_⟩
  · intro hh
    unfold SBProcessCommand
    simp only [hcmd, hh, if_true]
  · intro hh
    unfold SBProcessCommand
    simp only [hcmd, hh, if_true, Bool.false_eq_true, if_false, hdisp]
    exact ⟨trivial, trivial, trivial⟩
  · intro name args content idx hmem
    have hhook : ∀ e ∈ (commandHooks sb env m info).2,
        e ≠ Event.Process name args content idx := by
      intro e he heq
      obtain ⟨k, hk⟩ := commandHooks_events sb env m info e he
      rw [hk] at heq
      cases heq
    unfold SBProcessCommand at hmem
    simp only [hcmd, if_true, hdisp] at hmem
    by_cases hh : (commandHooks sb env m info).1 = true
    · simp only [hh, if_true] at hmem
      exact hhook _ hmem rfl
    · simp only [hh, Bool.false_eq_true, if_false] at hmem
      simp only [List.mem_append, List.mem_cons, List.mem_singleton, List.not_mem_nil,
        or_false] at hmem
      rcases hmem with (hmem | hmem | hmem) | hmem
      · exact hhook _ hmem rfl
      · cases hmem
      · cases hmem
      · split_ifs at hmem <;> simp at hmem

/-- One level of alias resolution at a concrete guild: prefix `!`, aliases `x` for `y` and `y`
for `z`, `z` a registered command. The message `!x` is answered with the "not a valid command"
diagnostic for `y`. -/
theorem SBProcessCommand_alias_one_level_witness :
    (SBProcessCommand (sampleBot aliasChainGuild) (sampleEnv []) (sampleMessage "!x")
        (some aliasChainGuild) 0 true false).exit = Exit.invalid ∧
    (SBProcessCommand (sampleBot aliasChainGuild) (sampleEnv []) (sampleMessage "!x")
        (some aliasChainGuild) 0 true false).events =
      (commandHooks (sampleBot aliasChainGuild) (sampleEnv []) (sampleMessage "!x")
          (some aliasChainGuild)).2 ++
        [Event.ParseArguments (sampleMessage "!x").Content.tail,
          Event.ParseArguments (str "y")] ++
        (if aliasChainGuild.config.IgnoreInvalidCommands then []
         else [Event.Error (sampleMessage "!x").ChannelID (Diag.invalidCommand (str "y"))]) ∧
    (SBProcessCommand (sampleBot aliasChainGuild) (sampleEnv []) (sampleMessage "!x")
        (some aliasChainGuild) 0 true false).guild = some aliasChainGuild :=
  (SBProcessCommand_alias_one_level (sampleBot aliasChainGuild) (sampleEnv [])
    (sampleMessage "!x") (some aliasChainGuild) aliasChainGuild 0 true false
    (str "x") (str "y") (str "z") (str "x") (str "y") (str "y") [] [] [1] [1] 33
    (echoCommand "Z") (by decide) (by decide) (by decide) rfl rfl (by decide) (by decide)
    (by decide) (by decide) rfl (by decide) rfl).2.1 (by decide)

/-! ## Theorems: alias rewriting and the prefix setting -/

/-- C6, the code at the failing input. The prefix setting of the guild is empty, so the effective
prefix is `!`; `x` is an alias for `az` and `az` an alias for `z`; neither `x` nor `az` is a
registered command, `z` is. The message `!x` is rewritten to `az` (line 686 puts the configured
string, here empty, in front of the alias target), line 688 drops one byte, the name looked up is
`z`, and the handler of `z` is executed. With the prefix setting `!` the same message is
rewritten to `!az`, the name looked up is `az`, and the message is answered as an invalid
command. -/
theorem SBProcessCommand_alias_chain_prefix_setting :
    effectivePrefix (some (chainGuild "")) = 33 ∧
    mapHas (chainGuild "").commands (str "x") = false ∧
    mapHas (chainGuild "").commands (str "az") = false ∧
    mapHas (chainGuild "").commands (str "z") = true ∧
    mapGet? (chainGuild "").config.Aliases (str "x") = some (str "az") ∧
    mapGet? (chainGuild "").config.Aliases (str "az") = some (str "z") ∧
    (SBProcessCommand (sampleBot (chainGuild "")) (sampleEnv []) (sampleMessage "!x")
        (some (chainGuild "")) 0 true false).exit = Exit.executed ∧
    (SBProcessCommand (sampleBot (chainGuild "")) (sampleEnv []) (sampleMessage "!x")
        (some (chainGuild "")) 0 true false).events =
      [Event.ParseArguments (str "x"), Event.ParseArguments (str "z"),
        Event.Audit (str "7") (str "az") 1, Event.Process (str "z") [] (str "az") [],
        Event.SendMessage (str "100") (Diag.reply (str "ok"))] ∧
    (SBProcessCommand (sampleBot (chainGuild "!")) (sampleEnv []) (sampleMessage "!x")
        (some (chainGuild "!")) 0 true false).exit = Exit.invalid ∧
    (SBProcessCommand (sampleBot (chainGuild "!")) (sampleEnv []) (sampleMessage "!x")
        (some (chainGuild "!")) 0 true false).events =
      [Event.ParseArguments (str "x"), Event.ParseArguments (str "az"),
        Event.Error (str "100") (Diag.invalidCommand (str "az"))] := by
  decide

/-- C7, the code at the failing input. With the prefix setting `??` (two bytes, so the effective
prefix is `!`) and the alias `kawaii` for `pick cute`, the message `!kawaii arg1` is rewritten to
`??pick cute arg1`, the name looked up is `?pick`, and the message is answered as an invalid
command. With the prefix setting `!` the same message runs `pick` with the arguments `cute` and
`arg1`. -/
theorem SBProcessCommand_alias_invalid_prefix_setting :
    (SBProcessCommand (sampleBot (kawaiiGuild "??")) (sampleEnv [])
        (sampleMessage "!kawaii arg1") (some (kawaiiGuild "??")) 0 true false).exit
      = Exit.invalid ∧
    (SBProcessCommand (sampleBot (kawaiiGuild "??")) (sampleEnv [])
        (sampleMessage "!kawaii arg1") (some (kawaiiGuild "??")) 0 true false).events
      = [Event.ParseArguments (str "kawaii arg1"), Event.ParseArguments (str "?pick cute arg1"),
          Event.Error (str "100") (Diag.invalidCommand (str "?pick"))] ∧
    (SBProcessCommand (sampleBot (kawaiiGuild "!")) (sampleEnv [])
        (sampleMessage "!kawaii arg1") (some (kawaiiGuild "!")) 0 true false).events
      = [Event.ParseArguments (str "kawaii arg1"), Event.ParseArguments (str "pick cute arg1"),
          Event.Audit (str "7") (str "!pick cute arg1") 1,
          Event.Process (str "pick") [str "cute", str "arg1"] (str "!pick cute arg1") [6, 11],
          Event.SendMessage (str "100") (Diag.reply (str "cute"))] := by
  decide

/-! ## Theorems: the access-control chain of `runCommand` -/

theorem runCommand_cases (sb : SweetieBot) (env : Env) (m : Message) (info : GuildInfo)
    (c : Command) (args : List GoString) (indices : List Int) (t : Int)
    (isdbguild isdebug isPrivate isfree isOwner isSelf : Bool) :
    (disabledCheck info (env.ToLower c.Name) (isOwner || decide (m.AuthorID = info.OwnerID))
        isSelf = true ∧
      (runCommand sb env m info c args indices t isdbguild isdebug isPrivate isfree isOwner
        isSelf).exit = Exit.denied Denial.disabled) ∨
    (disabledCheck info (env.ToLower c.Name) (isOwner || decide (m.AuthorID = info.OwnerID))
        isSelf = false ∧
      restrictedCheck sb (env.ToLower c.Name) isdbguild = true ∧
      (runCommand sb env m info c args indices t isdbguild isdebug isPrivate isfree isOwner
        isSelf).exit = Exit.denied Denial.restricted) ∨
    (disabledCheck info (env.ToLower c.Name) (isOwner || decide (m.AuthorID = info.OwnerID))
        isSelf = false ∧
      restrictedCheck sb (env.ToLower c.Name) isdbguild = false ∧
      channelCheck m info (env.ToLower c.Name) isPrivate isSelf = true ∧
      (runCommand sb env m info c args indices t isdbguild isdebug isPrivate isfree isOwner
        isSelf).exit = Exit.denied Denial.channel) ∨
    (disabledCheck info (env.ToLower c.Name) (isOwner || decide (m.AuthorID = info.OwnerID))
        isSelf = false ∧
      restrictedCheck sb (env.ToLower c.Name) isdbguild = false ∧
      channelCheck m info (env.ToLower c.Name) isPrivate isSelf = false ∧
      runCommand sb env m info c args indices t isdbguild isdebug isPrivate isfree isOwner isSelf =
        saturationStage env m info c (env.ToLower c.Name) args indices t isdebug isPrivate isfree
          (isOwner || decide (m.AuthorID = info.OwnerID)) isSelf
          (auditEvents sb env m info isdbguild)) := by
  unfold runCommand
  simp only []
  by_cases h1 : disabledCheck info (env.ToLower c.Name)
      (isOwner || decide (m.AuthorID = info.OwnerID)) isSelf = true
  · exact Or.inl ⟨h1, by simp only [h1, if_true]⟩
  · have h1f : disabledCheck info (env.ToLower c.Name)
        (isOwner || decide (m.AuthorID = info.OwnerID)) isSelf = false := by simpa using h1
    by_cases h2 : restrictedCheck sb (env.ToLower c.Name) isdbguild = true
    · exact Or.inr (Or.inl ⟨h1f, h2, by simp only [h1f, h2, Bool.false_eq_true, if_false, if_true]⟩)
    · have h2f : restrictedCheck sb (env.ToLower c.Name) isdbguild = false := by simpa using h2
      by_cases h3 : channelCheck m info (env.ToLower c.Name) isPrivate isSelf = true
      · exact Or.inr (Or.inr (Or.inl ⟨h1f, h2f, h3,
          by simp only [h1f, h2f, h3, Bool.false_eq_true, if_false, if_true]⟩))
      · have h3f : channelCheck m info (env.ToLower c.Name) isPrivate isSelf = false := by
          simpa using h3
        exact Or.inr (Or.inr (Or.inr ⟨h1f, h2f, h3f,
          by simp only [h1f, h2f, h3f, Bool.false_eq_true, if_false]⟩))

theorem saturationStage_cases (env : Env) (m : Message) (info : GuildInfo) (c : Command)
    (cmdname : GoString) (args : List GoString) (indices : List Int) (t : Int)
    (isdebug isPrivate isfree isOwner isSelf : Bool) (events : List Event) :
    (saturationStage env m info c cmdname args indices t isdebug isPrivate isfree isOwner isSelf
        events).exit = Exit.denied Denial.saturation ∨
    ∃ events1,
      saturationStage env m info c cmdname args indices t isdebug isPrivate isfree isOwner isSelf
          events =
        roleStage env m (afterSaturation env m info t isdebug isfree isSelf) c cmdname args
          indices t isPrivate isfree isOwner isSelf events1 := by
  unfold saturationStage afterSaturation
  simp only []
  by_cases ha : saturationApplies env m info isdebug isfree isSelf = true
  · simp only [ha, if_true]
    by_cases hc : env.check (resizedLimit info) info.config.CommandPerDuration
        info.config.CommandMaxDuration t = true
    · exact Or.inl (by simp only [hc, if_true])
    · exact Or.inr ⟨_, by rw [if_neg hc]⟩
  · exact Or.inr ⟨events, by simp only [ha, Bool.false_eq_true, if_false]⟩

theorem roleStage_role_iff (env : Env) (m : Message) (info : GuildInfo) (c : Command)
    (cmdname : GoString) (args : List GoString) (indices : List Int) (t : Int)
    (isPrivate isfree isOwner isSelf : Bool) (events : List Event) :
    (roleStage env m info c cmdname args indices t isPrivate isfree isOwner isSelf events).exit
        = Exit.denied Denial.role ↔
      (!isOwner && !isSelf &&
        !env.UserHasAnyRole info m.AuthorID (mapGetD info.config.CommandRoles cmdname []))
        = true := by
  unfold roleStage
  split_ifs with h
  · simp [h]
  · constructor
    · intro he
      have ho := cooldownStage_order env m info c cmdname args indices t isPrivate isfree isSelf
        events
      rw [he] at ho
      exact absurd ho (by decide)
    · intro hc
      exact absurd hc h

theorem resolveCommand_m (env : Env) (g : GuildInfo) (m : Message) (args : List GoString)
    (indices : List Int) (arg : GoString) :
    ∃ content, (resolveCommand env g m args indices arg).m = { m with Content := content } := by
  unfold resolveCommand
  split
  · exact ⟨m.Content, rfl⟩
  · split
    · exact ⟨m.Content, rfl⟩
    · split
      · exact ⟨m.Content, rfl⟩
      · exact ⟨_, rfl⟩
      · simp only []
        split
        · exact ⟨_, rfl⟩
        · exact ⟨_, rfl⟩

theorem resolveGuild_some (sb : SweetieBot) (env : Env) (m : Message) (g0 g : GuildInfo)
    (arg : GoString) (h : resolveGuild sb env m (some g0) arg = Except.ok g) : g = g0 := by
  simp only [resolveGuild] at h
  cases h
  rfl

/-- Every denial of `SBProcessCommand` is the denial `runCommand` makes for the command the
message resolves to, with the locals `private`, `isfree`, `isOwner` and `isSelf` as lines 631-638
set them; in a guild channel the guild is the one passed in. -/
theorem SBProcessCommand_denied (sb : SweetieBot) (env : Env) (m : Message)
    (info : Option GuildInfo) (t : Int) (isdbguild isdebug : Bool) (d : Denial)
    (h : (SBProcessCommand sb env m info t isdbguild isdebug).exit = Exit.denied d) :
    ∃ g c content args indices,
      (∀ g0, info = some g0 → g = g0) ∧
      (runCommand sb env { m with Content := content } g c args indices t isdbguild isdebug
        info.isNone (isFreeChannel info m.ChannelID)
        (mapHas sb.Owners (env.SBatoi m.AuthorID)) (decide (m.AuthorID = sb.SelfID))).exit
        = Exit.denied d := by
  unfold SBProcessCommand at h
  split_ifs at h with h1 h2
  · unfold processCommand at h
    simp only [] at h
    split at h
    · cases h
    · split at h
      · rename_i e he
        have hne : e.1 ≠ Exit.denied d := by
          unfold resolveGuild at he
          split at he
          · cases he
          · split_ifs at he
            · cases he; simp
            · revert he
              simp only []
              split
              · simp
              · split_ifs
                · intro he; cases he; simp
                · split
                  · simp
                  · intro he; cases he; simp
                · split
                  · simp
                  · intro he; cases he; simp
        exact absurd h hne
      · rename_i a0 as hp _ g hg
        unfold dispatch at h
        simp only [] at h
        obtain ⟨content, hm⟩ := resolveCommand_m env g m (a0 :: as)
          (env.ParseArguments m.Content.tail).2 (env.ToLower ((a0 :: as).getD 0 []))
        generalize resolveCommand env g m (a0 :: as) (env.ParseArguments m.Content.tail).2
          (env.ToLower ((a0 :: as).getD 0 [])) = r at h hm
        by_cases hpan : r.panicked = true
        · simp only [hpan, if_true] at h
          cases h
        · simp only [hpan, Bool.false_eq_true, if_false] at h
          cases hc : r.c with
          | none =>
            simp only [hc] at h
            cases h
          | some c =>
            simp only [hc] at h
            refine ⟨g, c, content, r.args, r.indices, ?_, ?_⟩
            · intro g0 hg0
              subst hg0
              exact resolveGuild_some sb env m g0 g _ hg
            · rw [← hm]
              exact h
  · split at h <;> cases h

/-- The exit of `runCommand` is the channel denial exactly when the channel condition holds, once
the disabled and restricted checks have let the invocation pass. -/
theorem runCommand_channel_iff (sb : SweetieBot) (env : Env) (m : Message) (info : GuildInfo)
    (c : Command) (args : List GoString) (indices : List Int) (t : Int)
    (isdbguild isdebug isPrivate isfree isOwner isSelf : Bool)
    (hd : (runCommand sb env m info c args indices t isdbguild isdebug isPrivate isfree isOwner
      isSelf).exit ≠ Exit.denied Denial.disabled)
    (hr : (runCommand sb env m info c args indices t isdbguild isdebug isPrivate isfree isOwner
      isSelf).exit ≠ Exit.denied Denial.restricted) :
    (runCommand sb env m info c args indices t isdbguild isdebug isPrivate isfree isOwner
      isSelf).exit = Exit.denied Denial.channel ↔
      channelCheck m info (env.ToLower c.Name) isPrivate isSelf = true := by
  rcases runCommand_cases sb env m info c args indices t isdbguild isdebug isPrivate isfree
    isOwner isSelf with ⟨_, h⟩ | ⟨_, _, h⟩ | ⟨_, _, h3, h⟩ | ⟨_, _, h3, h⟩
  · exact absurd h hd
  · exact absurd h hr
  · simp [h, h3]
  · rw [h, h3]
    constructor
    · intro he
      have ho := saturationStage_order env m info c (env.ToLower c.Name) args indices t isdebug
        isPrivate isfree (isOwner || decide (m.AuthorID = info.OwnerID)) isSelf
        (auditEvents sb env m info isdbguild)
      rw [he] at ho
      exact absurd ho (by decide)
    · intro hc
      exact absurd hc (by simp)

/-- C8. Channel gate, for a resolved command in a guild channel (`private` false) that the bot did
not author (`isSelf` false) and that the disabled and restricted checks let pass. With `S` the
channel set configured for the command: if `S` is empty or absent the gate denies no channel; if
`S` is not empty and has the key `!` the gate denies exactly the channels that are keys of `S`; if
`S` is not empty and lacks the key `!` the gate denies exactly the channels that are not keys of
`S`. -/
theorem runCommand_channel_gate (sb : SweetieBot) (env : Env) (m : Message) (info : GuildInfo)
    (c : Command) (args : List GoString) (indices : List Int) (t : Int)
    (isdbguild isdebug isfree isOwner : Bool)
    (hd : (runCommand sb env m info c args indices t isdbguild isdebug false isfree isOwner
      false).exit ≠ Exit.denied Denial.disabled)
    (hr : (runCommand sb env m info c args indices t isdbguild isdebug false isfree isOwner
      false).exit ≠ Exit.denied Denial.restricted) :
    (mapGetD info.config.CommandChannels (env.ToLower c.Name) [] = [] →
      (runCommand sb env m info c args indices t isdbguild isdebug false isfree isOwner
        false).exit ≠ Exit.denied Denial.channel) ∧
    (mapGetD info.config.CommandChannels (env.ToLower c.Name) [] ≠ [] →
      mapHas (mapGetD info.config.CommandChannels (env.ToLower c.Name) []) (str "!") = true →
      ((runCommand sb env m info c args indices t isdbguild isdebug false isfree isOwner
          false).exit = Exit.denied Denial.channel ↔
        mapHas (mapGetD info.config.CommandChannels (env.ToLower c.Name) []) m.ChannelID
          = true)) ∧
    (mapGetD info.config.CommandChannels (env.ToLower c.Name) [] ≠ [] →
      mapHas (mapGetD info.config.CommandChannels (env.ToLower c.Name) []) (str "!") = false →
      ((runCommand sb env m info c args indices t isdbguild isdebug false isfree isOwner
          false).exit = Exit.denied Denial.channel ↔
        mapHas (mapGetD info.config.CommandChannels (env.ToLower c.Name) []) m.ChannelID
          = false)) := by
  have hiff := runCommand_channel_iff sb env m info c args indices t isdbguild isdebug false isfree
    isOwner false hd hr
  refine ⟨?_, ?_, ?_⟩
  · intro hS
    rw [Ne, hiff]
    simp [channelCheck, hS]
  · intro hS hbang
    rw [hiff]
    have hlen : 0 < (mapGetD info.config.CommandChannels (env.ToLower c.Name) []).length :=
      List.length_pos.2 hS
    simp [channelCheck, hbang, hlen]
  · intro hS hbang
    rw [hiff]
    have hlen : 0 < (mapGetD info.config.CommandChannels (env.ToLower c.Name) []).length :=
      List.length_pos.2 hS
    simp [channelCheck, hbang, hlen]

/-- C8, at a concrete guild: the command `pick` has the channel set `{100, 101, !}`, and `pick`
sent in channel 100 by an ordinary user is denied by the channel gate. -/
theorem runCommand_channel_gate_witness :
    (runCommand
        (sampleBot (gatedGuild
          [(str "pick", [(str "100", true), (str "101", true), (str "!", true)])] []))
        (sampleEnv []) (sampleMessage "!pick a")
        (gatedGuild [(str "pick", [(str "100", true), (str "101", true), (str "!", true)])] [])
        (echoCommand "Pick") [str "pick", str "a"] [1, 6] 0 true false false false false
        false).exit = Exit.denied Denial.channel :=
  ((runCommand_channel_gate
      (sampleBot (gatedGuild
        [(str "pick", [(str "100", true), (str "101", true), (str "!", true)])] []))
      (sampleEnv []) (sampleMessage "!pick a")
      (gatedGuild [(str "pick", [(str "100", true), (str "101", true), (str "!", true)])] [])
      (echoCommand "Pick") [str "pick", str "a"] [1, 6] 0 true false false false
      (by decide) (by decide)).2.1 (by decide) (by decide)).2 (by decide)

/-- The exit of `runCommand` is the role denial exactly when the role condition of line 725 holds
for the guild as the saturation stage left it, once the earlier checks have let the invocation
pass. -/
theorem runCommand_role_iff (sb : SweetieBot) (env : Env) (m : Message) (info : GuildInfo)
    (c : Command) (args : List GoString) (indices : List Int) (t : Int)
    (isdbguild isdebug isPrivate isfree isOwner isSelf : Bool)
    (hd : (runCommand sb env m info c args indices t isdbguild isdebug isPrivate isfree isOwner
      isSelf).exit ≠ Exit.denied Denial.disabled)
    (hr : (runCommand sb env m info c args indices t isdbguild isdebug isPrivate isfree isOwner
      isSelf).exit ≠ Exit.denied Denial.restricted)
    (hc : (runCommand sb env m info c args indices t isdbguild isdebug isPrivate isfree isOwner
      isSelf).exit ≠ Exit.denied Denial.channel)
    (hs : (runCommand sb env m info c args indices t isdbguild isdebug isPrivate isfree isOwner
      isSelf).exit ≠ Exit.denied Denial.saturation) :
    (runCommand sb env m info c args indices t isdbguild isdebug isPrivate isfree isOwner
      isSelf).exit = Exit.denied Denial.role ↔
      (!(isOwner || decide (m.AuthorID = info.OwnerID)) && !isSelf &&
        !env.UserHasAnyRole (afterSaturation env m info t isdebug isfree isSelf) m.AuthorID
          (mapGetD info.config.CommandRoles (env.ToLower c.Name) [])) = true := by
  rcases runCommand_cases sb env m info c args indices t isdbguild isdebug isPrivate isfree
    isOwner isSelf with ⟨_, h⟩ | ⟨_, _, h⟩ | ⟨_, _, _, h⟩ | ⟨_, _, _, h⟩
  · exact absurd h hd
  · exact absurd h hr
  · exact absurd h hc
  · rw [h] at hs ⊢
    rcases saturationStage_cases env m info c (env.ToLower c.Name) args indices t isdebug
      isPrivate isfree (isOwner || decide (m.AuthorID = info.OwnerID)) isSelf
      (auditEvents sb env m info isdbguild) with h2 | ⟨events1, h2⟩
    · exact absurd h2 hs
    · rw [h2, roleStage_role_iff]
      have hcfg : (afterSaturation env m info t isdebug isfree isSelf).config = info.config := by
        unfold afterSaturation
        split_ifs <;> rfl
      rw [hcfg]

theorem runCommand_not_role (sb : SweetieBot) (env : Env) (m : Message) (info : GuildInfo)
    (c : Command) (args : List GoString) (indices : List Int) (t : Int)
    (isdbguild isdebug isPrivate isfree isOwner isSelf : Bool)
    (h : isOwner = true ∨ isSelf = true ∨ m.AuthorID = info.OwnerID) :
    (runCommand sb env m info c args indices t isdbguild isdebug isPrivate isfree isOwner
      isSelf).exit ≠ Exit.denied Denial.role := by
  intro he
  have hd : (runCommand sb env m info c args indices t isdbguild isdebug isPrivate isfree isOwner
      isSelf).exit ≠ Exit.denied Denial.disabled := by rw [he]; decide
  have hr : (runCommand sb env m info c args indices t isdbguild isdebug isPrivate isfree isOwner
      isSelf).exit ≠ Exit.denied Denial.restricted := by rw [he]; decide
  have hc : (runCommand sb env m info c args indices t isdbguild isdebug isPrivate isfree isOwner
      isSelf).exit ≠ Exit.denied Denial.channel := by rw [he]; decide
  have hs : (runCommand sb env m info c args indices t isdbguild isdebug isPrivate isfree isOwner
      isSelf).exit ≠ Exit.denied Denial.saturation := by rw [he]; decide
  have hiff := (runCommand_role_iff sb env m info c args indices t isdbguild isdebug isPrivate
    isfree isOwner isSelf hd hr hc hs).1 he
  rcases h with h | h | h
  · simp [h] at hiff
  · simp [h] at hiff
  · simp [h] at hiff

theorem SBProcessCommand_not_role (sb : SweetieBot) (env : Env) (m : Message)
    (info : Option GuildInfo) (t : Int) (isdbguild isdebug : Bool)
    (h : mapHas sb.Owners (env.SBatoi m.AuthorID) = true ∨ m.AuthorID = sb.SelfID ∨
      ∃ g0, info = some g0 ∧ m.AuthorID = g0.OwnerID) :
    (SBProcessCommand sb env m info t isdbguild isdebug).exit ≠ Exit.denied Denial.role := by
  intro he
  obtain ⟨g, c, content, args, indices, hg, hrun⟩ :=
    SBProcessCommand_denied sb env m info t isdbguild isdebug Denial.role he
  refine runCommand_not_role sb env { m with Content := content } g c args indices t isdbguild
    isdebug info.isNone (isFreeChannel info m.ChannelID) (mapHas sb.Owners (env.SBatoi m.AuthorID))
    (decide (m.AuthorID = sb.SelfID)) ?_ hrun
  rcases h with h | h | ⟨g0, hg0, h⟩
  · exact Or.inl h
  · exact Or.inr (Or.inl (by simpa using h))
  · rw [hg g0 hg0]
    exact Or.inr (Or.inr h)

/-- C9. Role gate. `SBProcessCommand` never ends in the role denial for a message authored by a
process owner, by the bot itself or, in a guild channel, by the owner of the guild, whatever roles
the author holds. In `runCommand`, the part of `SBProcessCommand` that a resolved command `c`
of the guild `g` runs through: the role gate never denies when `isOwner` or `isSelf` is set or the
author is the owner of the guild; for any other author whose invocation the earlier checks
(disabled, restricted, channel list, saturation limiter) let pass, the role gate denies exactly
when `UserHasAnyRole`, asked for the roles configured for the command, is false. -/
theorem SBProcessCommand_role_gate (sb : SweetieBot) (env : Env) (m : Message)
    (info : Option GuildInfo) (g : GuildInfo)
    (c : Command) (args : List GoString) (indices : List Int) (t : Int)
    (isdbguild isdebug isPrivate isfree isOwner isSelf : Bool) :
    ((mapHas sb.Owners (env.SBatoi m.AuthorID) = true ∨ m.AuthorID = sb.SelfID ∨
        ∃ g0, info = some g0 ∧ m.AuthorID = g0.OwnerID) →
      (SBProcessCommand sb env m info t isdbguild isdebug).exit ≠ Exit.denied Denial.role) ∧
    ((isOwner = true ∨ isSelf = true ∨ m.AuthorID = g.OwnerID) →
      (runCommand sb env m g c args indices t isdbguild isdebug isPrivate isfree isOwner
        isSelf).exit ≠ Exit.denied Denial.role) ∧
    (isOwner = false → isSelf = false → m.AuthorID ≠ g.OwnerID →
      (runCommand sb env m g c args indices t isdbguild isdebug isPrivate isfree isOwner
        isSelf).exit ≠ Exit.denied Denial.disabled →
      (runCommand sb env m g c args indices t isdbguild isdebug isPrivate isfree isOwner
        isSelf).exit ≠ Exit.denied Denial.restricted →
      (runCommand sb env m g c args indices t isdbguild isdebug isPrivate isfree isOwner
        isSelf).exit ≠ Exit.denied Denial.channel →
      (runCommand sb env m g c args indices t isdbguild isdebug isPrivate isfree isOwner
        isSelf).exit ≠ Exit.denied Denial.saturation →
      ((runCommand sb env m g c args indices t isdbguild isdebug isPrivate isfree isOwner
          isSelf).exit = Exit.denied Denial.role ↔
        env.UserHasAnyRole (afterSaturation env m g t isdebug isfree isSelf) m.AuthorID
          (mapGetD g.config.CommandRoles (env.ToLower c.Name) []) = false)) := by
  refine ⟨SBProcessCommand_not_role sb env m info t isdbguild isdebug,
    runCommand_not_role sb env m g c args indices t isdbguild isdebug isPrivate isfree
      isOwner isSelf, ?_⟩
  intro ho hself hne hd hr hc hs
  rw [runCommand_role_iff sb env m g c args indices t isdbguild isdebug isPrivate isfree
    isOwner isSelf hd hr hc hs]
  simp [ho, hself, hne]

/-- C9, at a concrete guild: `pick` is restricted to the role 55. User 7, who holds no role, is
denied by the role gate; the guild owner, user 2, who holds no role either, is not. -/
theorem SBProcessCommand_role_gate_witness :
    (runCommand (sampleBot (gatedGuild [] [(str "pick", [(str "55", true)])])) (sampleEnv [])
        (sampleMessage "!pick a") (gatedGuild [] [(str "pick", [(str "55", true)])])
        (echoCommand "Pick") [str "pick", str "a"] [1, 6] 0 true false false false false
        false).exit = Exit.denied Denial.role ∧
    (SBProcessCommand (sampleBot (gatedGuild [] [(str "pick", [(str "55", true)])]))
        (sampleEnv []) { sampleMessage "!pick a" with AuthorID := str "2" }
        (some (gatedGuild [] [(str "pick", [(str "55", true)])])) 0 true false).exit
      ≠ Exit.denied Denial.role :=
  ⟨((SBProcessCommand_role_gate (sampleBot (gatedGuild [] [(str "pick", [(str "55", true)])]))
      (sampleEnv []) (sampleMessage "!pick a") none
      (gatedGuild [] [(str "pick", [(str "55", true)])])
      (echoCommand "Pick") [str "pick", str "a"] [1, 6] 0 true false false false false
      false).2.2 rfl rfl (by decide) (by decide) (by decide) (by decide) (by decide)).2
      (by decide),
   (SBProcessCommand_role_gate (sampleBot (gatedGuild [] [(str "pick", [(str "55", true)])]))
      (sampleEnv []) { sampleMessage "!pick a" with AuthorID := str "2" }
      (some (gatedGuild [] [(str "pick", [(str "55", true)])]))
      (gatedGuild [] [(str "pick", [(str "55", true)])])
      (echoCommand "Pick") [str "pick", str "a"] [1, 6] 0 true false false false false
      false).1 (Or.inr (Or.inr ⟨_, rfl, by decide⟩))⟩

/-! ## Theorems: owners and the bot itself -/

/-- C10, counterexample. A process owner (user 95585199324143616) sends `!search`, a restricted
command, in a guild that is not a database guild: the restricted check denies the invocation. -/
theorem SBProcessCommand_owner_restricted :
    mapHas (sampleBot (kawaiiGuild "!")).Owners
      ((sampleEnv []).SBatoi (str "95585199324143616")) = true ∧
    (SBProcessCommand (sampleBot (kawaiiGuild "!")) (sampleEnv [])
      { sampleMessage "!search" with AuthorID := str "95585199324143616" }
      (some (kawaiiGuild "!")) 0 false false).exit = Exit.denied Denial.restricted := by
  decide

/-- In `runCommand`, with `isOwner` or `isSelf` set: the disabled check and the role list do not
deny, the channel list does not deny when `isSelf` is set, and a restricted command in a guild that
is not a database guild is denied by the restricted check. -/
theorem runCommand_owner_self (sb : SweetieBot) (env : Env) (m : Message) (info : GuildInfo)
    (c : Command) (args : List GoString) (indices : List Int) (t : Int)
    (isdbguild isdebug isPrivate isfree isOwner isSelf : Bool)
    (h : isOwner = true ∨ isSelf = true) :
    (runCommand sb env m info c args indices t isdbguild isdebug isPrivate isfree isOwner
      isSelf).exit ≠ Exit.denied Denial.disabled ∧
    (runCommand sb env m info c args indices t isdbguild isdebug isPrivate isfree isOwner
      isSelf).exit ≠ Exit.denied Denial.role ∧
    (isSelf = true →
      (runCommand sb env m info c args indices t isdbguild isdebug isPrivate isfree isOwner
        isSelf).exit ≠ Exit.denied Denial.channel) ∧
    (mapHas sb.RestrictedCommands (env.ToLower c.Name) = true → isdbguild = false →
      (runCommand sb env m info c args indices t isdbguild isdebug isPrivate isfree isOwner
        isSelf).exit = Exit.denied Denial.restricted) := by
  have hdis : disabledCheck info (env.ToLower c.Name)
      (isOwner || decide (m.AuthorID = info.OwnerID)) isSelf = false := by
    rcases h with h | h <;> simp [disabledCheck, h]
  have hlate := saturationStage_order env m info c (env.ToLower c.Name) args indices t isdebug
    isPrivate isfree (isOwner || decide (m.AuthorID = info.OwnerID)) isSelf
    (auditEvents sb env m info isdbguild)
  refine ⟨?_, ?_, ?_, ?_⟩
  · rcases runCommand_cases sb env m info c args indices t isdbguild isdebug isPrivate isfree
      isOwner isSelf with ⟨h1, _⟩ | ⟨_, _, he⟩ | ⟨_, _, _, he⟩ | ⟨_, _, _, he⟩
    · rw [hdis] at h1; cases h1
    · rw [he]; decide
    · rw [he]; decide
    · rw [he]; intro hx; rw [hx] at hlate; exact absurd hlate (by decide)
  · exact runCommand_not_role sb env m info c args indices t isdbguild isdebug isPrivate isfree
      isOwner isSelf (h.elim Or.inl (fun hs => Or.inr (Or.inl hs)))
  · intro hself
    rcases runCommand_cases sb env m info c args indices t isdbguild isdebug isPrivate isfree
      isOwner isSelf with ⟨_, he⟩ | ⟨_, _, he⟩ | ⟨_, _, h3, _⟩ | ⟨_, _, _, he⟩
    · rw [he]; decide
    · rw [he]; decide
    · simp [channelCheck, hself] at h3
    · rw [he]; intro hx; rw [hx] at hlate; exact absurd hlate (by decide)
  · intro hres hdb
    rcases runCommand_cases sb env m info c args indices t isdbguild isdebug isPrivate isfree
      isOwner isSelf with ⟨h1, _⟩ | ⟨_, _, he⟩ | ⟨_, h2, _, _⟩ | ⟨_, h2, _, _⟩
    · rw [hdis] at h1; cases h1
    · exact he
    · simp [restrictedCheck, hres, hdb] at h2
    · simp [restrictedCheck, hres, hdb] at h2

/-- C10, amended. For a message whose author is a process owner or the bot itself,
`SBProcessCommand` never ends in the denial of the disabled check nor in that of the role list,
and for a message of the bot itself it never ends in the denial of the channel list. -/
theorem SBProcessCommand_owner_or_self (sb : SweetieBot) (env : Env) (m : Message)
    (info : Option GuildInfo) (t : Int) (isdbguild isdebug : Bool)
    (h : mapHas sb.Owners (env.SBatoi m.AuthorID) = true ∨ m.AuthorID = sb.SelfID) :
    (SBProcessCommand sb env m info t isdbguild isdebug).exit ≠ Exit.denied Denial.disabled ∧
    (SBProcessCommand sb env m info t isdbguild isdebug).exit ≠ Exit.denied Denial.role ∧
    (m.AuthorID = sb.SelfID →
      (SBProcessCommand sb env m info t isdbguild isdebug).exit ≠ Exit.denied Denial.channel) := by
  have h1 : mapHas sb.Owners (env.SBatoi m.AuthorID) = true ∨
      decide (m.AuthorID = sb.SelfID) = true := h.imp id (fun hs => by simpa using hs)
  refine ⟨?_, ?_, ?_⟩
  · intro he
    obtain ⟨g, c, content, args, indices, _, hrun⟩ :=
      SBProcessCommand_denied sb env m info t isdbguild isdebug _ he
    exact (runCommand_owner_self sb env _ g c args indices t isdbguild isdebug _ _ _ _ h1).1 hrun
  · intro he
    obtain ⟨g, c, content, args, indices, _, hrun⟩ :=
      SBProcessCommand_denied sb env m info t isdbguild isdebug _ he
    exact (runCommand_owner_self sb env _ g c args indices t isdbguild isdebug _ _ _ _ h1).2.1 hrun
  · intro hself he
    obtain ⟨g, c, content, args, indices, _, hrun⟩ :=
      SBProcessCommand_denied sb env m info t isdbguild isdebug _ he
    exact (runCommand_owner_self sb env _ g c args indices t isdbguild isdebug _ _ _ _ h1).2.2.1
      (by simpa using hself) hrun

/-- C10, amended, at a concrete guild: the command `pick` has the channel set `{101}` and is
disabled; the bot itself (user 9) sends `!pick a` in channel 100 and the handler is called. -/
theorem SBProcessCommand_owner_or_self_witness :
    (SBProcessCommand
        (sampleBot (sampleGuild
          { sampleConfig (str "!") [] with
            CommandChannels := [(str "pick", [(str "101", true)])],
            CommandDisabled := [(str "pick", true)] }))
        (sampleEnv []) { sampleMessage "!pick a" with AuthorID := str "9" }
        (some (sampleGuild
          { sampleConfig (str "!") [] with
            CommandChannels := [(str "pick", [(str "101", true)])],
            CommandDisabled := [(str "pick", true)] })) 0 true false).exit = Exit.executed ∧
    (SBProcessCommand
        (sampleBot (sampleGuild
          { sampleConfig (str "!") [] with
            CommandChannels := [(str "pick", [(str "101", true)])],
            CommandDisabled := [(str "pick", true)] }))
        (sampleEnv []) { sampleMessage "!pick a" with AuthorID := str "9" }
        (some (sampleGuild
          { sampleConfig (str "!") [] with
            CommandChannels := [(str "pick", [(str "101", true)])],
            CommandDisabled := [(str "pick", true)] })) 0 true false).exit
      ≠ Exit.denied Denial.channel :=
  ⟨by decide,
   (SBProcessCommand_owner_or_self
      (sampleBot (sampleGuild
        { sampleConfig (str "!") [] with
          CommandChannels := [(str "pick", [(str "101", true)])],
          CommandDisabled := [(str "pick", true)] }))
      (sampleEnv []) { sampleMessage "!pick a" with AuthorID := str "9" }
      (some (sampleGuild
        { sampleConfig (str "!") [] with
          CommandChannels := [(str "pick", [(str "101", true)])],
          CommandDisabled := [(str "pick", true)] })) 0 true false
      (Or.inr (by decide))).2.2 (by decide)⟩

/-! ## Lemmas: what the stages of `runCommand` emit and change -/

theorem mapGet?_mapSet_self {α β : Type} [DecidableEq α] (m : GoMap α β) (k : α) (v : β) :
    mapGet? (mapSet m k v) k = some v := by
  induction m with
  | nil => simp [mapSet, mapGet?]
  | cons p m ih =>
    obtain ⟨k1, v1⟩ := p
    by_cases h : k1 = k
    · simp [mapSet, mapGet?, h]
    · simp [mapSet, mapGet?, h, ih]

theorem mapGet?_mapSet_ne {α β : Type} [DecidableEq α] (m : GoMap α β) (k k2 : α) (v : β)
    (hne : k2 ≠ k) : mapGet? (mapSet m k v) k2 = mapGet? m k2 := by
  induction m with
  | nil =>
    have h : ¬ k = k2 := fun h => hne h.symm
    simp [mapSet, mapGet?, h]
  | cons p m ih =>
    obtain ⟨k1, v1⟩ := p
    by_cases h : k1 = k
    · subst h
      have h2 : ¬ k1 = k2 := fun h => hne h.symm
      simp [mapSet, mapGet?, h2]
    · by_cases h2 : k1 = k2
      · subst h2
        simp [mapSet, mapGet?, h]
      · simp [mapSet, mapGet?, h, h2, ih]

theorem deliver_kinds (env : Env) (m : Message) (isPrivate : Bool) (r : Reply) :
    ∀ e ∈ deliver env m isPrivate r,
      e.isAudit = false ∧ e.isCheck = false ∧ e.isAppend = false ∧ e.isCooldown = false ∧
        e.isProcess = false := by
  unfold deliver
  split_ifs <;>
    (cases r.resultembed <;> cases env.UserChannelCreate m.AuthorID <;>
      simp [Event.isAudit, Event.isCheck, Event.isAppend, Event.isCooldown, Event.isProcess])

theorem executeStage_guild (env : Env) (m : Message) (info : GuildInfo) (c : Command)
    (cmdname : GoString) (args : List GoString) (indices : List Int) (isPrivate : Bool)
    (events : List Event) :
    (executeStage env m info c cmdname args indices isPrivate events).guild = some info := by
  unfold executeStage
  split <;> rfl

theorem executeStage_mem (env : Env) (m : Message) (info : GuildInfo) (c : Command)
    (cmdname : GoString) (args : List GoString) (indices : List Int) (isPrivate : Bool)
    (events : List Event) :
    ∀ e ∈ (executeStage env m info c cmdname args indices isPrivate events).events,
      e ∈ events ∨
        (e.isAudit = false ∧ e.isCheck = false ∧ e.isAppend = false ∧ e.isCooldown = false) := by
  intro e he
  unfold executeStage at he
  split at he
  · simp only [List.mem_append, List.mem_singleton] at he
    rcases he with (he | he) | he
    · exact Or.inl he
    · subst he
      exact Or.inr ⟨rfl, rfl, rfl, rfl⟩
    · have h := deliver_kinds _ _ _ _ e he
      exact Or.inr ⟨h.1, h.2.1, h.2.2.1, h.2.2.2.1⟩
  · exact Or.inl he

theorem cooldownStage_unlimited (env : Env) (m : Message) (info : GuildInfo) (c : Command)
    (cmdname : GoString) (args : List GoString) (indices : List Int) (t : Int)
    (isPrivate isfree isSelf : Bool) (events : List Event)
    (h : (!isfree && decide (mapGetD info.config.CommandLimits cmdname 0 > 0) && !isSelf)
      = false) :
    cooldownStage env m info c cmdname args indices t isPrivate isfree isSelf events =
      executeStage env m info c cmdname args indices isPrivate events := by
  unfold cooldownStage
  simp only [h, Bool.false_eq_true, if_false]

theorem cooldownStage_denied (env : Env) (m : Message) (info : GuildInfo) (c : Command)
    (cmdname : GoString) (args : List GoString) (indices : List Int) (t : Int)
    (isPrivate isfree isSelf : Bool) (events : List Event)
    (h : (!isfree && decide (mapGetD info.config.CommandLimits cmdname 0 > 0) && !isSelf)
      = true)
    (hr : env.RateLimit (mapGetD (mapGetD info.commandLast m.ChannelID []) cmdname 0)
      (mapGetD info.config.CommandLimits cmdname 0) = false) :
    cooldownStage env m info c cmdname args indices t isPrivate isfree isSelf events =
      { events := events ++
          [Event.readCommandLast m.ChannelID cmdname,
           Event.Error m.ChannelID
             (Diag.cooldown (mapGetD info.config.CommandLimits cmdname 0))],
        exit := Exit.denied Denial.cooldown, guild := some info } := by
  unfold cooldownStage
  simp only [h, hr, if_true, Bool.not_false]

theorem cooldownStage_allowed (env : Env) (m : Message) (info : GuildInfo) (c : Command)
    (cmdname : GoString) (args : List GoString) (indices : List Int) (t : Int)
    (isPrivate isfree isSelf : Bool) (events : List Event)
    (h : (!isfree && decide (mapGetD info.config.CommandLimits cmdname 0 > 0) && !isSelf)
      = true)
    (hr : env.RateLimit (mapGetD (mapGetD info.commandLast m.ChannelID []) cmdname 0)
      (mapGetD info.config.CommandLimits cmdname 0) = true) :
    cooldownStage env m info c cmdname args indices t isPrivate isfree isSelf events =
      executeStage env m (recordCooldown info m.ChannelID cmdname t) c cmdname args indices
        isPrivate
        (events ++
          [Event.readCommandLast m.ChannelID cmdname,
           Event.writeCommandLast m.ChannelID cmdname t]) := by
  unfold cooldownStage recordCooldown
  simp only [h, hr, if_true, Bool.not_true, Bool.false_eq_true, if_false]

theorem roleStage_denied (env : Env) (m : Message) (info : GuildInfo) (c : Command)
    (cmdname : GoString) (args : List GoString) (indices : List Int) (t : Int)
    (isPrivate isfree isOwner isSelf : Bool) (events : List Event)
    (h : (!isOwner && !isSelf &&
      !env.UserHasAnyRole info m.AuthorID (mapGetD info.config.CommandRoles cmdname []))
      = true) :
    roleStage env m info c cmdname args indices t isPrivate isfree isOwner isSelf events =
      { events := events ++ [Event.Error m.ChannelID (Diag.noPermission (env.GetRoles info c))],
        exit := Exit.denied Denial.role, guild := some info } := by
  unfold roleStage
  simp only [h, if_true]

theorem roleStage_passed (env : Env) (m : Message) (info : GuildInfo) (c : Command)
    (cmdname : GoString) (args : List GoString) (indices : List Int) (t : Int)
    (isPrivate isfree isOwner isSelf : Bool) (events : List Event)
    (h : (!isOwner && !isSelf &&
      !env.UserHasAnyRole info m.AuthorID (mapGetD info.config.CommandRoles cmdname []))
      = false) :
    roleStage env m info c cmdname args indices t isPrivate isfree isOwner isSelf events =
      cooldownStage env m info c cmdname args indices t isPrivate isfree isSelf events := by
  unfold roleStage
  simp only [h, Bool.false_eq_true, if_false]

theorem afterSaturation_applies (env : Env) (m : Message) (info : GuildInfo) (t : Int)
    (isdebug isfree isSelf : Bool)
    (h : saturationApplies env m info isdebug isfree isSelf = true) :
    afterSaturation env m info t isdebug isfree isSelf =
      withLimit info (env.append (resizedLimit info) t) := by
  unfold afterSaturation withLimit
  simp only [h, if_true]

theorem afterSaturation_skipped (env : Env) (m : Message) (info : GuildInfo) (t : Int)
    (isdebug isfree isSelf : Bool)
    (h : saturationApplies env m info isdebug isfree isSelf = false) :
    afterSaturation env m info t isdebug isfree isSelf = info := by
  unfold afterSaturation
  simp only [h, Bool.false_eq_true, if_false]

theorem saturationStage_skipped (env : Env) (m : Message) (info : GuildInfo) (c : Command)
    (cmdname : GoString) (args : List GoString) (indices : List Int) (t : Int)
    (isdebug isPrivate isfree isOwner isSelf : Bool) (events : List Event)
    (h : saturationApplies env m info isdebug isfree isSelf = false) :
    saturationStage env m info c cmdname args indices t isdebug isPrivate isfree isOwner isSelf
        events =
      roleStage env m info c cmdname args indices t isPrivate isfree isOwner isSelf events := by
  unfold saturationStage
  simp only [h, Bool.false_eq_true, if_false]

theorem saturationStage_denied (env : Env) (m : Message) (info : GuildInfo) (c : Command)
    (cmdname : GoString) (args : List GoString) (indices : List Int) (t : Int)
    (isdebug isPrivate isfree isOwner isSelf : Bool) (events : List Event)
    (h : saturationApplies env m info isdebug isfree isSelf = true)
    (hc : env.check (resizedLimit info) info.config.CommandPerDuration
      info.config.CommandMaxDuration t = true) :
    saturationStage env m info c cmdname args indices t isdebug isPrivate isfree isOwner isSelf
        events =
      { events := events ++
          [Event.check info.config.CommandPerDuration info.config.CommandMaxDuration t,
           Event.Error m.ChannelID
             (Diag.saturation info.config.CommandPerDuration info.config.CommandMaxDuration)],
        exit := Exit.denied Denial.saturation,
        guild := some (withLimit info (resizedLimit info)) } := by
  unfold saturationStage withLimit
  simp only [h, hc, if_true]

theorem saturationStage_passed (env : Env) (m : Message) (info : GuildInfo) (c : Command)
    (cmdname : GoString) (args : List GoString) (indices : List Int) (t : Int)
    (isdebug isPrivate isfree isOwner isSelf : Bool) (events : List Event)
    (h : saturationApplies env m info isdebug isfree isSelf = true)
    (hc : env.check (resizedLimit info) info.config.CommandPerDuration
      info.config.CommandMaxDuration t = false) :
    saturationStage env m info c cmdname args indices t isdebug isPrivate isfree isOwner isSelf
        events =
      roleStage env m (withLimit info (env.append (resizedLimit info) t)) c cmdname args indices
        t isPrivate isfree isOwner isSelf
        (events ++
          [Event.check info.config.CommandPerDuration info.config.CommandMaxDuration t,
           Event.append t]) := by
  unfold saturationStage withLimit
  simp only [h, hc, if_true, Bool.false_eq_true, if_false]

theorem auditEvents_kinds (sb : SweetieBot) (env : Env) (m : Message) (info : GuildInfo)
    (isdbguild : Bool) :
    ∀ e ∈ auditEvents sb env m info isdbguild,
      e.isSend = false ∧ e.isProcess = false ∧ e.isCheck = false ∧ e.isAppend = false ∧
        e.isCooldown = false := by
  intro e he
  unfold auditEvents at he
  split_ifs at he
  · simp only [List.mem_singleton] at he
    subst he
    exact ⟨rfl, rfl, rfl, rfl, rfl⟩
  · simp at he

theorem auditEvents_self (sb : SweetieBot) (env : Env) (m : Message) (info : GuildInfo)
    (isdbguild : Bool) (h : m.AuthorID = sb.SelfID) :
    auditEvents sb env m info isdbguild = [] := by
  unfold auditEvents
  simp [h]

/-- The three early denials of `runCommand` emit nothing but the audit record and leave the guild
as it was. -/
theorem runCommand_early (sb : SweetieBot) (env : Env) (m : Message) (info : GuildInfo)
    (c : Command) (args : List GoString) (indices : List Int) (t : Int)
    (isdbguild isdebug isPrivate isfree isOwner isSelf : Bool)
    (h : (runCommand sb env m info c args indices t isdbguild isdebug isPrivate isfree isOwner
        isSelf).exit = Exit.denied Denial.disabled ∨
      (runCommand sb env m info c args indices t isdbguild isdebug isPrivate isfree isOwner
        isSelf).exit = Exit.denied Denial.restricted ∨
      (runCommand sb env m info c args indices t isdbguild isdebug isPrivate isfree isOwner
        isSelf).exit = Exit.denied Denial.channel) :
    (runCommand sb env m info c args indices t isdbguild isdebug isPrivate isfree isOwner
        isSelf).events = auditEvents sb env m info isdbguild ∧
    (runCommand sb env m info c args indices t isdbguild isdebug isPrivate isfree isOwner
        isSelf).guild = some info := by
  have hlate := saturationStage_order env m info c (env.ToLower c.Name) args indices t isdebug
    isPrivate isfree (isOwner || decide (m.AuthorID = info.OwnerID)) isSelf
    (auditEvents sb env m info isdbguild)
  unfold runCommand at h ⊢
  simp only [] at h ⊢
  by_cases h1 : disabledCheck info (env.ToLower c.Name)
      (isOwner || decide (m.AuthorID = info.OwnerID)) isSelf = true
  · simp only [h1, if_true]
    exact ⟨trivial, trivial⟩
  · simp only [h1, Bool.false_eq_true, if_false] at h ⊢
    by_cases h2 : restrictedCheck sb (env.ToLower c.Name) isdbguild = true
    · simp only [h2, if_true]
      exact ⟨trivial, trivial⟩
    · simp only [h2, Bool.false_eq_true, if_false] at h ⊢
      by_cases h3 : channelCheck m info (env.ToLower c.Name) isPrivate isSelf = true
      · simp only [h3, if_true]
        exact ⟨trivial, trivial⟩
      · simp only [h3, Bool.false_eq_true, if_false] at h
        rcases h with h | h | h <;> (rw [h] at hlate; exact absurd hlate (by decide))

/-! ## Lemmas: from `SBProcessCommand` to `runCommand` -/

theorem resolveCommand_events (env : Env) (g : GuildInfo) (m : Message) (args : List GoString)
    (indices : List Int) (arg : GoString) :
    ∀ e ∈ (resolveCommand env g m args indices arg).events, ∃ s, e = Event.ParseArguments s := by
  intro e he
  unfold resolveCommand at he
  split at he
  · simp at he
  · split at he
    · simp at he
    · split at he
      · simp at he
      · simp at he
      · simp only [] at he
        split at he
        · simp only [List.mem_singleton] at he
          exact ⟨_, he⟩
        · simp only [List.mem_singleton] at he
          exact ⟨_, he⟩

theorem resolveGuild_error_order (sb : SweetieBot) (env : Env) (m : Message)
    (info : Option GuildInfo) (arg : GoString) (e : Exit × Diag)
    (h : resolveGuild sb env m info arg = Except.error e) : e.1.order = 0 := by
  unfold resolveGuild at h
  split at h
  · simp at h
  · split_ifs at h
    · cases h; rfl
    · revert h
      simp only []
      split
      · simp
      · split_ifs
        · intro h; cases h; rfl
        · split
          · simp
          · intro h; cases h; rfl
        · split
          · simp
          · intro h; cases h; rfl

/-! ## Lemmas: the outcomes of `runCommand`, branch by branch -/

/-- The eight ways `runCommand` can end, each with the conditions of its branch: the three early
denials, the denial of the saturation limiter, the role denial, the cooldown denial, and the call
of the handler after or without a write to the cooldown table. -/
theorem runCommand_leaves (sb : SweetieBot) (env : Env) (m : Message) (info : GuildInfo)
    (c : Command) (args : List GoString) (indices : List Int) (t : Int)
    (isdbguild isdebug isPrivate isfree isOwner isSelf : Bool) :
    (disabledCheck info (env.ToLower c.Name) (isOwner || decide (m.AuthorID = info.OwnerID)) isSelf = true ∧
      runCommand sb env m info c args indices t isdbguild isdebug isPrivate isfree isOwner
        isSelf =
        { events := (auditEvents sb env m info isdbguild), exit := Exit.denied Denial.disabled, guild := some info }) ∨
    (disabledCheck info (env.ToLower c.Name) (isOwner || decide (m.AuthorID = info.OwnerID)) isSelf = false ∧
      restrictedCheck sb (env.ToLower c.Name) isdbguild = true ∧
      runCommand sb env m info c args indices t isdbguild isdebug isPrivate isfree isOwner
        isSelf =
        { events := (auditEvents sb env m info isdbguild), exit := Exit.denied Denial.restricted, guild := some info }) ∨
    (disabledCheck info (env.ToLower c.Name) (isOwner || decide (m.AuthorID = info.OwnerID)) isSelf = false ∧
      restrictedCheck sb (env.ToLower c.Name) isdbguild = false ∧
      channelCheck m info (env.ToLower c.Name) isPrivate isSelf = true ∧
      runCommand sb env m info c args indices t isdbguild isdebug isPrivate isfree isOwner
        isSelf =
        { events := (auditEvents sb env m info isdbguild), exit := Exit.denied Denial.channel, guild := some info }) ∨
    (disabledCheck info (env.ToLower c.Name) (isOwner || decide (m.AuthorID = info.OwnerID)) isSelf = false ∧
      restrictedCheck sb (env.ToLower c.Name) isdbguild = false ∧
      channelCheck m info (env.ToLower c.Name) isPrivate isSelf = false ∧
      saturationApplies env m info isdebug isfree isSelf = true ∧
      env.check (resizedLimit info) info.config.CommandPerDuration
        info.config.CommandMaxDuration t = true ∧
      runCommand sb env m info c args indices t isdbguild isdebug isPrivate isfree isOwner
        isSelf =
        { events := (auditEvents sb env m info isdbguild) ++
            [Event.check info.config.CommandPerDuration info.config.CommandMaxDuration t,
             Event.Error m.ChannelID
               (Diag.saturation info.config.CommandPerDuration info.config.CommandMaxDuration)],
          exit := Exit.denied Denial.saturation,
          guild := some (withLimit info (resizedLimit info)) }) ∨
    (disabledCheck info (env.ToLower c.Name) (isOwner || decide (m.AuthorID = info.OwnerID)) isSelf = false ∧
      restrictedCheck sb (env.ToLower c.Name) isdbguild = false ∧
      channelCheck m info (env.ToLower c.Name) isPrivate isSelf = false ∧
      (saturationApplies env m info isdebug isfree isSelf = false ∨
        env.check (resizedLimit info) info.config.CommandPerDuration
          info.config.CommandMaxDuration t = false) ∧
      roleDenies env m (afterSaturation env m info t isdebug isfree isSelf) (env.ToLower c.Name) (isOwner || decide (m.AuthorID = info.OwnerID)) isSelf = true ∧
      runCommand sb env m info c args indices t isdbguild isdebug isPrivate isfree isOwner
        isSelf =
        { events := ((auditEvents sb env m info isdbguild) ++ saturationEvents env m info t isdebug isfree isSelf) ++
            [Event.Error m.ChannelID (Diag.noPermission (env.GetRoles (afterSaturation env m info t isdebug isfree isSelf) c))],
          exit := Exit.denied Denial.role, guild := some (afterSaturation env m info t isdebug isfree isSelf) }) ∨
    (disabledCheck info (env.ToLower c.Name) (isOwner || decide (m.AuthorID = info.OwnerID)) isSelf = false ∧
      restrictedCheck sb (env.ToLower c.Name) isdbguild = false ∧
      channelCheck m info (env.ToLower c.Name) isPrivate isSelf = false ∧
      (saturationApplies env m info isdebug isfree isSelf = false ∨
        env.check (resizedLimit info) info.config.CommandPerDuration
          info.config.CommandMaxDuration t = false) ∧
      roleDenies env m (afterSaturation env m info t isdebug isfree isSelf) (env.ToLower c.Name) (isOwner || decide (m.AuthorID = info.OwnerID)) isSelf = false ∧
      cooldownApplies info (env.ToLower c.Name) isfree isSelf = true ∧
      env.RateLimit (lastInvocation info m.ChannelID (env.ToLower c.Name))
        (mapGetD info.config.CommandLimits (env.ToLower c.Name) 0) = false ∧
      runCommand sb env m info c args indices t isdbguild isdebug isPrivate isfree isOwner
        isSelf =
        { events := ((auditEvents sb env m info isdbguild) ++ saturationEvents env m info t isdebug isfree isSelf) ++
            [Event.readCommandLast m.ChannelID (env.ToLower c.Name),
             Event.Error m.ChannelID
               (Diag.cooldown (mapGetD info.config.CommandLimits (env.ToLower c.Name) 0))],
          exit := Exit.denied Denial.cooldown, guild := some (afterSaturation env m info t isdebug isfree isSelf) }) ∨
    (disabledCheck info (env.ToLower c.Name) (isOwner || decide (m.AuthorID = info.OwnerID)) isSelf = false ∧
      restrictedCheck sb (env.ToLower c.Name) isdbguild = false ∧
      channelCheck m info (env.ToLower c.Name) isPrivate isSelf = false ∧
      (saturationApplies env m info isdebug isfree isSelf = false ∨
        env.check (resizedLimit info) info.config.CommandPerDuration
          info.config.CommandMaxDuration t = false) ∧
      roleDenies env m (afterSaturation env m info t isdebug isfree isSelf) (env.ToLower c.Name) (isOwner || decide (m.AuthorID = info.OwnerID)) isSelf = false ∧
      cooldownApplies info (env.ToLower c.Name) isfree isSelf = true ∧
      env.RateLimit (lastInvocation info m.ChannelID (env.ToLower c.Name))
        (mapGetD info.config.CommandLimits (env.ToLower c.Name) 0) = true ∧
      runCommand sb env m info c args indices t isdbguild isdebug isPrivate isfree isOwner
        isSelf =
        executeStage env m (recordCooldown (afterSaturation env m info t isdebug isfree isSelf) m.ChannelID (env.ToLower c.Name) t) c (env.ToLower c.Name) args indices
          isPrivate
          (((auditEvents sb env m info isdbguild) ++ saturationEvents env m info t isdebug isfree isSelf) ++
            [Event.readCommandLast m.ChannelID (env.ToLower c.Name),
             Event.writeCommandLast m.ChannelID (env.ToLower c.Name) t])) ∨
    (disabledCheck info (env.ToLower c.Name) (isOwner || decide (m.AuthorID = info.OwnerID)) isSelf = false ∧
      restrictedCheck sb (env.ToLower c.Name) isdbguild = false ∧
      channelCheck m info (env.ToLower c.Name) isPrivate isSelf = false ∧
      (saturationApplies env m info isdebug isfree isSelf = false ∨
        env.check (resizedLimit info) info.config.CommandPerDuration
          info.config.CommandMaxDuration t = false) ∧
      roleDenies env m (afterSaturation env m info t isdebug isfree isSelf) (env.ToLower c.Name) (isOwner || decide (m.AuthorID = info.OwnerID)) isSelf = false ∧
      cooldownApplies info (env.ToLower c.Name) isfree isSelf = false ∧
      runCommand sb env m info c args indices t isdbguild isdebug isPrivate isfree isOwner
        isSelf =
        executeStage env m (afterSaturation env m info t isdebug isfree isSelf) c (env.ToLower c.Name) args indices isPrivate ((auditEvents sb env m info isdbguild) ++ saturationEvents env m info t isdebug isfree isSelf)) := by
  unfold runCommand
  simp only []
  by_cases h1 : disabledCheck info (env.ToLower c.Name) (isOwner || decide (m.AuthorID = info.OwnerID)) isSelf = true
  · exact Or.inl ⟨h1, by simp only [h1, if_true]⟩
  have h1f : disabledCheck info (env.ToLower c.Name) (isOwner || decide (m.AuthorID = info.OwnerID)) isSelf = false := by simpa using h1
  by_cases h2 : restrictedCheck sb (env.ToLower c.Name) isdbguild = true
  · exact Or.inr (Or.inl ⟨h1f, h2, by simp only [h1f, h2, Bool.false_eq_true, if_false, if_true]⟩)
  have h2f : restrictedCheck sb (env.ToLower c.Name) isdbguild = false := by simpa using h2
  by_cases h3 : channelCheck m info (env.ToLower c.Name) isPrivate isSelf = true
  · exact Or.inr (Or.inr (Or.inl ⟨h1f, h2f, h3,
      by simp only [h1f, h2f, h3, Bool.false_eq_true, if_false, if_true]⟩))
  have h3f : channelCheck m info (env.ToLower c.Name) isPrivate isSelf = false := by simpa using h3
  simp only [h1f, h2f, h3f, Bool.false_eq_true, if_false]
  refine Or.inr (Or.inr (Or.inr ?_))
  -- the saturation stage
  have hstage : ∀ (info1 : GuildInfo) (ev : List Event),
      info1.config = info.config → info1.commandLast = info.commandLast →
      (roleDenies env m info1 (env.ToLower c.Name) (isOwner || decide (m.AuthorID = info.OwnerID)) isSelf = true ∧
        roleStage env m info1 c (env.ToLower c.Name) args indices t isPrivate isfree (isOwner || decide (m.AuthorID = info.OwnerID)) isSelf ev =
          { events := ev ++ [Event.Error m.ChannelID (Diag.noPermission (env.GetRoles info1 c))],
            exit := Exit.denied Denial.role, guild := some info1 }) ∨
      (roleDenies env m info1 (env.ToLower c.Name) (isOwner || decide (m.AuthorID = info.OwnerID)) isSelf = false ∧
        cooldownApplies info (env.ToLower c.Name) isfree isSelf = true ∧
        env.RateLimit (lastInvocation info m.ChannelID (env.ToLower c.Name))
          (mapGetD info.config.CommandLimits (env.ToLower c.Name) 0) = false ∧
        roleStage env m info1 c (env.ToLower c.Name) args indices t isPrivate isfree (isOwner || decide (m.AuthorID = info.OwnerID)) isSelf ev =
          { events := ev ++
              [Event.readCommandLast m.ChannelID (env.ToLower c.Name),
               Event.Error m.ChannelID
                 (Diag.cooldown (mapGetD info.config.CommandLimits (env.ToLower c.Name) 0))],
            exit := Exit.denied Denial.cooldown, guild := some info1 }) ∨
      (roleDenies env m info1 (env.ToLower c.Name) (isOwner || decide (m.AuthorID = info.OwnerID)) isSelf = false ∧
        cooldownApplies info (env.ToLower c.Name) isfree isSelf = true ∧
        env.RateLimit (lastInvocation info m.ChannelID (env.ToLower c.Name))
          (mapGetD info.config.CommandLimits (env.ToLower c.Name) 0) = true ∧
        roleStage env m info1 c (env.ToLower c.Name) args indices t isPrivate isfree (isOwner || decide (m.AuthorID = info.OwnerID)) isSelf ev =
          executeStage env m (recordCooldown info1 m.ChannelID (env.ToLower c.Name) t) c (env.ToLower c.Name) args indices
            isPrivate
            (ev ++
              [Event.readCommandLast m.ChannelID (env.ToLower c.Name),
               Event.writeCommandLast m.ChannelID (env.ToLower c.Name) t])) ∨
      (roleDenies env m info1 (env.ToLower c.Name) (isOwner || decide (m.AuthorID = info.OwnerID)) isSelf = false ∧
        cooldownApplies info (env.ToLower c.Name) isfree isSelf = false ∧
        roleStage env m info1 c (env.ToLower c.Name) args indices t isPrivate isfree (isOwner || decide (m.AuthorID = info.OwnerID)) isSelf ev =
          executeStage env m info1 c (env.ToLower c.Name) args indices isPrivate ev) := by
    intro info1 ev hcfg hlast
    by_cases hr : roleDenies env m info1 (env.ToLower c.Name) (isOwner || decide (m.AuthorID = info.OwnerID)) isSelf = true
    · exact Or.inl ⟨hr, roleStage_denied env m info1 c _ args indices t isPrivate isfree _ isSelf
        ev hr⟩
    have hrf : roleDenies env m info1 (env.ToLower c.Name) (isOwner || decide (m.AuthorID = info.OwnerID)) isSelf = false := by simpa using hr
    rw [roleStage_passed env m info1 c _ args indices t isPrivate isfree _ isSelf ev hrf]
    refine Or.inr ?_
    by_cases hl : cooldownApplies info (env.ToLower c.Name) isfree isSelf = true
    · have hl1 : (!isfree && decide (mapGetD info1.config.CommandLimits (env.ToLower c.Name) 0 > 0) &&
          !isSelf) = true := by rw [hcfg]; exact hl
      by_cases hrl : env.RateLimit (lastInvocation info m.ChannelID (env.ToLower c.Name))
          (mapGetD info.config.CommandLimits (env.ToLower c.Name) 0) = true
      · have hrl1 : env.RateLimit (mapGetD (mapGetD info1.commandLast m.ChannelID [])
            (env.ToLower c.Name) 0) (mapGetD info1.config.CommandLimits (env.ToLower c.Name) 0) = true := by
          rw [hcfg, hlast]; exact hrl
        exact Or.inr (Or.inl ⟨hrf, hl, hrl,
          cooldownStage_allowed env m info1 c _ args indices t isPrivate isfree isSelf ev hl1
            hrl1⟩)
      · have hrlf : env.RateLimit (lastInvocation info m.ChannelID (env.ToLower c.Name))
            (mapGetD info.config.CommandLimits (env.ToLower c.Name) 0) = false := by simpa using hrl
        have hrl1 : env.RateLimit (mapGetD (mapGetD info1.commandLast m.ChannelID [])
            (env.ToLower c.Name) 0) (mapGetD info1.config.CommandLimits (env.ToLower c.Name) 0) = false := by
          rw [hcfg, hlast]; exact hrlf
        have hcd := cooldownStage_denied env m info1 c _ args indices t isPrivate isfree isSelf
          ev hl1 hrl1
        rw [hcfg] at hcd
        exact Or.inl ⟨hrf, hl, hrlf, hcd⟩
    · have hlf : cooldownApplies info (env.ToLower c.Name) isfree isSelf = false := by simpa using hl
      have hl1 : (!isfree && decide (mapGetD info1.config.CommandLimits (env.ToLower c.Name) 0 > 0) &&
          !isSelf) = false := by rw [hcfg]; exact hlf
      exact Or.inr (Or.inr ⟨hrf, hlf,
        cooldownStage_unlimited env m info1 c _ args indices t isPrivate isfree isSelf ev hl1⟩)
  by_cases ha : saturationApplies env m info isdebug isfree isSelf = true
  · by_cases hc : env.check (resizedLimit info) info.config.CommandPerDuration
        info.config.CommandMaxDuration t = true
    · exact Or.inl ⟨trivial, trivial, trivial, ha, hc,
        saturationStage_denied env m info c _ args indices t isdebug isPrivate isfree _ isSelf _
          ha hc⟩
    · have hcf : env.check (resizedLimit info) info.config.CommandPerDuration
          info.config.CommandMaxDuration t = false := by simpa using hc
      rw [saturationStage_passed env m info c _ args indices t isdebug isPrivate isfree _ isSelf _
        ha hcf]
      have hI : (afterSaturation env m info t isdebug isfree isSelf) = withLimit info (env.append (resizedLimit info) t) :=
        afterSaturation_applies env m info t isdebug isfree isSelf ha
      have hE : saturationEvents env m info t isdebug isfree isSelf =
          [Event.check info.config.CommandPerDuration info.config.CommandMaxDuration t,
            Event.append t] := by
        unfold saturationEvents
        simp only [ha, if_true]
      rw [hI, hE]
      refine Or.inr ?_
      rcases hstage (withLimit info (env.append (resizedLimit info) t))
        ((auditEvents sb env m info isdbguild) ++
          [Event.check info.config.CommandPerDuration info.config.CommandMaxDuration t,
            Event.append t]) rfl rfl with h | h | h | h
      · exact Or.inl ⟨trivial, trivial, trivial, Or.inr hcf, h⟩
      · exact Or.inr (Or.inl ⟨trivial, trivial, trivial, Or.inr hcf, h⟩)
      · exact Or.inr (Or.inr (Or.inl ⟨trivial, trivial, trivial, Or.inr hcf, h⟩))
      · exact Or.inr (Or.inr (Or.inr ⟨trivial, trivial, trivial, Or.inr hcf, h⟩))
  · have haf : saturationApplies env m info isdebug isfree isSelf = false := by simpa using ha
    rw [saturationStage_skipped env m info c _ args indices t isdebug isPrivate isfree _ isSelf _
      haf]
    have hI : (afterSaturation env m info t isdebug isfree isSelf) = info := afterSaturation_skipped env m info t isdebug isfree isSelf haf
    have hE : saturationEvents env m info t isdebug isfree isSelf = [] := by
      unfold saturationEvents
      simp only [haf, Bool.false_eq_true, if_false]
    rw [hI, hE, List.append_nil]
    refine Or.inr ?_
    rcases hstage info (auditEvents sb env m info isdbguild) rfl rfl with h | h | h | h
    · exact Or.inl ⟨trivial, trivial, trivial, Or.inl haf, h⟩
    · exact Or.inr (Or.inl ⟨trivial, trivial, trivial, Or.inl haf, h⟩)
    · exact Or.inr (Or.inr (Or.inl ⟨trivial, trivial, trivial, Or.inl haf, h⟩))
    · exact Or.inr (Or.inr (Or.inr ⟨trivial, trivial, trivial, Or.inl haf, h⟩))

theorem executeStage_exit (env : Env) (m : Message) (info : GuildInfo) (c : Command)
    (cmdname : GoString) (args : List GoString) (indices : List Int) (isPrivate : Bool)
    (events : List Event) :
    (executeStage env m info c cmdname args indices isPrivate events).exit = Exit.executed ∨
      (executeStage env m info c cmdname args indices isPrivate events).exit = Exit.panic := by
  unfold executeStage
  split
  · exact Or.inl rfl
  · exact Or.inr rfl

/-- The handler stage only adds calls to the calls made so far: the call of the handler and the
delivery of its reply, none of which touches the audit log or a rate limiter. -/
theorem executeStage_tail (env : Env) (m : Message) (info : GuildInfo) (c : Command)
    (cmdname : GoString) (args : List GoString) (indices : List Int) (isPrivate : Bool)
    (events : List Event) :
    ∃ tail, (executeStage env m info c cmdname args indices isPrivate events).events =
        events ++ tail ∧
      ∀ e ∈ tail, e.isAudit = false ∧ e.isCheck = false ∧ e.isAppend = false ∧
        e.isCooldown = false := by
  unfold executeStage
  split
  · rename_i a0 args1 i0 indices1
    refine ⟨[Event.Process cmdname args1 m.Content indices1] ++
      deliver env m isPrivate (c.Process args1 m indices1), ?_, ?_⟩
    · simp only [List.append_assoc]
    · intro e he
      simp only [List.mem_append, List.mem_singleton] at he
      rcases he with he | he
      · subst he
        exact ⟨rfl, rfl, rfl, rfl⟩
      · have h := deliver_kinds _ _ _ _ e he
        exact ⟨h.1, h.2.1, h.2.2.1, h.2.2.2.1⟩
  · exact ⟨[], by simp, by simp⟩

theorem saturationEvents_kinds (env : Env) (m : Message) (info : GuildInfo) (t : Int)
    (isdebug isfree isSelf : Bool) :
    ∀ e ∈ saturationEvents env m info t isdebug isfree isSelf,
      e.isSend = false ∧ e.isProcess = false ∧ e.isAudit = false ∧ e.isCooldown = false := by
  intro e he
  unfold saturationEvents at he
  split_ifs at he
  · simp only [List.mem_cons, List.mem_singleton, List.not_mem_nil, or_false] at he
    rcases he with he | he <;> subst he <;> exact ⟨rfl, rfl, rfl, rfl⟩
  · simp at he

theorem afterSaturation_config (env : Env) (m : Message) (info : GuildInfo) (t : Int)
    (isdebug isfree isSelf : Bool) :
    (afterSaturation env m info t isdebug isfree isSelf).config = info.config := by
  unfold afterSaturation
  split_ifs <;> rfl

theorem afterSaturation_commandLast (env : Env) (m : Message) (info : GuildInfo) (t : Int)
    (isdebug isfree isSelf : Bool) :
    (afterSaturation env m info t isdebug isfree isSelf).commandLast = info.commandLast := by
  unfold afterSaturation
  split_ifs <;> rfl

theorem runOnMessageCreate_events (m : Message) (hs : List Hook) :
    ∀ (i : Nat), ∀ e ∈ runOnMessageCreate m hs i, ∃ k, e = Event.OnMessageCreate k := by
  induction hs with
  | nil => intro i e he; simp [runOnMessageCreate] at he
  | cons h hs ih =>
    intro i e he
    unfold runOnMessageCreate at he
    split_ifs at he
    · simp only [List.mem_cons] at he
      rcases he with he | he
      · exact ⟨i, he⟩
      · exact ih _ e he
    · exact ih _ e he

theorem resolveCommand_registered (env : Env) (g : GuildInfo) (m : Message)
    (args : List GoString) (indices : List Int) (arg : GoString) (c : Command)
    (h : (resolveCommand env g m args indices arg).c = some c) :
    ∃ name, mapGet? g.commands name = some c := by
  unfold resolveCommand at h
  split at h
  · rename_i c0 hc0
    simp only [Option.some.injEq] at h
    exact ⟨arg, by rw [hc0, h]⟩
  · split at h
    · simp at h
    · split at h
      · simp at h
      · simp at h
      · simp only [] at h
        split at h
        · simp at h
        · exact ⟨_, h⟩

/-- Every call of `SBProcessCommand` either ends before a command is run, having touched neither
the audit log nor a rate limiter nor a handler and having left the guild as it was, or resolves the
message to a registered command `c` of the guild `g` found for it and runs `runCommand` for it
with the locals `private`, `isfree`, `isOwner` and `isSelf` as lines 631-638 set them. -/
theorem SBProcessCommand_cases (sb : SweetieBot) (env : Env) (m : Message)
    (info : Option GuildInfo) (t : Int) (isdbguild isdebug : Bool) :
    ((∀ e ∈ (SBProcessCommand sb env m info t isdbguild isdebug).events,
        e.isAudit = false ∧ e.isCheck = false ∧ e.isAppend = false ∧ e.isCooldown = false ∧
          e.isProcess = false) ∧
      ((SBProcessCommand sb env m info t isdbguild isdebug).exit.order = 0 ∨
        (SBProcessCommand sb env m info t isdbguild isdebug).exit = Exit.panic) ∧
      ((SBProcessCommand sb env m info t isdbguild isdebug).guild = none ∨
        ∃ g arg, resolveGuild sb env m info arg = Except.ok g ∧
          (SBProcessCommand sb env m info t isdbguild isdebug).guild = some g)) ∨
    ∃ g c content args indices pre arg,
      resolveGuild sb env m info arg = Except.ok g ∧
      (∃ name, mapGet? g.commands name = some c) ∧
      (∀ e ∈ pre, (∃ k, e = Event.OnCommand k) ∨ (∃ s, e = Event.ParseArguments s)) ∧
      (SBProcessCommand sb env m info t isdbguild isdebug).events =
        pre ++ (runCommand sb env { m with Content := content } g c args indices t isdbguild
          isdebug info.isNone (isFreeChannel info m.ChannelID)
          (mapHas sb.Owners (env.SBatoi m.AuthorID)) (decide (m.AuthorID = sb.SelfID))).events ∧
      (SBProcessCommand sb env m info t isdbguild isdebug).exit =
        (runCommand sb env { m with Content := content } g c args indices t isdbguild
          isdebug info.isNone (isFreeChannel info m.ChannelID)
          (mapHas sb.Owners (env.SBatoi m.AuthorID)) (decide (m.AuthorID = sb.SelfID))).exit ∧
      (SBProcessCommand sb env m info t isdbguild isdebug).guild =
        (runCommand sb env { m with Content := content } g c args indices t isdbguild
          isdebug info.isNone (isFreeChannel info m.ChannelID)
          (mapHas sb.Owners (env.SBatoi m.AuthorID)) (decide (m.AuthorID = sb.SelfID))).guild := by
  have hinfo : ∀ arg, info = none ∨ ∃ g, resolveGuild sb env m info arg = Except.ok g ∧
      info = some g := by
    intro arg
    cases info with
    | none => exact Or.inl rfl
    | some g0 => exact Or.inr ⟨g0, rfl, rfl⟩
  have hpre : ∀ e ∈ (commandHooks sb env m info).2 ++ [Event.ParseArguments m.Content.tail],
      (∃ k, e = Event.OnCommand k) ∨ (∃ s, e = Event.ParseArguments s) := by
    intro e he
    simp only [List.mem_append, List.mem_singleton] at he
    rcases he with he | he
    · exact Or.inl (commandHooks_events sb env m info e he)
    · exact Or.inr ⟨_, he⟩
  have hkinds : ∀ e : Event, ((∃ k, e = Event.OnCommand k) ∨ (∃ s, e = Event.ParseArguments s)) →
      e.isAudit = false ∧ e.isCheck = false ∧ e.isAppend = false ∧ e.isCooldown = false ∧
        e.isProcess = false := by
    intro e he
    rcases he with ⟨k, he⟩ | ⟨k, he⟩ <;> subst he <;> exact ⟨rfl, rfl, rfl, rfl, rfl⟩
  unfold SBProcessCommand
  by_cases hcmd : isCommand (effectivePrefix info) m.Content = true
  · simp only [hcmd, if_true]
    by_cases hh : (commandHooks sb env m info).1 = true
    · simp only [hh, if_true]
      refine Or.inl ⟨?_, Or.inl rfl, ?_⟩
      · intro e he
        exact hkinds e (Or.inl (commandHooks_events sb env m info e he))
      · rcases hinfo [] with h | ⟨g, hg, h⟩
        · exact Or.inl h
        · exact Or.inr ⟨g, [], hg, h⟩
    · simp only [hh, Bool.false_eq_true, if_false]
      unfold processCommand
      simp only []
      cases hparse : (env.ParseArguments m.Content.tail).1 with
      | nil =>
        simp only []
        refine Or.inl ⟨fun e he => hkinds e (hpre e he), Or.inr trivial, ?_⟩
        rcases hinfo [] with h | ⟨g, hg, h⟩
        · exact Or.inl h
        · exact Or.inr ⟨g, [], hg, h⟩
      | cons a0 as =>
        simp only []
        cases hg : resolveGuild sb env m info (env.ToLower a0) with
        | error e =>
          simp only []
          refine Or.inl ⟨?_, Or.inl (resolveGuild_error_order sb env m info _ e hg), Or.inl trivial⟩
          intro x hx
          simp only [List.mem_append, List.mem_singleton] at hx
          rcases hx with hx | hx
          · exact hkinds x (hpre x (by simpa using hx))
          · subst hx
            exact ⟨rfl, rfl, rfl, rfl, rfl⟩
        | ok g =>
          simp only []
          unfold dispatch
          simp only []
          obtain ⟨content, hm⟩ := resolveCommand_m env g m (a0 :: as)
            (env.ParseArguments m.Content.tail).2 (env.ToLower ((a0 :: as).getD 0 []))
          have hev := resolveCommand_events env g m (a0 :: as)
            (env.ParseArguments m.Content.tail).2 (env.ToLower ((a0 :: as).getD 0 []))
          have hreg := resolveCommand_registered env g m (a0 :: as)
            (env.ParseArguments m.Content.tail).2 (env.ToLower ((a0 :: as).getD 0 []))
          generalize resolveCommand env g m (a0 :: as) (env.ParseArguments m.Content.tail).2
            (env.ToLower ((a0 :: as).getD 0 [])) = r at hm hev hreg ⊢
          have hpre2 : ∀ e ∈ (commandHooks sb env m info).2 ++
              [Event.ParseArguments m.Content.tail] ++ r.events,
              (∃ k, e = Event.OnCommand k) ∨ (∃ s, e = Event.ParseArguments s) := by
            intro e he
            rw [List.mem_append] at he
            rcases he with he | he
            · exact hpre e he
            · exact Or.inr (hev e he)
          by_cases hpan : r.panicked = true
          · simp only [hpan, if_true]
            exact Or.inl ⟨fun e he => hkinds e (hpre2 e he), Or.inr trivial,
              Or.inr ⟨g, _, hg, rfl⟩⟩
          · simp only [hpan, Bool.false_eq_true, if_false]
            cases hc : r.c with
            | none =>
              simp only []
              refine Or.inl ⟨?_, Or.inl rfl, Or.inr ⟨g, _, hg, rfl⟩⟩
              intro x hx
              rw [List.mem_append] at hx
              rcases hx with hx | hx
              · exact hkinds x (hpre2 x hx)
              · split_ifs at hx
                · simp only [List.mem_singleton] at hx
                  subst hx
                  exact ⟨rfl, rfl, rfl, rfl, rfl⟩
                · simp at hx
            | some c =>
              simp only []
              refine Or.inr ⟨g, c, content, r.args, r.indices,
                (commandHooks sb env m info).2 ++ [Event.ParseArguments m.Content.tail] ++
                  r.events, env.ToLower a0, hg, hreg c hc, hpre2, ?_, ?_, ?_⟩
              · rw [← hm]
              · rw [← hm]
              · rw [← hm]
  · simp only [hcmd, Bool.false_eq_true, if_false]
    cases info with
    | none =>
      exact Or.inl ⟨by simp, Or.inl rfl, Or.inl rfl⟩
    | some g0 =>
      refine Or.inl ⟨?_, Or.inl rfl, Or.inr ⟨g0, [], rfl, rfl⟩⟩
      intro e he
      obtain ⟨k, hk⟩ := runOnMessageCreate_events m _ _ e he
      subst hk
      exact ⟨rfl, rfl, rfl, rfl, rfl⟩

/-! ## Theorems: the guild owner -/

/-- C11, the code at the failing input. The guild allows `pick` in channel 101 only, and its
owner, user 2, sends `!pick a` in channel 100: the call ends in the channel denial, after the
tokenizer and the audit record, and the handler of `pick` is not called. The owner of a guild that
is not a database guild is denied the restricted command `search` as well. With the channel list
empty the same message of the owner runs the handler. -/
theorem SBProcessCommand_guild_owner_denied :
    (gatedGuild [(str "pick", [(str "101", true)])] []).OwnerID = str "2" ∧
    mapHas (gatedGuild [(str "pick", [(str "101", true)])] []).commands (str "pick") = true ∧
    (SBProcessCommand (sampleBot (gatedGuild [(str "pick", [(str "101", true)])] []))
      (sampleEnv []) { sampleMessage "!pick a" with AuthorID := str "2" }
      (some (gatedGuild [(str "pick", [(str "101", true)])] [])) 0 true false).exit =
        Exit.denied Denial.channel ∧
    (SBProcessCommand (sampleBot (gatedGuild [(str "pick", [(str "101", true)])] []))
      (sampleEnv []) { sampleMessage "!pick a" with AuthorID := str "2" }
      (some (gatedGuild [(str "pick", [(str "101", true)])] [])) 0 true false).events =
        [Event.ParseArguments (str "pick a"), Event.Audit (str "2") (str "!pick a") 1] ∧
    (SBProcessCommand (sampleBot (gatedGuild [] [])) (sampleEnv [])
      { sampleMessage "!search" with AuthorID := str "2" }
      (some (gatedGuild [] [])) 0 false false).exit = Exit.denied Denial.restricted ∧
    (SBProcessCommand (sampleBot (gatedGuild [] [])) (sampleEnv [])
      { sampleMessage "!pick a" with AuthorID := str "2" }
      (some (gatedGuild [] [])) 0 true false).exit = Exit.executed := by
  decide

/-! ## Theorems: which denials are silent -/

/-- C13, counterexample. The guild allows `pick` in channel 101 only and user 7 sends `!pick a` in
channel 100: the channel list denies the invocation, and the call has only run the tokenizer and
written the audit record; nothing is sent to any channel. -/
theorem SBProcessCommand_channel_denial_silent :
    (SBProcessCommand (sampleBot (gatedGuild [(str "pick", [(str "101", true)])] []))
      (sampleEnv []) (sampleMessage "!pick a")
      (some (gatedGuild [(str "pick", [(str "101", true)])] [])) 0 true false).exit =
        Exit.denied Denial.channel ∧
    (SBProcessCommand (sampleBot (gatedGuild [(str "pick", [(str "101", true)])] []))
      (sampleEnv []) (sampleMessage "!pick a")
      (some (gatedGuild [(str "pick", [(str "101", true)])] [])) 0 true false).events =
        [Event.ParseArguments (str "pick a"), Event.Audit (str "7") (str "!pick a") 1] ∧
    (SBProcessCommand (sampleBot (gatedGuild [(str "pick", [(str "101", true)])] []))
      (sampleEnv []) (sampleMessage "!pick a")
      (some (gatedGuild [(str "pick", [(str "101", true)])] [])) 0 true false).events.any
        Event.isSend = false := by
  decide

/-! ## Theorems: the access chain and the rate limiters -/

/-- C14, counterexample. The guild lets three commands run every 20 seconds and allows `pick` to
role 55 only; user 7, who has no role, sends `!pick a` at time 100. The role list denies the
invocation, but only after the saturation limiter was checked and the time appended: the buffer of
six zeros with cursor 0 has become `[0, 100, 0, 0, 0, 0]` with cursor 1. -/
theorem SBProcessCommand_role_denial_after_limiter :
    (limitedGuild 3 [] [] [(str "pick", [(str "55", true)])]).commandlimit =
      { times := [0, 0, 0, 0, 0, 0], index := 0 } ∧
    (SBProcessCommand (sampleBot (limitedGuild 3 [] [] [(str "pick", [(str "55", true)])]))
      (clockEnv 100 []) (sampleMessage "!pick a")
      (some (limitedGuild 3 [] [] [(str "pick", [(str "55", true)])])) 100 true false).exit =
        Exit.denied Denial.role ∧
    (SBProcessCommand (sampleBot (limitedGuild 3 [] [] [(str "pick", [(str "55", true)])]))
      (clockEnv 100 []) (sampleMessage "!pick a")
      (some (limitedGuild 3 [] [] [(str "pick", [(str "55", true)])])) 100 true false).events =
        [Event.ParseArguments (str "pick a"), Event.Audit (str "7") (str "!pick a") 1,
          Event.check 3 20 100, Event.append 100,
          Event.Error (str "100") (Diag.noPermission (str "55"))] ∧
    ((SBProcessCommand (sampleBot (limitedGuild 3 [] [] [(str "pick", [(str "55", true)])]))
      (clockEnv 100 []) (sampleMessage "!pick a")
      (some (limitedGuild 3 [] [] [(str "pick", [(str "55", true)])])) 100 true false).guild.map
        fun g => g.commandlimit) = some { times := [0, 100, 0, 0, 0, 0], index := 1 } := by
  decide

/-! ## Theorems: what the denials of the rate limiters say -/

/-- C19, counterexample. The command `pick` has a cooldown of 5 seconds and last ran in channel
100 at time 0. Sent again at time 3 and at time 4 it is denied both times, and both times the bot
sends the same diagnostic, which carries the configured 5 seconds; the remaining waits are 2
seconds and 1 second. -/
theorem SBProcessCommand_cooldown_diagnostic_fixed :
    (SBProcessCommand
      (sampleBot (limitedGuild 0 [(str "pick", 5)] [(str "100", [(str "pick", 0)])] []))
      (clockEnv 3 []) (sampleMessage "!pick a")
      (some (limitedGuild 0 [(str "pick", 5)] [(str "100", [(str "pick", 0)])] [])) 3 true
      false).events =
        [Event.ParseArguments (str "pick a"), Event.Audit (str "7") (str "!pick a") 1,
          Event.readCommandLast (str "100") (str "pick"),
          Event.Error (str "100") (Diag.cooldown 5)] ∧
    (SBProcessCommand
      (sampleBot (limitedGuild 0 [(str "pick", 5)] [(str "100", [(str "pick", 0)])] []))
      (clockEnv 4 []) (sampleMessage "!pick a")
      (some (limitedGuild 0 [(str "pick", 5)] [(str "100", [(str "pick", 0)])] [])) 4 true
      false).events =
        [Event.ParseArguments (str "pick a"), Event.Audit (str "7") (str "!pick a") 1,
          Event.readCommandLast (str "100") (str "pick"),
          Event.Error (str "100") (Diag.cooldown 5)] ∧
    remainingWait 3 0 5 = 2 ∧ remainingWait 4 0 5 = 1 := by
  decide

/-! ## Theorems: the silent denials -/

theorem hookEvents_kinds (pre : List Event)
    (h : ∀ e ∈ pre, (∃ k, e = Event.OnCommand k) ∨ (∃ s, e = Event.ParseArguments s)) :
    ∀ e ∈ pre, e.isSend = false ∧ e.isProcess = false ∧ e.isAudit = false ∧ e.isCheck = false ∧
      e.isAppend = false ∧ e.isCooldown = false := by
  intro e he
  rcases h e he with ⟨k, hk⟩ | ⟨k, hk⟩ <;> subst hk <;> exact ⟨rfl, rfl, rfl, rfl, rfl, rfl⟩

/-- C12. Whenever `SBProcessCommand` ends in the disabled denial or in the restricted denial, none
of the calls it made sends a message, runs a handler, checks or appends to the saturation limiter,
or reads or writes the cooldown table, and the guild it returns, with its saturation buffer and
its cooldown table, is the guild found for the message, unchanged. -/
theorem SBProcessCommand_silent_denials (sb : SweetieBot) (env : Env) (m : Message)
    (info : Option GuildInfo) (t : Int) (isdbguild isdebug : Bool)
    (h : (SBProcessCommand sb env m info t isdbguild isdebug).exit = Exit.denied Denial.disabled ∨
      (SBProcessCommand sb env m info t isdbguild isdebug).exit =
        Exit.denied Denial.restricted) :
    (∀ e ∈ (SBProcessCommand sb env m info t isdbguild isdebug).events,
      e.isSend = false ∧ e.isProcess = false ∧ e.isCheck = false ∧ e.isAppend = false ∧
        e.isCooldown = false) ∧
    ∃ g arg, resolveGuild sb env m info arg = Except.ok g ∧
      (SBProcessCommand sb env m info t isdbguild isdebug).guild = some g := by
  rcases SBProcessCommand_cases sb env m info t isdbguild isdebug with
    ⟨_, ho, _⟩ | ⟨g, c, content, args, indices, pre, arg, hg, _, hpre, hev, hex, hgu⟩
  · exfalso
    rcases h with h | h <;> rw [h] at ho <;> rcases ho with ho | ho <;>
      simp [Exit.order] at ho
  · rw [hex] at h
    have hearly := runCommand_early sb env { m with Content := content } g c args indices t
      isdbguild isdebug info.isNone (isFreeChannel info m.ChannelID)
      (mapHas sb.Owners (env.SBatoi m.AuthorID)) (decide (m.AuthorID = sb.SelfID))
      (by rcases h with h | h
          · exact Or.inl h
          · exact Or.inr (Or.inl h))
    refine ⟨?_, g, arg, hg, by rw [hgu, hearly.2]⟩
    intro e he
    rw [hev, hearly.1, List.mem_append] at he
    rcases he with he | he
    · have hk := hookEvents_kinds pre hpre e he
      exact ⟨hk.1, hk.2.1, hk.2.2.2.1, hk.2.2.2.2.1, hk.2.2.2.2.2⟩
    · exact auditEvents_kinds sb env _ g isdbguild e he

/-- C12, at a concrete guild: `pick` is disabled and user 7 sends `!pick a`; the call ends in the
disabled denial, so it has sent nothing and returns the guild unchanged. -/
theorem SBProcessCommand_silent_denials_witness :
    (SBProcessCommand (sampleBot (disabledGuild [(str "pick", true)])) (sampleEnv [])
      (sampleMessage "!pick a") (some (disabledGuild [(str "pick", true)])) 0 true false).exit =
        Exit.denied Denial.disabled ∧
    ((∀ e ∈ (SBProcessCommand (sampleBot (disabledGuild [(str "pick", true)])) (sampleEnv [])
        (sampleMessage "!pick a") (some (disabledGuild [(str "pick", true)])) 0 true
        false).events,
      e.isSend = false ∧ e.isProcess = false ∧ e.isCheck = false ∧ e.isAppend = false ∧
        e.isCooldown = false) ∧
    ∃ g arg, resolveGuild (sampleBot (disabledGuild [(str "pick", true)])) (sampleEnv [])
        (sampleMessage "!pick a") (some (disabledGuild [(str "pick", true)])) arg =
          Except.ok g ∧
      (SBProcessCommand (sampleBot (disabledGuild [(str "pick", true)])) (sampleEnv [])
        (sampleMessage "!pick a") (some (disabledGuild [(str "pick", true)])) 0 true
        false).guild = some g) :=
  ⟨by decide,
    SBProcessCommand_silent_denials (sampleBot (disabledGuild [(str "pick", true)]))
      (sampleEnv []) (sampleMessage "!pick a") (some (disabledGuild [(str "pick", true)])) 0 true
      false (Or.inl (by decide))⟩

/-! ## Lemmas: the branch of `runCommand` behind each exit -/

theorem executeStage_not_denied (env : Env) (m : Message) (info : GuildInfo) (c : Command)
    (cmdname : GoString) (args : List GoString) (indices : List Int) (isPrivate : Bool)
    (events : List Event) (d : Denial) :
    (executeStage env m info c cmdname args indices isPrivate events).exit ≠ Exit.denied d := by
  rcases executeStage_exit env m info c cmdname args indices isPrivate events with h | h <;>
    rw [h] <;> simp

/-- The role denial is the fifth branch: the audit record and the calls of the saturation limiter,
if it applies, then the diagnostic. -/
theorem runCommand_denied_role (sb : SweetieBot) (env : Env) (m : Message) (info : GuildInfo)
    (c : Command) (args : List GoString) (indices : List Int) (t : Int)
    (isdbguild isdebug isPrivate isfree isOwner isSelf : Bool)
    (h : (runCommand sb env m info c args indices t isdbguild isdebug isPrivate isfree isOwner
        isSelf).exit = Exit.denied Denial.role) :
    runCommand sb env m info c args indices t isdbguild isdebug isPrivate isfree isOwner
        isSelf =
      { events := ((auditEvents sb env m info isdbguild) ++ saturationEvents env m info t isdebug isfree isSelf) ++
          [Event.Error m.ChannelID (Diag.noPermission (env.GetRoles (afterSaturation env m info t isdebug isfree isSelf) c))],
        exit := Exit.denied Denial.role, guild := some (afterSaturation env m info t isdebug isfree isSelf) } := by
  rcases runCommand_leaves sb env m info c args indices t isdbguild isdebug isPrivate isfree isOwner isSelf with
    ⟨_, ho⟩ | ⟨_, _, ho⟩ | ⟨_, _, _, ho⟩ | ⟨_, _, _, _, _, ho⟩ | ⟨_, _, _, _, _, ho⟩ |
    ⟨_, _, _, _, _, _, _, ho⟩ | ⟨_, _, _, _, _, _, _, ho⟩ | ⟨_, _, _, _, _, _, ho⟩
  · rw [ho] at h; simp at h
  · rw [ho] at h; simp at h
  · rw [ho] at h; simp at h
  · rw [ho] at h; simp at h
  · exact ho
  · rw [ho] at h; simp at h
  · rw [ho] at h; exact absurd h (executeStage_not_denied _ _ _ _ _ _ _ _ _ _)
  · rw [ho] at h; exact absurd h (executeStage_not_denied _ _ _ _ _ _ _ _ _ _)

/-- The denial of the saturation limiter is the fourth branch: the limiter applies and reports
saturated, and the call ends with the diagnostic, before any append. -/
theorem runCommand_denied_saturation (sb : SweetieBot) (env : Env) (m : Message) (info : GuildInfo)
    (c : Command) (args : List GoString) (indices : List Int) (t : Int)
    (isdbguild isdebug isPrivate isfree isOwner isSelf : Bool)
    (h : (runCommand sb env m info c args indices t isdbguild isdebug isPrivate isfree isOwner
        isSelf).exit = Exit.denied Denial.saturation) :
    saturationApplies env m info isdebug isfree isSelf = true ∧
    env.check (resizedLimit info) info.config.CommandPerDuration
      info.config.CommandMaxDuration t = true ∧
    runCommand sb env m info c args indices t isdbguild isdebug isPrivate isfree isOwner
        isSelf =
      { events := (auditEvents sb env m info isdbguild) ++
          [Event.check info.config.CommandPerDuration info.config.CommandMaxDuration t,
           Event.Error m.ChannelID
             (Diag.saturation info.config.CommandPerDuration info.config.CommandMaxDuration)],
        exit := Exit.denied Denial.saturation,
        guild := some (withLimit info (resizedLimit info)) } := by
  rcases runCommand_leaves sb env m info c args indices t isdbguild isdebug isPrivate isfree isOwner isSelf with
    ⟨_, ho⟩ | ⟨_, _, ho⟩ | ⟨_, _, _, ho⟩ | ⟨_, _, _, ha, hc, ho⟩ | ⟨_, _, _, _, _, ho⟩ |
    ⟨_, _, _, _, _, _, _, ho⟩ | ⟨_, _, _, _, _, _, _, ho⟩ | ⟨_, _, _, _, _, _, ho⟩
  · rw [ho] at h; simp at h
  · rw [ho] at h; simp at h
  · rw [ho] at h; simp at h
  · exact ⟨ha, hc, ho⟩
  · rw [ho] at h; simp at h
  · rw [ho] at h; simp at h
  · rw [ho] at h; exact absurd h (executeStage_not_denied _ _ _ _ _ _ _ _ _ _)
  · rw [ho] at h; exact absurd h (executeStage_not_denied _ _ _ _ _ _ _ _ _ _)

/-- The cooldown denial is the sixth branch: the cooldown applies, `RateLimit` refuses, and the
call ends with the read of the table and the diagnostic. -/
theorem runCommand_denied_cooldown (sb : SweetieBot) (env : Env) (m : Message) (info : GuildInfo)
    (c : Command) (args : List GoString) (indices : List Int) (t : Int)
    (isdbguild isdebug isPrivate isfree isOwner isSelf : Bool)
    (h : (runCommand sb env m info c args indices t isdbguild isdebug isPrivate isfree isOwner
        isSelf).exit = Exit.denied Denial.cooldown) :
    cooldownApplies info (env.ToLower c.Name) isfree isSelf = true ∧
    env.RateLimit (lastInvocation info m.ChannelID (env.ToLower c.Name))
      (mapGetD info.config.CommandLimits (env.ToLower c.Name) 0) = false ∧
    runCommand sb env m info c args indices t isdbguild isdebug isPrivate isfree isOwner
        isSelf =
      { events := ((auditEvents sb env m info isdbguild) ++ saturationEvents env m info t isdebug isfree isSelf) ++
          [Event.readCommandLast m.ChannelID (env.ToLower c.Name),
           Event.Error m.ChannelID
             (Diag.cooldown (mapGetD info.config.CommandLimits (env.ToLower c.Name) 0))],
        exit := Exit.denied Denial.cooldown, guild := some (afterSaturation env m info t isdebug isfree isSelf) } := by
  rcases runCommand_leaves sb env m info c args indices t isdbguild isdebug isPrivate isfree isOwner isSelf with
    ⟨_, ho⟩ | ⟨_, _, ho⟩ | ⟨_, _, _, ho⟩ | ⟨_, _, _, _, _, ho⟩ | ⟨_, _, _, _, _, ho⟩ |
    ⟨_, _, _, _, _, hl, hr, ho⟩ | ⟨_, _, _, _, _, _, _, ho⟩ | ⟨_, _, _, _, _, _, ho⟩
  · rw [ho] at h; simp at h
  · rw [ho] at h; simp at h
  · rw [ho] at h; simp at h
  · rw [ho] at h; simp at h
  · rw [ho] at h; simp at h
  · exact ⟨hl, hr, ho⟩
  · rw [ho] at h; exact absurd h (executeStage_not_denied _ _ _ _ _ _ _ _ _ _)
  · rw [ho] at h; exact absurd h (executeStage_not_denied _ _ _ _ _ _ _ _ _ _)

/-- A call of `runCommand` that no check denies ends in the handler stage: after the read and
the write of the cooldown table when the cooldown applies, and directly otherwise. -/
theorem runCommand_not_denied (sb : SweetieBot) (env : Env) (m : Message) (info : GuildInfo)
    (c : Command) (args : List GoString) (indices : List Int) (t : Int)
    (isdbguild isdebug isPrivate isfree isOwner isSelf : Bool)
    (h : ∀ d, (runCommand sb env m info c args indices t isdbguild isdebug isPrivate isfree isOwner
        isSelf).exit ≠ Exit.denied d) :
    (cooldownApplies info (env.ToLower c.Name) isfree isSelf = true ∧
      runCommand sb env m info c args indices t isdbguild isdebug isPrivate isfree isOwner
        isSelf =
        executeStage env m (recordCooldown (afterSaturation env m info t isdebug isfree isSelf) m.ChannelID (env.ToLower c.Name) t) c (env.ToLower c.Name) args indices
          isPrivate
          (((auditEvents sb env m info isdbguild) ++ saturationEvents env m info t isdebug isfree isSelf) ++
            [Event.readCommandLast m.ChannelID (env.ToLower c.Name),
             Event.writeCommandLast m.ChannelID (env.ToLower c.Name) t])) ∨
    (cooldownApplies info (env.ToLower c.Name) isfree isSelf = false ∧
      runCommand sb env m info c args indices t isdbguild isdebug isPrivate isfree isOwner
        isSelf =
        executeStage env m (afterSaturation env m info t isdebug isfree isSelf) c (env.ToLower c.Name) args indices isPrivate ((auditEvents sb env m info isdbguild) ++ saturationEvents env m info t isdebug isfree isSelf)) := by
  rcases runCommand_leaves sb env m info c args indices t isdbguild isdebug isPrivate isfree isOwner isSelf with
    ⟨_, ho⟩ | ⟨_, _, ho⟩ | ⟨_, _, _, ho⟩ | ⟨_, _, _, _, _, ho⟩ | ⟨_, _, _, _, _, ho⟩ |
    ⟨_, _, _, _, _, _, _, ho⟩ | ⟨_, _, _, _, _, hl, _, ho⟩ | ⟨_, _, _, _, _, hl, ho⟩
  · exact absurd (by rw [ho]) (h Denial.disabled)
  · exact absurd (by rw [ho]) (h Denial.restricted)
  · exact absurd (by rw [ho]) (h Denial.channel)
  · exact absurd (by rw [ho]) (h Denial.saturation)
  · exact absurd (by rw [ho]) (h Denial.role)
  · exact absurd (by rw [ho]) (h Denial.cooldown)
  · exact Or.inl ⟨hl, ho⟩
  · exact Or.inr ⟨hl, ho⟩

/-! ## Theorems: the diagnostics of the permission denials -/

/-- C13, amended. Whenever `SBProcessCommand` ends in the denial by the role list, the last call
it made sends to the channel of the message the diagnostic that names the roles allowed to run the
command, `GetRoles` of the registered command the message resolved to, and no call before it
sends anything. Whenever it ends in the denial by the channel list, no call it made sends
anything. -/
theorem SBProcessCommand_denial_diagnostics (sb : SweetieBot) (env : Env) (m : Message)
    (info : Option GuildInfo) (t : Int) (isdbguild isdebug : Bool) :
    ((SBProcessCommand sb env m info t isdbguild isdebug).exit = Exit.denied Denial.role →
      ∃ g0 arg g c evs, resolveGuild sb env m info arg = Except.ok g0 ∧
        (∃ name, mapGet? g0.commands name = some c) ∧
        g.config = g0.config ∧
        (SBProcessCommand sb env m info t isdbguild isdebug).guild = some g ∧
        (SBProcessCommand sb env m info t isdbguild isdebug).events =
          evs ++ [Event.Error m.ChannelID (Diag.noPermission (env.GetRoles g c))] ∧
        ∀ e ∈ evs, e.isSend = false) ∧
    ((SBProcessCommand sb env m info t isdbguild isdebug).exit = Exit.denied Denial.channel →
      ∀ e ∈ (SBProcessCommand sb env m info t isdbguild isdebug).events, e.isSend = false) := by
  rcases SBProcessCommand_cases sb env m info t isdbguild isdebug with
    ⟨_, ho, _⟩ | ⟨g, c, content, args, indices, pre, arg, hg, hreg, hpre, hev, hex, hgu⟩
  · constructor <;> intro h <;> exfalso <;> rw [h] at ho <;> rcases ho with ho | ho <;>
      simp [Exit.order] at ho
  · constructor
    · intro h
      rw [hex] at h
      have hrun := runCommand_denied_role sb env { m with Content := content } g c args indices
        t isdbguild isdebug info.isNone (isFreeChannel info m.ChannelID)
        (mapHas sb.Owners (env.SBatoi m.AuthorID)) (decide (m.AuthorID = sb.SelfID)) h
      rw [hrun] at hev hgu
      refine ⟨g, arg, _, c,
        pre ++ (auditEvents sb env { m with Content := content } g isdbguild ++
          saturationEvents env { m with Content := content } g t isdebug
            (isFreeChannel info m.ChannelID) (decide (m.AuthorID = sb.SelfID))),
        hg, hreg, afterSaturation_config _ _ _ _ _ _ _, hgu, ?_, ?_⟩
      · rw [hev]
        simp only [List.append_assoc]
      · intro e he
        rw [List.mem_append, List.mem_append] at he
        rcases he with he | he | he
        · exact (hookEvents_kinds pre hpre e he).1
        · exact (auditEvents_kinds sb env _ g isdbguild e he).1
        · exact (saturationEvents_kinds env _ g t isdebug _ _ e he).1
    · intro h
      rw [hex] at h
      have hearly := runCommand_early sb env { m with Content := content } g c args indices t
        isdbguild isdebug info.isNone (isFreeChannel info m.ChannelID)
        (mapHas sb.Owners (env.SBatoi m.AuthorID)) (decide (m.AuthorID = sb.SelfID))
        (Or.inr (Or.inr h))
      intro e he
      rw [hev, hearly.1, List.mem_append] at he
      rcases he with he | he
      · exact (hookEvents_kinds pre hpre e he).1
      · exact (auditEvents_kinds sb env _ g isdbguild e he).1

/-! ## Theorems: the access checks and the state of the rate limiters -/

/-- C14, amended. Whenever `SBProcessCommand` ends in the disabled, the restricted or the channel
denial, no call it made checks or appends to the saturation limiter or reads or writes the cooldown
table, and the guild it returns is the guild found for the message, unchanged. Whenever it ends in
the denial by the role list, no call it made reads or writes the cooldown table, and the guild it
returns has the cooldown table and the configuration of the guild found for the message; it is that
guild unchanged when the saturation limiter does not apply to the invocation. -/
theorem SBProcessCommand_access_denial_frame (sb : SweetieBot) (env : Env) (m : Message)
    (info : Option GuildInfo) (t : Int) (isdbguild isdebug : Bool) :
    (((SBProcessCommand sb env m info t isdbguild isdebug).exit = Exit.denied Denial.disabled ∨
        (SBProcessCommand sb env m info t isdbguild isdebug).exit = Exit.denied Denial.restricted ∨
        (SBProcessCommand sb env m info t isdbguild isdebug).exit = Exit.denied Denial.channel) →
      (∀ e ∈ (SBProcessCommand sb env m info t isdbguild isdebug).events,
        e.isCheck = false ∧ e.isAppend = false ∧ e.isCooldown = false) ∧
      ∃ g arg, resolveGuild sb env m info arg = Except.ok g ∧
        (SBProcessCommand sb env m info t isdbguild isdebug).guild = some g) ∧
    ((SBProcessCommand sb env m info t isdbguild isdebug).exit = Exit.denied Denial.role →
      (∀ e ∈ (SBProcessCommand sb env m info t isdbguild isdebug).events, e.isCooldown = false) ∧
      ∃ g0 arg g, resolveGuild sb env m info arg = Except.ok g0 ∧
        (SBProcessCommand sb env m info t isdbguild isdebug).guild = some g ∧
        g.commandLast = g0.commandLast ∧ g.config = g0.config ∧
        (saturationApplies env m g0 isdebug (isFreeChannel info m.ChannelID)
          (decide (m.AuthorID = sb.SelfID)) = false → g = g0)) := by
  rcases SBProcessCommand_cases sb env m info t isdbguild isdebug with
    ⟨_, ho, _⟩ | ⟨g, c, content, args, indices, pre, arg, hg, hreg, hpre, hev, hex, hgu⟩
  · constructor
    · intro h
      exfalso
      rcases h with h | h | h <;> rw [h] at ho <;> rcases ho with ho | ho <;>
        simp [Exit.order] at ho
    · intro h
      exfalso
      rw [h] at ho
      rcases ho with ho | ho <;> simp [Exit.order] at ho
  · constructor
    · intro h
      rw [hex] at h
      have hearly := runCommand_early sb env { m with Content := content } g c args indices t
        isdbguild isdebug info.isNone (isFreeChannel info m.ChannelID)
        (mapHas sb.Owners (env.SBatoi m.AuthorID)) (decide (m.AuthorID = sb.SelfID)) h
      refine ⟨?_, g, arg, hg, by rw [hgu, hearly.2]⟩
      intro e he
      rw [hev, hearly.1, List.mem_append] at he
      rcases he with he | he
      · have hk := hookEvents_kinds pre hpre e he
        exact ⟨hk.2.2.2.1, hk.2.2.2.2.1, hk.2.2.2.2.2⟩
      · have hk := auditEvents_kinds sb env _ g isdbguild e he
        exact ⟨hk.2.2.1, hk.2.2.2.1, hk.2.2.2.2⟩
    · intro h
      rw [hex] at h
      have hrun := runCommand_denied_role sb env { m with Content := content } g c args indices
        t isdbguild isdebug info.isNone (isFreeChannel info m.ChannelID)
        (mapHas sb.Owners (env.SBatoi m.AuthorID)) (decide (m.AuthorID = sb.SelfID)) h
      rw [hrun] at hev hgu
      refine ⟨?_, g, arg, _, hg, hgu, afterSaturation_commandLast _ _ _ _ _ _ _,
        afterSaturation_config _ _ _ _ _ _ _, ?_⟩
      · intro e he
        rw [hev] at he
        simp only [List.mem_append, List.mem_singleton] at he
        rcases he with he | (he | he) | he
        · exact (hookEvents_kinds pre hpre e he).2.2.2.2.2
        · exact (auditEvents_kinds sb env _ g isdbguild e he).2.2.2.2
        · exact (saturationEvents_kinds env _ g t isdebug _ _ e he).2.2.2
        · subst he
          rfl
      · intro hs
        exact afterSaturation_skipped env { m with Content := content } g t isdebug _ _ hs

/-! ## Theorems: the saturation limiter -/

theorem filter_isAppend_nil (l : List Event) (h : ∀ e ∈ l, e.isAppend = false) :
    l.filter Event.isAppend = [] := by
  induction l with
  | nil => rfl
  | cons a l ih =>
    rw [List.filter_cons, h a (List.mem_cons_self _ _)]
    exact ih (fun e he => h e (List.mem_cons_of_mem _ he))

/-- A call of `runCommand` that gets past the saturation limiter: its calls are the audit record
and the calls of the limiter, followed by calls that touch neither the audit log nor the limiter,
and the guild it returns has the limiter as the saturation stage left it. -/
theorem runCommand_passed (sb : SweetieBot) (env : Env) (m : Message) (info : GuildInfo)
    (c : Command) (args : List GoString) (indices : List Int) (t : Int)
    (isdbguild isdebug isPrivate isfree isOwner isSelf : Bool)
    (hd : disabledCheck info (env.ToLower c.Name) (isOwner || decide (m.AuthorID = info.OwnerID)) isSelf = false)
    (hr : restrictedCheck sb (env.ToLower c.Name) isdbguild = false)
    (hc : channelCheck m info (env.ToLower c.Name) isPrivate isSelf = false)
    (hs : saturationApplies env m info isdebug isfree isSelf = false ∨
      env.check (resizedLimit info) info.config.CommandPerDuration
        info.config.CommandMaxDuration t = false) :
    ∃ tail g,
      (runCommand sb env m info c args indices t isdbguild isdebug isPrivate isfree isOwner
        isSelf).events = ((auditEvents sb env m info isdbguild) ++ saturationEvents env m info t isdebug isfree isSelf) ++ tail ∧
      (∀ e ∈ tail, e.isAudit = false ∧ e.isCheck = false ∧ e.isAppend = false) ∧
      (runCommand sb env m info c args indices t isdbguild isdebug isPrivate isfree isOwner
        isSelf).guild = some g ∧
      g.commandlimit = (afterSaturation env m info t isdebug isfree isSelf).commandlimit ∧
      (runCommand sb env m info c args indices t isdbguild isdebug isPrivate isfree isOwner
        isSelf).exit ≠ Exit.denied Denial.saturation := by
  rcases runCommand_leaves sb env m info c args indices t isdbguild isdebug isPrivate isfree isOwner isSelf with
    ⟨h1, _⟩ | ⟨_, h2, _⟩ | ⟨_, _, h3, _⟩ | ⟨_, _, _, ha, hk, _⟩ | ⟨_, _, _, _, _, ho⟩ |
    ⟨_, _, _, _, _, _, _, ho⟩ | ⟨_, _, _, _, _, _, _, ho⟩ | ⟨_, _, _, _, _, _, ho⟩
  · rw [hd] at h1; cases h1
  · rw [hr] at h2; cases h2
  · rw [hc] at h3; cases h3
  · rcases hs with hs | hs
    · rw [hs] at ha; cases ha
    · rw [hs] at hk; cases hk
  · rw [ho]
    refine ⟨_, _, rfl, ?_, rfl, rfl, by simp⟩
    intro e he
    simp only [List.mem_singleton] at he
    subst he
    exact ⟨rfl, rfl, rfl⟩
  · rw [ho]
    refine ⟨_, _, rfl, ?_, rfl, rfl, by simp⟩
    intro e he
    simp only [List.mem_cons, List.mem_singleton, List.not_mem_nil, or_false] at he
    rcases he with he | he <;> subst he <;> exact ⟨rfl, rfl, rfl⟩
  · rw [ho]
    obtain ⟨tail, htail, hk⟩ := executeStage_tail env m
      (recordCooldown (afterSaturation env m info t isdebug isfree isSelf) m.ChannelID (env.ToLower c.Name) t) c (env.ToLower c.Name) args indices isPrivate
      (((auditEvents sb env m info isdbguild) ++ saturationEvents env m info t isdebug isfree isSelf) ++
        [Event.readCommandLast m.ChannelID (env.ToLower c.Name),
         Event.writeCommandLast m.ChannelID (env.ToLower c.Name) t])
    refine ⟨[Event.readCommandLast m.ChannelID (env.ToLower c.Name),
      Event.writeCommandLast m.ChannelID (env.ToLower c.Name) t] ++ tail, _, ?_, ?_,
      executeStage_guild _ _ _ _ _ _ _ _ _, rfl, executeStage_not_denied _ _ _ _ _ _ _ _ _ _⟩
    · rw [htail, List.append_assoc]
    · intro e he
      rw [List.mem_append] at he
      rcases he with he | he
      · simp only [List.mem_cons, List.mem_singleton, List.not_mem_nil, or_false] at he
        rcases he with he | he <;> subst he <;> exact ⟨rfl, rfl, rfl⟩
      · exact ⟨(hk e he).1, (hk e he).2.1, (hk e he).2.2.1⟩
  · rw [ho]
    obtain ⟨tail, htail, hk⟩ := executeStage_tail env m (afterSaturation env m info t isdebug isfree isSelf) c (env.ToLower c.Name) args indices isPrivate ((auditEvents sb env m info isdbguild) ++ saturationEvents env m info t isdebug isfree isSelf)
    refine ⟨tail, _, htail, ?_, executeStage_guild _ _ _ _ _ _ _ _ _, rfl,
      executeStage_not_denied _ _ _ _ _ _ _ _ _ _⟩
    intro e he
    exact ⟨(hk e he).1, (hk e he).2.1, (hk e he).2.2.1⟩

/-- C15. In `runCommand` (lines 693-769 of `SBProcessCommand`), for an invocation to which the
saturation limiter applies and which the disabled, restricted and channel checks let pass: if
`check` reports saturated, the call ends in the saturation denial, having written the audit
record, called `check` and sent the diagnostic, with no `append` and no call of the handler, and
the limiter keeps the buffer `check` was given; if `check` reports not saturated, the call makes
exactly one `append`, of the time `t`, and the limiter of the guild it returns is the result of
that `append`. -/
theorem runCommand_saturation_tier (sb : SweetieBot) (env : Env) (m : Message) (info : GuildInfo)
    (c : Command) (args : List GoString) (indices : List Int) (t : Int)
    (isdbguild isdebug isPrivate isfree isOwner isSelf : Bool)
    (happ : saturationApplies env m info isdebug isfree isSelf = true)
    (hd : disabledCheck info (env.ToLower c.Name) (isOwner || decide (m.AuthorID = info.OwnerID)) isSelf = false)
    (hr : restrictedCheck sb (env.ToLower c.Name) isdbguild = false)
    (hc : channelCheck m info (env.ToLower c.Name) isPrivate isSelf = false) :
    (env.check (resizedLimit info) info.config.CommandPerDuration
        info.config.CommandMaxDuration t = true →
      runCommand sb env m info c args indices t isdbguild isdebug isPrivate isfree isOwner
        isSelf =
        { events := (auditEvents sb env m info isdbguild) ++
            [Event.check info.config.CommandPerDuration info.config.CommandMaxDuration t,
             Event.Error m.ChannelID
               (Diag.saturation info.config.CommandPerDuration info.config.CommandMaxDuration)],
          exit := Exit.denied Denial.saturation,
          guild := some (withLimit info (resizedLimit info)) } ∧
      ∀ e ∈ (runCommand sb env m info c args indices t isdbguild isdebug isPrivate isfree isOwner
        isSelf).events, e.isAppend = false ∧ e.isProcess = false) ∧
    (env.check (resizedLimit info) info.config.CommandPerDuration
        info.config.CommandMaxDuration t = false →
      (runCommand sb env m info c args indices t isdbguild isdebug isPrivate isfree isOwner
        isSelf).exit ≠ Exit.denied Denial.saturation ∧
      (runCommand sb env m info c args indices t isdbguild isdebug isPrivate isfree isOwner
        isSelf).events.filter Event.isAppend = [Event.append t] ∧
      ∃ g, (runCommand sb env m info c args indices t isdbguild isdebug isPrivate isfree isOwner
        isSelf).guild = some g ∧
        g.commandlimit = env.append (resizedLimit info) t) := by
  constructor
  · intro hk
    rcases runCommand_leaves sb env m info c args indices t isdbguild isdebug isPrivate isfree isOwner isSelf with
      ⟨h1, _⟩ | ⟨_, h2, _⟩ | ⟨_, _, h3, _⟩ | ⟨_, _, _, _, _, ho⟩ | ⟨_, _, _, hs, _⟩ |
      ⟨_, _, _, hs, _⟩ | ⟨_, _, _, hs, _⟩ | ⟨_, _, _, hs, _⟩
    · rw [hd] at h1; cases h1
    · rw [hr] at h2; cases h2
    · rw [hc] at h3; cases h3
    · refine ⟨ho, ?_⟩
      rw [ho]
      intro e he
      simp only [List.mem_append, List.mem_cons, List.mem_singleton, List.not_mem_nil,
        or_false] at he
      rcases he with he | he | he
      · have hk := auditEvents_kinds sb env m info isdbguild e he
        exact ⟨hk.2.2.2.1, hk.2.1⟩
      · subst he; exact ⟨rfl, rfl⟩
      · subst he; exact ⟨rfl, rfl⟩
    all_goals
      rcases hs with hs | hs
      · rw [happ] at hs; cases hs
      · rw [hk] at hs; cases hs
  · intro hk
    obtain ⟨tail, g, hev, htail, hg, hlim, hex⟩ := runCommand_passed sb env m info c args indices
      t isdbguild isdebug isPrivate isfree isOwner isSelf hd hr hc (Or.inr hk)
    refine ⟨hex, ?_, g, hg, ?_⟩
    · rw [hev]
      have hE : saturationEvents env m info t isdebug isfree isSelf =
          [Event.check info.config.CommandPerDuration info.config.CommandMaxDuration t,
            Event.append t] := by
        unfold saturationEvents
        simp only [happ, if_true]
      rw [hE, List.filter_append, List.filter_append,
        filter_isAppend_nil _ (fun e he => (auditEvents_kinds sb env m info isdbguild e he).2.2.2.1),
        filter_isAppend_nil tail (fun e he => (htail e he).2.2)]
      rfl
    · rw [hlim, afterSaturation_applies env m info t isdebug isfree isSelf happ]
      rfl

/-- C15, at a concrete guild: one command may run every 20 seconds, user 7 sends `!pick a` at time
100 and the limiter is not saturated; the call makes the one `append` of 100. -/
theorem runCommand_saturation_tier_witness :
    (runCommand (sampleBot (limitedGuild 1 [] [] [])) (sampleEnv []) (sampleMessage "!pick a")
      (limitedGuild 1 [] [] []) (echoCommand "Pick") [str "pick", str "a"] [1, 6] 100 true false false
      false false false).exit ≠ Exit.denied Denial.saturation ∧
    (runCommand (sampleBot (limitedGuild 1 [] [] [])) (sampleEnv []) (sampleMessage "!pick a")
      (limitedGuild 1 [] [] []) (echoCommand "Pick") [str "pick", str "a"] [1, 6] 100 true false false
      false false false).events.filter Event.isAppend = [Event.append 100] ∧
    ∃ g, (runCommand (sampleBot (limitedGuild 1 [] [] [])) (sampleEnv []) (sampleMessage "!pick a")
      (limitedGuild 1 [] [] []) (echoCommand "Pick") [str "pick", str "a"] [1, 6] 100 true false false
      false false false).guild = some g ∧
      g.commandlimit = (sampleEnv []).append (resizedLimit (limitedGuild 1 [] [] [])) 100 :=
  (runCommand_saturation_tier (sampleBot (limitedGuild 1 [] [] [])) (sampleEnv []) (sampleMessage "!pick a")
    (limitedGuild 1 [] [] []) (echoCommand "Pick") [str "pick", str "a"] [1, 6] 100 true false false
    false false false (by decide) (by decide) (by decide) (by decide)).2 (by decide)

/-- A call of `runCommand` to which the saturation limiter does not apply: it is not denied for
saturation, none of its calls is a `check` or an `append`, and the limiter of the guild it returns
is the one it was given. -/
theorem runCommand_exempt (sb : SweetieBot) (env : Env) (m : Message) (info : GuildInfo)
    (c : Command) (args : List GoString) (indices : List Int) (t : Int)
    (isdbguild isdebug isPrivate isfree isOwner isSelf : Bool)
    (hs : saturationApplies env m info isdebug isfree isSelf = false) :
    (runCommand sb env m info c args indices t isdbguild isdebug isPrivate isfree isOwner
        isSelf).exit ≠ Exit.denied Denial.saturation ∧
    (∀ e ∈ (runCommand sb env m info c args indices t isdbguild isdebug isPrivate isfree isOwner
        isSelf).events, e.isCheck = false ∧ e.isAppend = false) ∧
    ∃ g, (runCommand sb env m info c args indices t isdbguild isdebug isPrivate isfree isOwner
        isSelf).guild = some g ∧ g.commandlimit = info.commandlimit := by
  have hE : saturationEvents env m info t isdebug isfree isSelf = [] := by
    unfold saturationEvents
    simp only [hs, Bool.false_eq_true, if_false]
  have hI : (afterSaturation env m info t isdebug isfree isSelf) = info := afterSaturation_skipped env m info t isdebug isfree isSelf hs
  have hearly : ∀ d, (runCommand sb env m info c args indices t isdbguild isdebug isPrivate isfree isOwner
        isSelf) =
      { events := (auditEvents sb env m info isdbguild), exit := Exit.denied d, guild := some info } → d ≠ Denial.saturation →
      (runCommand sb env m info c args indices t isdbguild isdebug isPrivate isfree isOwner
        isSelf).exit ≠ Exit.denied Denial.saturation ∧
      (∀ e ∈ (runCommand sb env m info c args indices t isdbguild isdebug isPrivate isfree isOwner
        isSelf).events, e.isCheck = false ∧ e.isAppend = false) ∧
      ∃ g, (runCommand sb env m info c args indices t isdbguild isdebug isPrivate isfree isOwner
        isSelf).guild = some g ∧ g.commandlimit = info.commandlimit := by
    intro d ho hne
    rw [ho]
    refine ⟨fun h => hne (by cases h; rfl), ?_, info, rfl, rfl⟩
    intro e he
    have hk := auditEvents_kinds sb env m info isdbguild e he
    exact ⟨hk.2.2.1, hk.2.2.2.1⟩
  rcases runCommand_leaves sb env m info c args indices t isdbguild isdebug isPrivate isfree isOwner isSelf with
    ⟨_, ho⟩ | ⟨_, _, ho⟩ | ⟨_, _, _, ho⟩ | ⟨_, _, _, ha, _⟩ | ⟨hd, hr, hc, hsat, _⟩ |
    ⟨hd, hr, hc, hsat, _⟩ | ⟨hd, hr, hc, hsat, _⟩ | ⟨hd, hr, hc, hsat, _⟩
  · exact hearly _ ho (by simp)
  · exact hearly _ ho (by simp)
  · exact hearly _ ho (by simp)
  · rw [hs] at ha; cases ha
  all_goals
    obtain ⟨tail, g, hev, htail, hg, hlim, hex⟩ := runCommand_passed sb env m info c args indices
      t isdbguild isdebug isPrivate isfree isOwner isSelf hd hr hc hsat
    refine ⟨hex, ?_, g, hg, by rw [hlim, hI]⟩
    intro e he
    rw [hev, hE, List.append_nil, List.mem_append] at he
    rcases he with he | he
    · have hk := auditEvents_kinds sb env m info isdbguild e he
      exact ⟨hk.2.2.1, hk.2.2.2.1⟩
    · exact ⟨(htail e he).2.1, (htail e he).2.2⟩

/-- C16. For a message sent in a channel listed in `basic.freechannels`, or in a private message
(no guild is passed), or by the bot itself, or by a user who has the alert role of the guild:
`SBProcessCommand` does not end in the saturation denial, none of its calls is a `check` or an
`append` of the saturation limiter, and the limiter of the guild it returns is the limiter of the
guild found for the message. -/
theorem SBProcessCommand_saturation_exempt (sb : SweetieBot) (env : Env) (m : Message)
    (info : Option GuildInfo) (t : Int) (isdbguild isdebug : Bool)
    (h : (∃ g0, info = some g0 ∧ mapHas g0.config.FreeChannels m.ChannelID = true) ∨
      info = none ∨ m.AuthorID = sb.SelfID ∨
      (∃ g0, info = some g0 ∧
        env.UserHasRole g0 m.AuthorID (env.SBitoa g0.config.AlertRole) = true)) :
    (SBProcessCommand sb env m info t isdbguild isdebug).exit ≠ Exit.denied Denial.saturation ∧
    (∀ e ∈ (SBProcessCommand sb env m info t isdbguild isdebug).events, e.isCheck = false ∧ e.isAppend = false) ∧
    (∀ g, (SBProcessCommand sb env m info t isdbguild isdebug).guild = some g →
      ∃ g0 arg, resolveGuild sb env m info arg = Except.ok g0 ∧
        g.commandlimit = g0.commandlimit) := by
  rcases SBProcessCommand_cases sb env m info t isdbguild isdebug with
    ⟨hk, ho, hgu⟩ | ⟨g, c, content, args, indices, pre, arg, hg, _, hpre, hev, hex, hgu⟩
  · refine ⟨?_, fun e he => ⟨(hk e he).2.1, (hk e he).2.2.1⟩, ?_⟩
    · intro hx
      rw [hx] at ho
      rcases ho with ho | ho <;> simp [Exit.order] at ho
    · intro g hg
      rcases hgu with hgu | ⟨g1, arg, hres, hgu⟩
      · rw [hgu] at hg; cases hg
      · rw [hgu] at hg
        cases hg
        exact ⟨g, arg, hres, rfl⟩
  · have hs : saturationApplies env { m with Content := content } g isdebug
        (isFreeChannel info m.ChannelID) (decide (m.AuthorID = sb.SelfID)) = false := by
      unfold saturationApplies
      rcases h with ⟨g0, hi, hf⟩ | hi | hself | ⟨g0, hi, hrole⟩
      · subst hi
        simp [isFreeChannel, hf]
      · subst hi
        simp [isFreeChannel]
      · simp [hself]
      · subst hi
        have hgg := resolveGuild_some sb env m g0 g arg hg
        subst hgg
        simp [hrole]
    obtain ⟨h1, h2, g1, h3, h4⟩ := runCommand_exempt sb env { m with Content := content } g c
      args indices t isdbguild isdebug info.isNone (isFreeChannel info m.ChannelID)
      (mapHas sb.Owners (env.SBatoi m.AuthorID)) (decide (m.AuthorID = sb.SelfID)) hs
    refine ⟨by rw [hex]; exact h1, ?_, ?_⟩
    · intro e he
      rw [hev, List.mem_append] at he
      rcases he with he | he
      · have hk := hookEvents_kinds pre hpre e he
        exact ⟨hk.2.2.2.1, hk.2.2.2.2.1⟩
      · exact h2 e he
    · intro g2 hg2
      rw [hgu, h3] at hg2
      cases hg2
      exact ⟨g, arg, hg, h4⟩

/-- C16, at a concrete guild: one command may run every 20 seconds and channel 100 is a free
channel; user 7 sends `!pick a` there, the handler runs and the limiter is not consulted. -/
theorem SBProcessCommand_saturation_exempt_witness :
    (SBProcessCommand (sampleBot freeChannelGuild) (sampleEnv []) (sampleMessage "!pick a")
      (some freeChannelGuild) 100 true false).exit = Exit.executed ∧
    (SBProcessCommand (sampleBot freeChannelGuild) (sampleEnv []) (sampleMessage "!pick a")
      (some freeChannelGuild) 100 true false).exit ≠ Exit.denied Denial.saturation ∧
    (∀ e ∈ (SBProcessCommand (sampleBot freeChannelGuild) (sampleEnv []) (sampleMessage "!pick a")
      (some freeChannelGuild) 100 true false).events, e.isCheck = false ∧ e.isAppend = false) :=
  ⟨by decide,
    (SBProcessCommand_saturation_exempt (sampleBot freeChannelGuild) (sampleEnv [])
      (sampleMessage "!pick a") (some freeChannelGuild) 100 true false
      (Or.inl ⟨_, rfl, by decide⟩)).1,
    (SBProcessCommand_saturation_exempt (sampleBot freeChannelGuild) (sampleEnv [])
      (sampleMessage "!pick a") (some freeChannelGuild) 100 true false
      (Or.inl ⟨_, rfl, by decide⟩)).2.1⟩

/-! ## Theorems: the cooldown of a command -/

theorem recordCooldown_entry (info : GuildInfo) (channel command : GoString) (t : Int) :
    cooldownEntry (recordCooldown info channel command t).commandLast channel command =
      some t := by
  unfold cooldownEntry recordCooldown mapGetD
  simp only [mapGet?_mapSet_self, Option.getD_some]

theorem recordCooldown_other (info : GuildInfo) (channel command channel2 command2 : GoString)
    (t : Int) (h : channel2 ≠ channel ∨ command2 ≠ command) :
    cooldownEntry (recordCooldown info channel command t).commandLast channel2 command2 =
      cooldownEntry info.commandLast channel2 command2 := by
  unfold cooldownEntry recordCooldown mapGetD
  by_cases hch : channel2 = channel
  · subst hch
    rcases h with h | h
    · exact absurd rfl h
    · simp only [mapGet?_mapSet_self, Option.getD_some]
      exact mapGet?_mapSet_ne _ _ _ _ h
  · simp only [mapGet?_mapSet_ne _ _ _ _ hch]

theorem recordCooldown_afterSaturation (env : Env) (m : Message) (info : GuildInfo) (t : Int)
    (isdebug isfree isSelf : Bool) (channel command : GoString) (t2 : Int) :
    (recordCooldown (afterSaturation env m info t isdebug isfree isSelf) channel command
      t2).commandLast = (recordCooldown info channel command t2).commandLast := by
  unfold recordCooldown
  simp only [afterSaturation_commandLast]

/-- C17. In `runCommand` (lines 693-769 of `SBProcessCommand`), for an invocation in a channel
that is not free and by an author who is not the bot (`isfree` and `isSelf` are false), with `L`
the configured cooldown of the command, `0` when unset: if `L ≤ 0`, no call reads or writes the
cooldown table and the table of the guild returned is the one given; if `L > 0` and no check
denies the invocation, the entry of the table for this channel and this command is `t` afterwards
and every other entry is as before; if a check denies the invocation, the table is the one given
and the handler is not called. -/
theorem runCommand_cooldown_tier (sb : SweetieBot) (env : Env) (m : Message) (info : GuildInfo)
    (c : Command) (args : List GoString) (indices : List Int) (t : Int)
    (isdbguild isdebug isPrivate isOwner : Bool) :
    (mapGetD info.config.CommandLimits (env.ToLower c.Name) 0 ≤ 0 →
      (∀ e ∈ (runCommand sb env m info c args indices t isdbguild isdebug isPrivate false isOwner
        false).events, e.isCooldown = false) ∧
      ∃ g, (runCommand sb env m info c args indices t isdbguild isdebug isPrivate false isOwner
        false).guild = some g ∧ g.commandLast = info.commandLast) ∧
    (0 < mapGetD info.config.CommandLimits (env.ToLower c.Name) 0 →
      (∀ d, (runCommand sb env m info c args indices t isdbguild isdebug isPrivate false isOwner
        false).exit ≠ Exit.denied d) →
      ∃ g, (runCommand sb env m info c args indices t isdbguild isdebug isPrivate false isOwner
        false).guild = some g ∧
        cooldownEntry g.commandLast m.ChannelID (env.ToLower c.Name) = some t ∧
        ∀ channel command, channel ≠ m.ChannelID ∨ command ≠ (env.ToLower c.Name) →
          cooldownEntry g.commandLast channel command =
            cooldownEntry info.commandLast channel command) ∧
    (∀ d, (runCommand sb env m info c args indices t isdbguild isdebug isPrivate false isOwner
        false).exit = Exit.denied d →
      (∀ e ∈ (runCommand sb env m info c args indices t isdbguild isdebug isPrivate false isOwner
        false).events, e.isProcess = false) ∧
      ∃ g, (runCommand sb env m info c args indices t isdbguild isdebug isPrivate false isOwner
        false).guild = some g ∧ g.commandLast = info.commandLast) := by
  have hEVc : ∀ e ∈ ((auditEvents sb env m info isdbguild) ++ saturationEvents env m info t isdebug false false), e.isCooldown = false ∧ e.isProcess = false := by
    intro e he
    rw [List.mem_append] at he
    rcases he with he | he
    · have hk := auditEvents_kinds sb env m info isdbguild e he
      exact ⟨hk.2.2.2.2, hk.2.1⟩
    · have hk := saturationEvents_kinds env m info t isdebug false false e he
      exact ⟨hk.2.2.2, hk.2.1⟩
  have hAUc : ∀ e ∈ (auditEvents sb env m info isdbguild), e.isCooldown = false ∧ e.isProcess = false := by
    intro e he
    have hk := auditEvents_kinds sb env m info isdbguild e he
    exact ⟨hk.2.2.2.2, hk.2.1⟩
  refine ⟨?_, ?_, ?_⟩
  · intro hL
    have hno : cooldownApplies info (env.ToLower c.Name) false false = false := by
      unfold cooldownApplies
      simp only [Bool.not_false, Bool.true_and, Bool.and_true, decide_eq_false_iff_not]
      exact not_lt.mpr hL
    rcases runCommand_leaves sb env m info c args indices t isdbguild isdebug isPrivate false isOwner false with
      ⟨_, ho⟩ | ⟨_, _, ho⟩ | ⟨_, _, _, ho⟩ | ⟨_, _, _, _, _, ho⟩ | ⟨_, _, _, _, _, ho⟩ |
      ⟨_, _, _, _, _, hl, _⟩ | ⟨_, _, _, _, _, hl, _⟩ | ⟨_, _, _, _, _, _, ho⟩
    · rw [ho]
      exact ⟨fun e he => (hAUc e he).1, info, rfl, rfl⟩
    · rw [ho]
      exact ⟨fun e he => (hAUc e he).1, info, rfl, rfl⟩
    · rw [ho]
      exact ⟨fun e he => (hAUc e he).1, info, rfl, rfl⟩
    · rw [ho]
      refine ⟨?_, _, rfl, rfl⟩
      intro e he
      simp only [List.mem_append, List.mem_cons, List.mem_singleton, List.not_mem_nil,
        or_false] at he
      rcases he with he | he | he
      · exact (hAUc e he).1
      · subst he; rfl
      · subst he; rfl
    · rw [ho]
      refine ⟨?_, _, rfl, afterSaturation_commandLast _ _ _ _ _ _ _⟩
      intro e he
      simp only [List.mem_append, List.mem_singleton] at he
      rcases he with he | he
      · exact (hEVc e (by simpa [List.mem_append] using he)).1
      · subst he; rfl
    · rw [hno] at hl; cases hl
    · rw [hno] at hl; cases hl
    · rw [ho]
      refine ⟨?_, _, executeStage_guild _ _ _ _ _ _ _ _ _,
        afterSaturation_commandLast _ _ _ _ _ _ _⟩
      intro e he
      rcases executeStage_mem _ _ _ _ _ _ _ _ _ e he with h | h
      · exact (hEVc e h).1
      · exact h.2.2.2
  · intro hL hnd
    have hyes : cooldownApplies info (env.ToLower c.Name) false false = true := by
      unfold cooldownApplies
      simp only [Bool.not_false, Bool.true_and, Bool.and_true, decide_eq_true_eq]
      exact hL
    rcases runCommand_not_denied sb env m info c args indices t isdbguild isdebug isPrivate false
      isOwner false hnd with ⟨_, ho⟩ | ⟨hl, _⟩
    · rw [ho]
      refine ⟨_, executeStage_guild _ _ _ _ _ _ _ _ _, ?_, ?_⟩
      · rw [recordCooldown_afterSaturation]
        exact recordCooldown_entry info _ _ t
      · intro channel command hne
        rw [recordCooldown_afterSaturation]
        exact recordCooldown_other info _ _ channel command t hne
    · rw [hyes] at hl; cases hl
  · intro d hd
    rcases runCommand_leaves sb env m info c args indices t isdbguild isdebug isPrivate false isOwner false with
      ⟨_, ho⟩ | ⟨_, _, ho⟩ | ⟨_, _, _, ho⟩ | ⟨_, _, _, _, _, ho⟩ | ⟨_, _, _, _, _, ho⟩ |
      ⟨_, _, _, _, _, _, _, ho⟩ | ⟨_, _, _, _, _, _, _, ho⟩ | ⟨_, _, _, _, _, _, ho⟩
    · rw [ho]
      exact ⟨fun e he => (hAUc e he).2, info, rfl, rfl⟩
    · rw [ho]
      exact ⟨fun e he => (hAUc e he).2, info, rfl, rfl⟩
    · rw [ho]
      exact ⟨fun e he => (hAUc e he).2, info, rfl, rfl⟩
    · rw [ho]
      refine ⟨?_, _, rfl, rfl⟩
      intro e he
      simp only [List.mem_append, List.mem_cons, List.mem_singleton, List.not_mem_nil,
        or_false] at he
      rcases he with he | he | he
      · exact (hAUc e he).2
      · subst he; rfl
      · subst he; rfl
    · rw [ho]
      refine ⟨?_, _, rfl, afterSaturation_commandLast _ _ _ _ _ _ _⟩
      intro e he
      simp only [List.mem_append, List.mem_singleton] at he
      rcases he with he | he
      · exact (hEVc e (by simpa [List.mem_append] using he)).2
      · subst he; rfl
    · rw [ho]
      refine ⟨?_, _, rfl, afterSaturation_commandLast _ _ _ _ _ _ _⟩
      intro e he
      simp only [List.mem_append, List.mem_cons, List.mem_singleton, List.not_mem_nil,
        or_false] at he
      rcases he with he | he | he
      · exact (hEVc e (by simpa [List.mem_append] using he)).2
      · subst he; rfl
      · subst he; rfl
    · rw [ho] at hd
      exact absurd hd (executeStage_not_denied _ _ _ _ _ _ _ _ _ _)
    · rw [ho] at hd
      exact absurd hd (executeStage_not_denied _ _ _ _ _ _ _ _ _ _)

/-- C18. With the cooldown check `RateLimit` as the specification describes it, reading the clock
`now`: for a command with the configured cooldown `L > 0` whose entry in the cooldown table for
the channel of the message is `last`, in a channel that is not free and for an author who is not
the bot, the cooldown stage of lines 730-745 does not deny the invocation at `now = last + L` and
writes the invocation time to the table, and it denies the invocation at `now = last + L - 1`. -/
theorem cooldownStage_boundary (roles : GoMap GoString (List GoString)) (m : Message)
    (info : GuildInfo) (c : Command) (cmdname : GoString) (args : List GoString)
    (indices : List Int) (t : Int) (isPrivate : Bool) (events : List Event) (last L : Int)
    (hL : 0 < L) (hcfg : mapGetD info.config.CommandLimits cmdname 0 = L)
    (hlast : cooldownEntry info.commandLast m.ChannelID cmdname = some last) :
    RateLimit (last + L) last L = true ∧
    RateLimit (last + L - 1) last L = false ∧
    cooldownStage (clockEnv (last + L) roles) m info c cmdname args indices t isPrivate false false
        events =
      executeStage (clockEnv (last + L) roles) m (recordCooldown info m.ChannelID cmdname t) c
        cmdname args indices isPrivate
        (events ++
          [Event.readCommandLast m.ChannelID cmdname,
           Event.writeCommandLast m.ChannelID cmdname t]) ∧
    cooldownStage (clockEnv (last + L - 1) roles) m info c cmdname args indices t isPrivate false
        false events =
      { events := events ++
          [Event.readCommandLast m.ChannelID cmdname,
           Event.Error m.ChannelID (Diag.cooldown L)],
        exit := Exit.denied Denial.cooldown, guild := some info } := by
  have hyes : RateLimit (last + L) last L = true := by
    unfold RateLimit
    simp
  have hno : RateLimit (last + L - 1) last L = false := by
    unfold RateLimit
    simp only [Bool.not_eq_false', decide_eq_true_eq]
    omega
  have hlim : (!false && decide (mapGetD info.config.CommandLimits cmdname 0 > 0) && !false) =
      true := by
    rw [hcfg]
    simpa using hL
  have hread : mapGetD (mapGetD info.commandLast m.ChannelID []) cmdname 0 = last := by
    unfold cooldownEntry at hlast
    unfold mapGetD at hlast ⊢
    rw [hlast]
    rfl
  refine ⟨hyes, hno, ?_, ?_⟩
  · exact cooldownStage_allowed (clockEnv (last + L) roles) m info c cmdname args indices t
      isPrivate false false events hlim (by rw [hread, hcfg]; exact hyes)
  · have h := cooldownStage_denied (clockEnv (last + L - 1) roles) m info c cmdname args indices
      t isPrivate false false events hlim (by rw [hread, hcfg]; exact hno)
    rw [hcfg] at h
    exact h

/-- C18, at a concrete guild: `pick` has a cooldown of 5 seconds and last ran in channel 100 at
time 0; at time 5 the cooldown stage runs the handler, at time 4 it denies the invocation. -/
theorem cooldownStage_boundary_witness :
    (cooldownStage (clockEnv (0 + 5) []) (sampleMessage "!pick a") (limitedGuild 0 [(str "pick", 5)] [(str "100", [(str "pick", 0)])] []) (echoCommand "Pick")
      (str "pick") [str "pick", str "a"] [1, 6] 5 false false false []).exit = Exit.executed ∧
    (cooldownStage (clockEnv (0 + 5 - 1) []) (sampleMessage "!pick a") (limitedGuild 0 [(str "pick", 5)] [(str "100", [(str "pick", 0)])] []) (echoCommand "Pick")
      (str "pick") [str "pick", str "a"] [1, 6] 4 false false false []).exit =
        Exit.denied Denial.cooldown :=
  ⟨by
      rw [(cooldownStage_boundary [] (sampleMessage "!pick a") (limitedGuild 0 [(str "pick", 5)] [(str "100", [(str "pick", 0)])] []) (echoCommand "Pick")
        (str "pick") [str "pick", str "a"] [1, 6] 5 false [] 0 5 (by decide) (by decide)
        (by decide)).2.2.1]
      rfl,
    by
      rw [(cooldownStage_boundary [] (sampleMessage "!pick a") (limitedGuild 0 [(str "pick", 5)] [(str "100", [(str "pick", 0)])] []) (echoCommand "Pick")
        (str "pick") [str "pick", str "a"] [1, 6] 4 false [] 0 5 (by decide) (by decide)
        (by decide)).2.2.2]⟩

/-- C19, amended. Whenever `SBProcessCommand` ends in the cooldown denial, the last call it made
sends to the channel of the message the diagnostic built from the configured cooldown of the
command alone; whenever it ends in the saturation denial, the last call it made sends the
diagnostic built from the configured `commandperduration` and `commandmaxduration` alone. Neither
diagnostic is built from the time of the invocation or from a stored time. -/
theorem SBProcessCommand_limiter_diagnostics (sb : SweetieBot) (env : Env) (m : Message)
    (info : Option GuildInfo) (t : Int) (isdbguild isdebug : Bool) :
    ((SBProcessCommand sb env m info t isdbguild isdebug).exit = Exit.denied Denial.cooldown →
      ∃ g arg c evs, resolveGuild sb env m info arg = Except.ok g ∧
        (∃ name, mapGet? g.commands name = some c) ∧
        (SBProcessCommand sb env m info t isdbguild isdebug).events = evs ++
          [Event.Error m.ChannelID
            (Diag.cooldown (mapGetD g.config.CommandLimits (env.ToLower c.Name) 0))]) ∧
    ((SBProcessCommand sb env m info t isdbguild isdebug).exit = Exit.denied Denial.saturation →
      ∃ g arg evs, resolveGuild sb env m info arg = Except.ok g ∧
        (SBProcessCommand sb env m info t isdbguild isdebug).events = evs ++
          [Event.Error m.ChannelID
            (Diag.saturation g.config.CommandPerDuration g.config.CommandMaxDuration)]) := by
  rcases SBProcessCommand_cases sb env m info t isdbguild isdebug with
    ⟨_, ho, _⟩ | ⟨g, c, content, args, indices, pre, arg, hg, hreg, hpre, hev, hex, hgu⟩
  · constructor <;> intro h <;> exfalso <;> rw [h] at ho <;> rcases ho with ho | ho <;>
      simp [Exit.order] at ho
  · constructor
    · intro h
      rw [hex] at h
      have hrun := (runCommand_denied_cooldown sb env { m with Content := content } g c args
        indices t isdbguild isdebug info.isNone (isFreeChannel info m.ChannelID)
        (mapHas sb.Owners (env.SBatoi m.AuthorID)) (decide (m.AuthorID = sb.SelfID)) h).2.2
      rw [hrun] at hev
      refine ⟨g, arg, c,
        pre ++ (auditEvents sb env { m with Content := content } g isdbguild ++
          saturationEvents env { m with Content := content } g t isdebug
            (isFreeChannel info m.ChannelID) (decide (m.AuthorID = sb.SelfID)) ++
          [Event.readCommandLast m.ChannelID (env.ToLower c.Name)]), hg, hreg, ?_⟩
      rw [hev]
      simp only [List.append_assoc, List.singleton_append]
    · intro h
      rw [hex] at h
      have hrun := (runCommand_denied_saturation sb env { m with Content := content } g c args
        indices t isdbguild isdebug info.isNone (isFreeChannel info m.ChannelID)
        (mapHas sb.Owners (env.SBatoi m.AuthorID)) (decide (m.AuthorID = sb.SelfID)) h).2.2
      rw [hrun] at hev
      refine ⟨g, arg,
        pre ++ (auditEvents sb env { m with Content := content } g isdbguild ++
          [Event.check g.config.CommandPerDuration g.config.CommandMaxDuration t]), hg, ?_⟩
      rw [hev]
      simp only [List.append_assoc, List.singleton_append]

/-! ## Theorems: messages of the bot itself -/

/-- For a message of the bot itself `runCommand` is the restricted check of line 705 followed by
the handler stage: no audit record, no call of a rate limiter, and no other check. -/
theorem runCommand_self (sb : SweetieBot) (env : Env) (m : Message) (info : GuildInfo)
    (c : Command) (args : List GoString) (indices : List Int) (t : Int)
    (isdbguild isdebug isPrivate isfree isOwner : Bool) (hself : m.AuthorID = sb.SelfID) :
    runCommand sb env m info c args indices t isdbguild isdebug isPrivate isfree isOwner true =
      if restrictedCheck sb (env.ToLower c.Name) isdbguild then
        { events := [], exit := Exit.denied Denial.restricted, guild := some info }
      else executeStage env m info c (env.ToLower c.Name) args indices isPrivate [] := by
  have hAU : auditEvents sb env m info isdbguild = [] := auditEvents_self sb env m info _ hself
  have hs : saturationApplies env m info isdebug isfree true = false := by
    unfold saturationApplies
    simp
  have hE : saturationEvents env m info t isdebug isfree true = [] := by
    unfold saturationEvents
    simp only [hs, Bool.false_eq_true, if_false]
  have hI : afterSaturation env m info t isdebug isfree true = info :=
    afterSaturation_skipped env m info t isdebug isfree true hs
  rcases runCommand_leaves sb env m info c args indices t isdbguild isdebug isPrivate isfree
      isOwner true with
    ⟨h1, _⟩ | ⟨_, h2, ho⟩ | ⟨_, _, h3, _⟩ | ⟨_, _, _, ha, _⟩ | ⟨_, _, _, _, h5, _⟩ |
    ⟨_, _, _, _, _, hl, _⟩ | ⟨_, _, _, _, _, hl, _⟩ | ⟨_, h2, _, _, _, _, ho⟩
  · simp [disabledCheck] at h1
  · rw [ho, hAU, h2]
    rfl
  · simp [channelCheck] at h3
  · rw [hs] at ha; cases ha
  · simp [roleDenies] at h5
  · simp [cooldownApplies] at hl
  · simp [cooldownApplies] at hl
  · rw [ho, hAU, hE, hI, h2]
    rfl

/-- The frame of a message whose author is the bot itself: no call `SBProcessCommand` makes
writes an audit record, checks or appends to the saturation limiter, or reads or writes the
cooldown table; the only denial it can end in is the restricted one; the guild it returns is the
guild found for the message, unchanged; and whenever the call ends in a denial or in the handler,
`runCommand` was the restricted check followed by the handler stage `executeStage`. -/
theorem SBProcessCommand_self_frame (sb : SweetieBot) (env : Env) (m : Message)
    (info : Option GuildInfo) (t : Int) (isdbguild isdebug : Bool)
    (hself : m.AuthorID = sb.SelfID) :
    (∀ e ∈ (SBProcessCommand sb env m info t isdbguild isdebug).events, e.isAudit = false ∧ e.isCheck = false ∧ e.isAppend = false ∧
      e.isCooldown = false) ∧
    (∀ d, (SBProcessCommand sb env m info t isdbguild isdebug).exit = Exit.denied d → d = Denial.restricted) ∧
    ((SBProcessCommand sb env m info t isdbguild isdebug).guild = none ∨
      ∃ g arg, resolveGuild sb env m info arg = Except.ok g ∧ (SBProcessCommand sb env m info t isdbguild isdebug).guild = some g) ∧
    (((SBProcessCommand sb env m info t isdbguild isdebug).exit = Exit.executed ∨ ∃ d, (SBProcessCommand sb env m info t isdbguild isdebug).exit = Exit.denied d) →
      ∃ g c content args indices pre arg,
        resolveGuild sb env m info arg = Except.ok g ∧
        (∃ name, mapGet? g.commands name = some c) ∧
        (∀ e ∈ pre, (∃ k, e = Event.OnCommand k) ∨ (∃ s, e = Event.ParseArguments s)) ∧
        (SBProcessCommand sb env m info t isdbguild isdebug).events = pre ++
          (if restrictedCheck sb (env.ToLower c.Name) isdbguild then []
           else (executeStage env { m with Content := content } g c (env.ToLower c.Name) args indices
             info.isNone []).events) ∧
        (SBProcessCommand sb env m info t isdbguild isdebug).exit =
          (if restrictedCheck sb (env.ToLower c.Name) isdbguild then Exit.denied Denial.restricted
           else (executeStage env { m with Content := content } g c (env.ToLower c.Name) args indices
             info.isNone []).exit)) := by
  have hd : decide (m.AuthorID = sb.SelfID) = true := by simp [hself]
  rcases SBProcessCommand_cases sb env m info t isdbguild isdebug with
    ⟨hk, ho, hgu⟩ | ⟨g, c, content, args, indices, pre, arg, hg, hreg, hpre, hev, hex, hgu⟩
  · refine ⟨fun e he => ⟨(hk e he).1, (hk e he).2.1, (hk e he).2.2.1, (hk e he).2.2.2.1⟩, ?_, hgu,
      ?_⟩
    · intro d hx
      rw [hx] at ho
      rcases ho with ho | ho
      · cases d <;> simp [Exit.order] at ho
      · cases ho
    · intro hx
      exfalso
      rcases hx with hx | ⟨d, hx⟩ <;> rw [hx] at ho <;> rcases ho with ho | ho
      · simp [Exit.order] at ho
      · cases ho
      · cases d <;> simp [Exit.order] at ho
      · cases ho
  · rw [hd] at hev hex hgu
    have hrun := runCommand_self sb env { m with Content := content } g c args indices t
      isdbguild isdebug info.isNone (isFreeChannel info m.ChannelID)
      (mapHas sb.Owners (env.SBatoi m.AuthorID)) hself
    rw [hrun] at hev hex hgu
    by_cases hres : restrictedCheck sb (env.ToLower c.Name) isdbguild = true
    · simp only [hres, if_true] at hev hex hgu ⊢
      refine ⟨?_, ?_, Or.inr ⟨g, arg, hg, hgu⟩, ?_⟩
      · intro e he
        rw [hev, List.append_nil] at he
        have hk := hookEvents_kinds pre hpre e he
        exact ⟨hk.2.2.1, hk.2.2.2.1, hk.2.2.2.2.1, hk.2.2.2.2.2⟩
      · intro d hx
        rw [hex] at hx
        cases hx
        rfl
      · intro _
        exact ⟨g, c, content, args, indices, pre, arg, hg, hreg, hpre,
          by simp only [hres, if_true]; exact hev, by simp only [hres, if_true]; exact hex⟩
    · simp only [hres, Bool.false_eq_true, if_false] at hev hex hgu ⊢
      refine ⟨?_, ?_, Or.inr ⟨g, arg, hg, by rw [hgu, executeStage_guild]⟩, ?_⟩
      · intro e he
        rw [hev, List.mem_append] at he
        rcases he with he | he
        · have hk := hookEvents_kinds pre hpre e he
          exact ⟨hk.2.2.1, hk.2.2.2.1, hk.2.2.2.2.1, hk.2.2.2.2.2⟩
        · rcases executeStage_mem _ _ _ _ _ _ _ _ _ e he with h | h
          · cases h
          · exact h
      · intro d hx
        rw [hex] at hx
        exact absurd hx (executeStage_not_denied _ _ _ _ _ _ _ _ _ _)
      · intro _
        exact ⟨g, c, content, args, indices, pre, arg, hg, hreg, hpre,
          by simp only [hres, Bool.false_eq_true, if_false]; exact hev,
          by simp only [hres, Bool.false_eq_true, if_false]; exact hex⟩

/-- The hooks of lines 640-650 are not run for a message of the bot itself. -/
theorem commandHooks_self (sb : SweetieBot) (env : Env) (m : Message) (info : Option GuildInfo)
    (hself : m.AuthorID = sb.SelfID) : commandHooks sb env m info = (false, []) := by
  unfold commandHooks
  cases info with
  | none => rfl
  | some g => simp [hself]

/-- When lines 679-692 find a command, no panic struck and the token list is not empty. -/
theorem resolveCommand_found (env : Env) (g : GuildInfo) (m : Message) (a0 : GoString)
    (as : List GoString) (indices : List Int) (arg : GoString) (c : Command)
    (h : (resolveCommand env g m (a0 :: as) indices arg).c = some c) :
    (resolveCommand env g m (a0 :: as) indices arg).panicked = false ∧
    (resolveCommand env g m (a0 :: as) indices arg).args ≠ [] := by
  unfold resolveCommand at h ⊢
  split
  · exact ⟨rfl, by simp⟩
  · split
    · exact ⟨rfl, by simp⟩
    · split
      · simp_all
      · simp_all
      · simp only [] at h ⊢
        split
        · simp_all
        · exact ⟨rfl, by simp⟩

/-- C20, counterexample. `SBProcessCommand` is called for a message of the bot itself, `!search`,
in a guild that is not a database guild; `search` is a registered command of the guild and a
restricted command. The call returns at line 705, whose condition has no `isSelf` term: the
tokenizer is the only call made and the handler is not executed. -/
theorem SBProcessCommand_self_restricted :
    mapHas (kawaiiGuild "!").commands (str "search") = true ∧
    mapHas (sampleBot (kawaiiGuild "!")).RestrictedCommands (str "search") = true ∧
    (SBProcessCommand (sampleBot (kawaiiGuild "!")) (sampleEnv [])
      { Content := str "!search", ChannelID := str "100", AuthorID := str "9" }
      (some (kawaiiGuild "!")) 0 false false).events = [Event.ParseArguments (str "search")] ∧
    (SBProcessCommand (sampleBot (kawaiiGuild "!")) (sampleEnv [])
      { Content := str "!search", ChannelID := str "100", AuthorID := str "9" }
      (some (kawaiiGuild "!")) 0 false false).exit = Exit.denied Denial.restricted := by
  decide

/-- C20, amended. For a command message whose author is the bot itself, that lines 679-692 resolve
to a registered command `c` of the guild `g` found for the message, where the call is made for a
database guild or `c` is no restricted command (the tokenizer, which is not among the sources, has
returned a first token `a0` and an index for the first token of the text it read last): the call
ends in the handler and returns `g` unchanged; its calls are the tokenizer, once for the message
and once more for the text of an alias, then the handler of `c`, then the delivery of its reply,
which is the handler stage `executeStage` every other author ends in, entered with no call made
before it; none of these calls writes an audit record, checks or appends to the saturation
limiter, or reads or writes the cooldown table. -/
theorem SBProcessCommand_self_executes (sb : SweetieBot) (env : Env) (m : Message)
    (info : Option GuildInfo) (t : Int) (isdbguild isdebug : Bool) (g : GuildInfo)
    (a0 : GoString) (as : List GoString) (c : Command)
    (hself : m.AuthorID = sb.SelfID)
    (hcmd : isCommand (effectivePrefix info) m.Content = true)
    (hparse : (env.ParseArguments m.Content.tail).1 = a0 :: as)
    (hg : resolveGuild sb env m info (env.ToLower a0) = Except.ok g)
    (hc : (resolveCommand env g m (a0 :: as) (env.ParseArguments m.Content.tail).2
      (env.ToLower a0)).c = some c)
    (hidx : (resolveCommand env g m (a0 :: as) (env.ParseArguments m.Content.tail).2
      (env.ToLower a0)).indices ≠ [])
    (hres : isdbguild = true ∨ mapHas sb.RestrictedCommands (env.ToLower c.Name) = false) :
    (SBProcessCommand sb env m info t isdbguild isdebug).exit = Exit.executed ∧
    (SBProcessCommand sb env m info t isdbguild isdebug).guild = some g ∧
    (SBProcessCommand sb env m info t isdbguild isdebug).events =
      [Event.ParseArguments m.Content.tail] ++
        (resolveCommand env g m (a0 :: as) (env.ParseArguments m.Content.tail).2
          (env.ToLower a0)).events ++
        [Event.Process (env.ToLower c.Name)
          (resolveCommand env g m (a0 :: as) (env.ParseArguments m.Content.tail).2
            (env.ToLower a0)).args.tail
          (resolveCommand env g m (a0 :: as) (env.ParseArguments m.Content.tail).2
            (env.ToLower a0)).m.Content
          (resolveCommand env g m (a0 :: as) (env.ParseArguments m.Content.tail).2
            (env.ToLower a0)).indices.tail] ++
        deliver env
          (resolveCommand env g m (a0 :: as) (env.ParseArguments m.Content.tail).2
            (env.ToLower a0)).m info.isNone
          (c.Process
            (resolveCommand env g m (a0 :: as) (env.ParseArguments m.Content.tail).2
              (env.ToLower a0)).args.tail
            (resolveCommand env g m (a0 :: as) (env.ParseArguments m.Content.tail).2
              (env.ToLower a0)).m
            (resolveCommand env g m (a0 :: as) (env.ParseArguments m.Content.tail).2
              (env.ToLower a0)).indices.tail) ∧
    (SBProcessCommand sb env m info t isdbguild isdebug).events =
      [Event.ParseArguments m.Content.tail] ++
        (resolveCommand env g m (a0 :: as) (env.ParseArguments m.Content.tail).2
          (env.ToLower a0)).events ++
        (executeStage env
          (resolveCommand env g m (a0 :: as) (env.ParseArguments m.Content.tail).2
            (env.ToLower a0)).m g c (env.ToLower c.Name)
          (resolveCommand env g m (a0 :: as) (env.ParseArguments m.Content.tail).2
            (env.ToLower a0)).args
          (resolveCommand env g m (a0 :: as) (env.ParseArguments m.Content.tail).2
            (env.ToLower a0)).indices info.isNone []).events ∧
    (∀ e ∈ (SBProcessCommand sb env m info t isdbguild isdebug).events,
      e.isAudit = false ∧ e.isCheck = false ∧ e.isAppend = false ∧ e.isCooldown = false) := by
  have hfound := resolveCommand_found env g m a0 as (env.ParseArguments m.Content.tail).2
    (env.ToLower a0) c hc
  have hrev := resolveCommand_events env g m (a0 :: as) (env.ParseArguments m.Content.tail).2
    (env.ToLower a0)
  obtain ⟨content, hm⟩ := resolveCommand_m env g m (a0 :: as)
    (env.ParseArguments m.Content.tail).2 (env.ToLower a0)
  have hrestr : restrictedCheck sb (env.ToLower c.Name) isdbguild = false := by
    unfold restrictedCheck
    rcases hres with h | h
    · simp [h]
    · simp [h]
  have hout : SBProcessCommand sb env m info t isdbguild isdebug =
      { events := [Event.ParseArguments m.Content.tail] ++
          (resolveCommand env g m (a0 :: as) (env.ParseArguments m.Content.tail).2
            (env.ToLower a0)).events ++
          (executeStage env
            (resolveCommand env g m (a0 :: as) (env.ParseArguments m.Content.tail).2
              (env.ToLower a0)).m g c (env.ToLower c.Name)
            (resolveCommand env g m (a0 :: as) (env.ParseArguments m.Content.tail).2
              (env.ToLower a0)).args
            (resolveCommand env g m (a0 :: as) (env.ParseArguments m.Content.tail).2
              (env.ToLower a0)).indices info.isNone []).events,
        exit := (executeStage env
            (resolveCommand env g m (a0 :: as) (env.ParseArguments m.Content.tail).2
              (env.ToLower a0)).m g c (env.ToLower c.Name)
            (resolveCommand env g m (a0 :: as) (env.ParseArguments m.Content.tail).2
              (env.ToLower a0)).args
            (resolveCommand env g m (a0 :: as) (env.ParseArguments m.Content.tail).2
              (env.ToLower a0)).indices info.isNone []).exit,
        guild := (executeStage env
            (resolveCommand env g m (a0 :: as) (env.ParseArguments m.Content.tail).2
              (env.ToLower a0)).m g c (env.ToLower c.Name)
            (resolveCommand env g m (a0 :: as) (env.ParseArguments m.Content.tail).2
              (env.ToLower a0)).args
            (resolveCommand env g m (a0 :: as) (env.ParseArguments m.Content.tail).2
              (env.ToLower a0)).indices info.isNone []).guild } := by
    unfold SBProcessCommand
    simp only [hcmd, if_true, commandHooks_self sb env m info hself, Bool.false_eq_true, if_false]
    unfold processCommand
    simp only [hparse, hg]
    unfold dispatch
    simp only [List.getD_cons_zero, hfound.1, Bool.false_eq_true, if_false, hc]
    have hd : decide (m.AuthorID = sb.SelfID) = true := by simp [hself]
    rw [hd]
    have hselfr : (resolveCommand env g m (a0 :: as) (env.ParseArguments m.Content.tail).2
        (env.ToLower a0)).m.AuthorID = sb.SelfID := by
      rw [hm]
      exact hself
    rw [runCommand_self sb env _ g c _ _ t isdbguild isdebug info.isNone
      (isFreeChannel info m.ChannelID) (mapHas sb.Owners (env.SBatoi m.AuthorID)) hselfr]
    simp only [hrestr, Bool.false_eq_true, if_false, List.nil_append]
  rw [hout]
  generalize resolveCommand env g m (a0 :: as) (env.ParseArguments m.Content.tail).2
    (env.ToLower a0) = r at hfound hidx hrev
  obtain ⟨rm, rargs, rindices, rc, revents, rpanicked⟩ := r
  simp only [] at hfound hidx hrev ⊢
  cases rargs with
  | nil => exact absurd rfl hfound.2
  | cons x xs =>
    cases rindices with
    | nil => exact absurd rfl hidx
    | cons i is =>
      simp only [executeStage, List.nil_append, List.tail_cons]
      refine ⟨trivial, trivial, ?_, trivial, ?_⟩
      · simp only [List.append_assoc]
      · intro e he
        simp only [List.mem_append, List.mem_singleton, List.mem_cons] at he
        rcases he with (he | he) | he
        · rcases he with he | he
          · subst he
            exact ⟨rfl, rfl, rfl, rfl⟩
          · cases he
        · obtain ⟨s1, hs1⟩ := hrev e he
          subst hs1
          exact ⟨rfl, rfl, rfl, rfl⟩
        · have hex := executeStage_mem env rm g c (env.ToLower c.Name) (x :: xs) (i :: is)
            info.isNone [] e
          simp only [executeStage, List.nil_append, List.mem_append, List.mem_singleton] at hex
          rcases he with (he | he) | he
          · subst he
            exact ⟨rfl, rfl, rfl, rfl⟩
          · cases he
          · rcases hex (Or.inr he) with h | h
            · cases h
            · exact h

/-- C20, amended, at a concrete guild: one command may run every 20 seconds, `pick` has a
cooldown of 5 seconds and is allowed to role 55 only; the heartbeat message of the bot for `pick`,
processed as in a database guild, runs the handler, and the tokenizer and the handler are the only
calls made before the reply is sent. -/
theorem SBProcessCommand_self_executes_witness :
    (SBProcessCommand (sampleBot lockedGuild) (sampleEnv [])
      (heartbeatMessage (sampleBot lockedGuild) lockedGuild "pick")
      (some lockedGuild) 100 true false).events =
        [Event.ParseArguments (str "pick"), Event.Process (str "pick") [] (str "!pick") [],
          Event.SendMessage (str "heartbeat") (Diag.reply (str "ok"))] ∧
    (SBProcessCommand (sampleBot lockedGuild) (sampleEnv [])
      (heartbeatMessage (sampleBot lockedGuild) lockedGuild "pick")
      (some lockedGuild) 100 true false).exit = Exit.executed :=
  ⟨by decide,
    (SBProcessCommand_self_executes (sampleBot lockedGuild) (sampleEnv [])
      (heartbeatMessage (sampleBot lockedGuild) lockedGuild "pick")
      (some lockedGuild) 100 true false lockedGuild (str "pick") [] (echoCommand "Pick")
      rfl (by decide) (by decide) rfl rfl (by decide) (Or.inl rfl)).1⟩

/-! ## Theorems: names that are not commands -/

/-- C22. When the handler returns an empty text and no embed, whatever its private-message hint,
`deliver` makes no call at all: no message is sent, no notice, and `UserChannelCreate` is not
called; the call of the handler is then the last call of `SBProcessCommand`. -/
theorem executeStage_empty_reply (env : Env) (m : Message) (info : GuildInfo) (c : Command)
    (cmdname : GoString) (a0 : GoString) (args1 : List GoString) (i0 : Int)
    (indices1 : List Int) (isPrivate : Bool) (events : List Event)
    (hr : (c.Process args1 m indices1).result = [])
    (he : (c.Process args1 m indices1).resultembed = none) :
    deliver env m isPrivate (c.Process args1 m indices1) = [] ∧
    executeStage env m info c cmdname (a0 :: args1) (i0 :: indices1) isPrivate events =
      { events := events ++ [Event.Process cmdname args1 m.Content indices1],
        exit := Exit.executed, guild := some info } := by
  have hd : deliver env m isPrivate (c.Process args1 m indices1) = [] := by
    unfold deliver
    simp [hr, he]
  refine ⟨hd, ?_⟩
  unfold executeStage
  simp only [hd, List.append_nil]

/-- C22, at a concrete command: the handler returns an empty text, no embed and the
private-message hint set; the call of the handler is the only call made. -/
theorem executeStage_empty_reply_witness :
    deliver pmEnv (sampleMessage "!quiet a") false
      ((constCommand "Quiet" { result := [], usepm := true, resultembed := none }).Process
        [str "a"] (sampleMessage "!quiet a") [7]) = [] ∧
    executeStage pmEnv (sampleMessage "!quiet a") (gatedGuild [] [])
        (constCommand "Quiet" { result := [], usepm := true, resultembed := none })
        (str "quiet") (str "quiet" :: [str "a"]) (1 :: [7]) false [] =
      { events := [] ++ [Event.Process (str "quiet") [str "a"] (sampleMessage "!quiet a").Content
          [7]],
        exit := Exit.executed, guild := some (gatedGuild [] []) } :=
  executeStage_empty_reply pmEnv (sampleMessage "!quiet a") (gatedGuild [] [])
    (constCommand "Quiet" { result := [], usepm := true, resultembed := none })
    (str "quiet") (str "quiet") [str "a"] 1 [7] false [] rfl rfl

/-- C23, counterexample. The handler returns the text `hi` with the private-message hint set, in
a guild channel, and `UserChannelCreate` fails: the error goes to `info.LogError`, the reply goes
to the channel of the message, and that reply is the only message sent. -/
theorem deliver_fallback_unsignalled :
    (sampleEnv []).UserChannelCreate (sampleMessage "!pick a").AuthorID = none ∧
    deliver (sampleEnv []) (sampleMessage "!pick a") false
        { result := str "hi", usepm := true, resultembed := none } =
      [Event.UserChannelCreate (str "7"), Event.LogError true,
        Event.SendMessage (str "100") (Diag.reply (str "hi"))] ∧
    (deliver (sampleEnv []) (sampleMessage "!pick a") false
        { result := str "hi", usepm := true, resultembed := none }).filter Event.isSend =
      [Event.SendMessage (str "100") (Diag.reply (str "hi"))] := by
  decide

/-- C23, amended. For a reply with a text or an embed and the private-message hint set, outside a
private message: if `UserChannelCreate` succeeds, `deliver` passes the nil error to
`info.LogError`, sends the notice "Check your Private Messages for my reply!" to the channel of
the message and delivers the reply to the private channel; if it fails, `deliver` passes the
error to `info.LogError` and delivers the reply to the channel of the message, and makes no other
call. -/
theorem deliver_private_hint (env : Env) (m : Message) (r : Reply)
    (hne : r.result.length > 0 ∨ r.resultembed.isSome = true) (hpm : r.usepm = true) :
    (∀ channel, env.UserChannelCreate m.AuthorID = some channel →
      deliver env m false r =
        [Event.UserChannelCreate m.AuthorID, Event.LogError false,
          Event.SendMessage m.ChannelID (Diag.checkPM env.randBelow), replyEvent channel r]) ∧
    (env.UserChannelCreate m.AuthorID = none →
      deliver env m false r =
        [Event.UserChannelCreate m.AuthorID, Event.LogError true, replyEvent m.ChannelID r]) := by
  have hcond : (decide (r.result.length > 0) || r.resultembed.isSome) = true := by
    rcases hne with h | h
    · simp [h]
    · simp [h]
  constructor
  · intro channel hch
    unfold deliver replyEvent
    simp only [hcond, if_true, hpm, Bool.not_false, Bool.and_self, hch]
    cases r.resultembed <;> rfl
  · intro hch
    unfold deliver replyEvent
    simp only [hcond, if_true, hpm, Bool.not_false, Bool.and_self, hch]
    cases r.resultembed <;> rfl

/-- C23, at a concrete reply: the private channel 555 is opened, the notice goes to channel 100
and the reply `hi` to channel 555. -/
theorem deliver_private_hint_witness :
    deliver pmEnv (sampleMessage "!pick a") false
        { result := str "hi", usepm := true, resultembed := none } =
      [Event.UserChannelCreate (sampleMessage "!pick a").AuthorID, Event.LogError false,
        Event.SendMessage (sampleMessage "!pick a").ChannelID (Diag.checkPM pmEnv.randBelow),
        replyEvent (str "555") { result := str "hi", usepm := true, resultembed := none }] :=
  (deliver_private_hint pmEnv (sampleMessage "!pick a")
    { result := str "hi", usepm := true, resultembed := none } (Or.inl (by decide)) rfl).1
    (str "555") rfl

/-! ## Theorems: the buffer of the saturation limiter -/

/-- C26, counterexample. With `modules.commandperduration` set to `2^62` the product
`CommandPerDuration*2` of line 716 wraps around to `-2^63`, the length of the empty buffer is not
below it, no buffer is made, and the saturation check is reached with the buffer left empty. With
`modules.commandperduration` set to `2^61` the product is `2^62`, the empty buffer is shorter,
and `make` panics on a machine that cannot allocate `2^62` slots (here at most `2^45`): the
buffer is not replaced. -/
theorem resizeBuffer_overflow :
    wrapInt ((burstGuild (2 ^ 62) []).config.CommandPerDuration * 2) = -(2 ^ 63) ∧
    saturationApplies (sampleEnv []) (sampleMessage "!pick a") (burstGuild (2 ^ 62) []) false
      false false = true ∧
    resizeBuffer (2 ^ 45) (burstGuild (2 ^ 62) []) = some { times := [], index := 0 } ∧
    saturationApplies (sampleEnv []) (sampleMessage "!pick a") (burstGuild (2 ^ 61) []) false
      false false = true ∧
    resizeBuffer (2 ^ 45) (burstGuild (2 ^ 61) []) = none := by
  decide

/-- The limiter the dispatcher passes to `check` is the one `resizeBuffer` yields, whenever `make`
returns. -/
theorem resizeBuffer_some (limit : Nat) (info : GuildInfo) (l : SaturationLimit)
    (h : resizeBuffer limit info = some l) : l = resizedLimit info := by
  unfold resizeBuffer makeInt64 at h
  unfold resizedLimit
  by_cases h1 : (info.commandlimit.times.length : Int) <
      wrapInt (info.config.CommandPerDuration * 2)
  · rw [if_pos h1] at h
    rw [if_pos h1]
    by_cases h2 : 0 ≤ wrapInt (info.config.CommandPerDuration * 2) ∧
        wrapInt (info.config.CommandPerDuration * 2) ≤ (limit : Int)
    · rw [if_pos h2] at h
      exact (Option.some.inj h).symm
    · rw [if_neg h2] at h
      cases h
  · rw [if_neg h1] at h
    rw [if_neg h1]
    exact (Option.some.inj h).symm

/-- C26, amended. For `N = modules.commandperduration > 0` with `2*N` below `2^63`, and `limit`
the largest length `make` can allocate: whenever line 719 is reached, the limiter `check` is
called on has a buffer of length at least `2*N`; when the buffer of the guild is shorter than
`2*N` it is a new buffer of exactly `2*N` zeros, with the cursor as it was, and otherwise it is
the limiter of the guild as it is. Line 719 is not reached, because `make` panics, exactly when
the buffer is shorter than `2*N` and `2*N` is above `limit`. -/
theorem resizeBuffer_length (limit : Nat) (info : GuildInfo)
    (h0 : 0 < info.config.CommandPerDuration)
    (hlt : info.config.CommandPerDuration * 2 < 2 ^ 63) :
    (∀ l, resizeBuffer limit info = some l →
      (l.times.length : Int) ≥ info.config.CommandPerDuration * 2 ∧
      ((info.commandlimit.times.length : Int) < info.config.CommandPerDuration * 2 →
        l = { times := List.replicate (info.config.CommandPerDuration * 2).toNat 0,
              index := info.commandlimit.index }) ∧
      (info.config.CommandPerDuration * 2 ≤ (info.commandlimit.times.length : Int) →
        l = info.commandlimit)) ∧
    (resizeBuffer limit info = none ↔
      (info.commandlimit.times.length : Int) < info.config.CommandPerDuration * 2 ∧
        (limit : Int) < info.config.CommandPerDuration * 2) := by
  have hw : wrapInt (info.config.CommandPerDuration * 2) = info.config.CommandPerDuration * 2 := by
    unfold wrapInt
    omega
  unfold resizeBuffer makeInt64
  rw [hw]
  constructor
  · intro l hl
    by_cases hshort : (info.commandlimit.times.length : Int) < info.config.CommandPerDuration * 2
    · rw [if_pos hshort] at hl
      by_cases hfit : 0 ≤ info.config.CommandPerDuration * 2 ∧
          info.config.CommandPerDuration * 2 ≤ (limit : Int)
      · rw [if_pos hfit] at hl
        simp only [Option.some.injEq] at hl
        subst hl
        refine ⟨?_, fun _ => rfl, fun h => absurd hshort (by omega)⟩
        simp only [List.length_replicate]
        omega
      · rw [if_neg hfit] at hl
        cases hl
    · rw [if_neg hshort] at hl
      simp only [Option.some.injEq] at hl
      subst hl
      exact ⟨by omega, fun h => absurd h hshort, fun _ => rfl⟩
  · by_cases hshort : (info.commandlimit.times.length : Int) < info.config.CommandPerDuration * 2
    · rw [if_pos hshort]
      by_cases hfit : 0 ≤ info.config.CommandPerDuration * 2 ∧
          info.config.CommandPerDuration * 2 ≤ (limit : Int)
      · rw [if_pos hfit]
        simp only [false_iff, not_and, not_lt, reduceCtorEq]
        intro _
        exact hfit.2
      · rw [if_neg hfit]
        simp only [true_iff]
        exact ⟨hshort, by omega⟩
    · rw [if_neg hshort]
      simp only [false_iff, not_and, reduceCtorEq]
      intro h
      exact absurd h hshort

/-- C26, at a concrete guild: three commands may run every 20 seconds and the buffer has two
slots; `check` is called on a buffer of six zeros. -/
theorem resizeBuffer_length_witness :
    resizeBuffer (2 ^ 45) (burstGuild 3 [7, 8]) = some { times := [0, 0, 0, 0, 0, 0], index := 0 } ∧
    ((({ times := [0, 0, 0, 0, 0, 0], index := 0 } : SaturationLimit).times.length : Int) ≥
        (burstGuild 3 [7, 8]).config.CommandPerDuration * 2 ∧
      (((burstGuild 3 [7, 8]).commandlimit.times.length : Int) <
          (burstGuild 3 [7, 8]).config.CommandPerDuration * 2 →
        ({ times := [0, 0, 0, 0, 0, 0], index := 0 } : SaturationLimit) =
          { times := List.replicate ((burstGuild 3 [7, 8]).config.CommandPerDuration * 2).toNat 0,
            index := (burstGuild 3 [7, 8]).commandlimit.index }) ∧
      ((burstGuild 3 [7, 8]).config.CommandPerDuration * 2 ≤
          ((burstGuild 3 [7, 8]).commandlimit.times.length : Int) →
        ({ times := [0, 0, 0, 0, 0, 0], index := 0 } : SaturationLimit) =
          (burstGuild 3 [7, 8]).commandlimit)) :=
  ⟨by decide,
    (resizeBuffer_length (2 ^ 45) (burstGuild 3 [7, 8]) (by decide) (by decide)).1
      { times := [0, 0, 0, 0, 0, 0], index := 0 } (by decide)⟩

/-! ## Theorems: `BulkDelete` -/

theorem bulkDeleteLoop_stuck (transport : List GoString → Bool) (messages : List GoString)
    (hlong : 99 < messages.length)
    (hok : transport (sliceBetween messages 0 (0 + 99)) = true) :
    ∀ (fuel : Nat) (calls : List (List GoString)),
      bulkDeleteLoop transport messages 0 calls fuel =
        BulkRun.looping (calls ++ List.replicate fuel (sliceBetween messages 0 (0 + 99))) := by
  intro fuel
  induction fuel with
  | zero => intro calls; simp [bulkDeleteLoop]
  | succ n ih =>
    intro calls
    unfold bulkDeleteLoop
    have hc : (messages.length : Int) - ((0 : Nat) : Int) > 99 := by
      simp only [Nat.cast_zero, sub_zero]
      exact_mod_cast hlong
    rw [if_pos hc, if_pos hok, ih, List.append_assoc]
    rfl

/-- C27, the code at the failing input. For the hundred message ids `0` ... `99` and a transport
that always succeeds, `BulkDelete` is still in its loop after any number of iterations: each
iteration submits the first 99 ids again, because the loop never assigns `i`, and the last id is
never submitted. A list of at most 99 ids is submitted in one call. -/
theorem BulkDelete_hundred_never_returns :
    (∀ fuel, BulkDelete (fun _ => true) (sampleIds 100) fuel =
      BulkRun.looping (List.replicate fuel (sampleIds 99))) ∧
    (∀ fuel calls, BulkDelete (fun _ => true) (sampleIds 100) fuel = BulkRun.looping calls →
      ∀ batch ∈ calls, str "99" ∉ batch) ∧
    BulkDelete (fun _ => true) (sampleIds 99) 1 = BulkRun.returned [sampleIds 99] false := by
  have hslice : sliceBetween (sampleIds 100) 0 (0 + 99) = sampleIds 99 := by decide
  have hrun : ∀ fuel, BulkDelete (fun _ => true) (sampleIds 100) fuel =
      BulkRun.looping (List.replicate fuel (sampleIds 99)) := by
    intro fuel
    unfold BulkDelete
    rw [bulkDeleteLoop_stuck (fun _ => true) (sampleIds 100) (by decide) rfl fuel [], hslice]
    rfl
  refine ⟨hrun, ?_, by decide⟩
  intro fuel calls h batch hb
  rw [hrun fuel] at h
  cases h
  rw [List.eq_of_mem_replicate hb]
  decide

/-! ## Theorems: the text of the heartbeat -/

/-- C29, the code at the failing input. With `basic.commandprefix` set to `a` the detector sends
the text `aabout`, whose second byte is the prefix again: the command test of line 630 rejects
it, and `SBProcessCommand` ends without tokenizing it or calling `about`. The same happens with
the setting `??`, which is not one character, so that the prefix in force is `!`. With the
setting `!` the text is `!about` and the handler of `about` runs and replies to the channel
`heartbeat`. -/
theorem SBProcessCommand_heartbeat_not_a_command :
    (heartbeatMessage (sampleBot (aboutGuild "a")) (aboutGuild "a") "about").Content =
      str "aabout" ∧
    isCommand (effectivePrefix (some (aboutGuild "a")))
      (heartbeatMessage (sampleBot (aboutGuild "a")) (aboutGuild "a") "about").Content = false ∧
    (SBProcessCommand (sampleBot (aboutGuild "a")) (sampleEnv [])
      (heartbeatMessage (sampleBot (aboutGuild "a")) (aboutGuild "a") "about")
      (some (aboutGuild "a")) 0 true false).exit = Exit.notCommand ∧
    (SBProcessCommand (sampleBot (aboutGuild "a")) (sampleEnv [])
      (heartbeatMessage (sampleBot (aboutGuild "a")) (aboutGuild "a") "about")
      (some (aboutGuild "a")) 0 true false).events = [] ∧
    (SBProcessCommand (sampleBot (aboutGuild "??")) (sampleEnv [])
      (heartbeatMessage (sampleBot (aboutGuild "??")) (aboutGuild "??") "about")
      (some (aboutGuild "??")) 0 true false).exit = Exit.notCommand ∧
    (SBProcessCommand (sampleBot (aboutGuild "!")) (sampleEnv [])
      (heartbeatMessage (sampleBot (aboutGuild "!")) (aboutGuild "!") "about")
      (some (aboutGuild "!")) 0 true false).events =
        [Event.ParseArguments (str "about"), Event.Process (str "about") [] (str "!about") [],
          Event.SendMessage (str "heartbeat") (Diag.reply (str "ok"))] := by
  decide

/-! ## Theorems: the idle hooks -/

theorem idleHooksFrom_mem (channel : GoString) (diff : Int) (hooks : List IdleHook) :
    ∀ (i : Nat) (c : GoString) (j : Nat),
      (c, j) ∈ idleHooksFrom channel diff hooks i ↔
        c = channel ∧ i ≤ j ∧ ∃ h, hooks[j - i]? = some h ∧ h.ProcessModule channel = true ∧
          idleThreshold h ≤ diff := by
  induction hooks with
  | nil =>
    intro i c j
    simp [idleHooksFrom]
  | cons h hs ih =>
    intro i c j
    have hstep : (c, j) ∈ idleHooksFrom channel diff hs (i + 1) ↔
        c = channel ∧ i < j ∧ ∃ h2, (h :: hs)[j - i]? = some h2 ∧
          h2.ProcessModule channel = true ∧ idleThreshold h2 ≤ diff := by
      rw [ih (i + 1) c j]
      constructor
      · rintro ⟨hc, hij, h2, hget, hrest⟩
        refine ⟨hc, hij, h2, ?_, hrest⟩
        have hji : j - i = (j - (i + 1)) + 1 := by omega
        rw [hji, List.getElem?_cons_succ]
        exact hget
      · rintro ⟨hc, hij, h2, hget, hrest⟩
        refine ⟨hc, hij, h2, ?_, hrest⟩
        have hji : j - i = (j - (i + 1)) + 1 := by omega
        rw [hji, List.getElem?_cons_succ] at hget
        exact hget
    unfold idleHooksFrom
    by_cases hfire : (h.ProcessModule channel && decide (diff ≥ idleThreshold h)) = true
    · rw [if_pos hfire, List.mem_cons, hstep]
      simp only [Bool.and_eq_true, decide_eq_true_eq, ge_iff_le] at hfire
      constructor
      · rintro (heq | ⟨hc, hij, hrest⟩)
        · cases heq
          exact ⟨rfl, le_refl _, h, by simp, hfire.1, hfire.2⟩
        · exact ⟨hc, le_of_lt hij, hrest⟩
      · rintro ⟨hc, hij, hrest⟩
        by_cases hji : i = j
        · left
          rw [hc, hji]
        · right
          exact ⟨hc, lt_of_le_of_ne hij hji, hrest⟩
    · rw [if_neg hfire, hstep]
      constructor
      · rintro ⟨hc, hij, hrest⟩
        exact ⟨hc, le_of_lt hij, hrest⟩
      · rintro ⟨hc, hij, h2, hget, hp, ht⟩
        by_cases hji : i = j
        · exfalso
          subst hji
          simp only [Nat.sub_self, List.getElem?_cons_zero, Option.some.injEq] at hget
          subst hget
          apply hfire
          simp only [Bool.and_eq_true, decide_eq_true_eq, ge_iff_le]
          exact ⟨hp, ht⟩
        · exact ⟨hc, lt_of_le_of_ne hij hji, h2, hget, hp, ht⟩

/-- One pass of the loop on the 64-bit quantities the code compares: the hook at position `i` is
fired for `channel` if and only if the loop visits the channel, a last-message time `t` is
recorded for it, the module of the hook is enabled for the channel, and the product of line 1065
is at most the duration of line 1062. -/
theorem idlePass_mem (lastMessages : GoMap GoString Int) (hooks : List IdleHook)
    (channels : List (GoString × Int)) :
    ∀ channel i, (channel, i) ∈ idlePass lastMessages hooks channels ↔
      ∃ now t h, (channel, now) ∈ channels ∧ mapGet? lastMessages channel = some t ∧
        hooks[i]? = some h ∧ h.ProcessModule channel = true ∧
        idleThreshold h ≤ elapsedSince now t := by
  intro channel i
  induction channels with
  | nil => simp [idlePass]
  | cons p rest ih =>
    obtain ⟨c, now0⟩ := p
    unfold idlePass
    rw [List.mem_append, ih]
    have hhead : (channel, i) ∈ idleChannel lastMessages hooks c now0 ↔
        channel = c ∧ ∃ t h, mapGet? lastMessages channel = some t ∧ hooks[i]? = some h ∧
          h.ProcessModule channel = true ∧ idleThreshold h ≤ elapsedSince now0 t := by
      unfold idleChannel
      cases hl : mapGet? lastMessages c with
      | none =>
        simp only [List.not_mem_nil, false_iff]
        rintro ⟨hc, t, h, hget, _⟩
        rw [hc, hl] at hget
        cases hget
      | some t0 =>
        simp only []
        rw [idleHooksFrom_mem]
        simp only [Nat.zero_le, Nat.sub_zero, true_and]
        constructor
        · rintro ⟨hc, h, hget, hp, ht⟩
          subst hc
          exact ⟨rfl, t0, h, hl, hget, hp, ht⟩
        · rintro ⟨hc, t, h, hget, hh, hp, ht⟩
          subst hc
          rw [hl] at hget
          cases hget
          exact ⟨rfl, h, hh, hp, ht⟩
    rw [hhead]
    constructor
    · rintro (⟨hc, t, h, hrest⟩ | ⟨now, t, h, hmem, hrest⟩)
      · subst hc
        exact ⟨now0, t, h, List.mem_cons_self _ _, hrest⟩
      · exact ⟨now, t, h, List.mem_cons_of_mem _ hmem, hrest⟩
    · rintro ⟨now, t, h, hmem, hrest⟩
      rw [List.mem_cons] at hmem
      rcases hmem with heq | hmem
      · cases heq
        exact Or.inl ⟨rfl, t, h, hrest⟩
      · exact Or.inr ⟨now, t, h, hmem, hrest⟩

/-- While the idle period in nanoseconds fits into 64 bits, the product of line 1065 is the idle
period. -/
theorem idleThreshold_exact (h : IdleHook)
    (h1 : -(2 ^ 63) ≤ h.IdlePeriod * nanosPerSecond) (h2 : h.IdlePeriod * nanosPerSecond < 2 ^ 63) :
    idleThreshold h = h.IdlePeriod * nanosPerSecond := by
  unfold idleThreshold wrapInt
  omega

/-- While the time elapsed in nanoseconds fits into 64 bits, the duration of line 1062 is the
time elapsed. -/
theorem elapsedSince_exact (now t : Int)
    (h1 : -(2 ^ 63) ≤ now - t * nanosPerSecond) (h2 : now - t * nanosPerSecond < 2 ^ 63) :
    elapsedSince now t = now - t * nanosPerSecond := by
  unfold elapsedSince clampDuration
  rw [if_neg (by omega), if_neg (by omega)]

/-- C24, counterexample. The last message of channel 100 was recorded at second 0, the clock
reads exactly 60 seconds, and the only idle hook is enabled with an idle period of 60 seconds: the
hook is fired, although the time elapsed, 60 seconds, does not exceed the idle period. With an
idle period of 9999999999 seconds the 64-bit product of line 1065 wraps around to a negative
duration, and the hook is fired one second after the last message. -/
theorem idlePass_fires_at_threshold :
    idlePass [(str "100", 0)] [sampleIdleHook 60] [(str "100", 60 * nanosPerSecond)] =
      [(str "100", 0)] ∧
    elapsedSince (60 * nanosPerSecond) 0 = 60 * nanosPerSecond ∧
    ¬ (60 * nanosPerSecond < elapsedSince (60 * nanosPerSecond) 0) ∧
    idlePass [(str "100", 0)] [sampleIdleHook 9999999999] [(str "100", 1 * nanosPerSecond)] =
      [(str "100", 0)] ∧
    idleThreshold (sampleIdleHook 9999999999) = -8446744074709551616 ∧
    ¬ (9999999999 * nanosPerSecond ≤ 1 * nanosPerSecond - 0 * nanosPerSecond) := by
  decide

/-- C24, amended. In one pass of the loop over the channels of a guild in which every idle period
in nanoseconds and every time elapsed since a recorded last message in nanoseconds fits into a
64-bit duration, the hook at position `i` of `info.hooks.OnIdle` is fired for the channel
`channel` if and only if the loop visits the channel, at a reading `now` of the clock, a
last-message time `t` is recorded for it, the module of the hook is enabled for the channel, and
the time elapsed since `t` is at least the idle period of the hook. A channel with no recorded
last message fires no hook. -/
theorem idlePass_fires (lastMessages : GoMap GoString Int) (hooks : List IdleHook)
    (channels : List (GoString × Int))
    (hperiod : ∀ h ∈ hooks,
      -(2 ^ 63) ≤ h.IdlePeriod * nanosPerSecond ∧ h.IdlePeriod * nanosPerSecond < 2 ^ 63)
    (hclock : ∀ channel now t, (channel, now) ∈ channels →
      mapGet? lastMessages channel = some t →
      -(2 ^ 63) ≤ now - t * nanosPerSecond ∧ now - t * nanosPerSecond < 2 ^ 63) :
    (∀ channel i, (channel, i) ∈ idlePass lastMessages hooks channels ↔
      ∃ now t h, (channel, now) ∈ channels ∧ mapGet? lastMessages channel = some t ∧
        hooks[i]? = some h ∧ h.ProcessModule channel = true ∧
        h.IdlePeriod * nanosPerSecond ≤ now - t * nanosPerSecond) ∧
    (∀ channel, mapGet? lastMessages channel = none →
      ∀ i, (channel, i) ∉ idlePass lastMessages hooks channels) := by
  constructor
  · intro channel i
    rw [idlePass_mem]
    constructor
    · rintro ⟨now, t, h, hmem, hget, hh, hp, hle⟩
      have hr := hperiod h (List.getElem?_mem hh)
      have hc := hclock channel now t hmem hget
      rw [idleThreshold_exact h hr.1 hr.2, elapsedSince_exact now t hc.1 hc.2] at hle
      exact ⟨now, t, h, hmem, hget, hh, hp, hle⟩
    · rintro ⟨now, t, h, hmem, hget, hh, hp, hle⟩
      have hr := hperiod h (List.getElem?_mem hh)
      have hc := hclock channel now t hmem hget
      refine ⟨now, t, h, hmem, hget, hh, hp, ?_⟩
      rw [idleThreshold_exact h hr.1 hr.2, elapsedSince_exact now t hc.1 hc.2]
      exact hle
  · intro channel hnone i hmem
    obtain ⟨now, t, h, _, hget, _⟩ := (idlePass_mem lastMessages hooks channels channel i).1 hmem
    rw [hnone] at hget
    cases hget

/-- C24, at a concrete pass: the last message of channel 100 was recorded at second 0, the clock
reads 61 seconds and the only idle hook is enabled with an idle period of 60 seconds; the hook is
fired, and the hooks fired in the pass are those the time elapsed has reached the period of. -/
theorem idlePass_fires_witness :
    idlePass [(str "100", 0)] [sampleIdleHook 60] [(str "100", 61 * nanosPerSecond)] =
      [(str "100", 0)] ∧
    ((∀ channel i, (channel, i) ∈
        idlePass [(str "100", 0)] [sampleIdleHook 60] [(str "100", 61 * nanosPerSecond)] ↔
      ∃ now t h, (channel, now) ∈ [(str "100", 61 * nanosPerSecond)] ∧
        mapGet? [(str "100", (0 : Int))] channel = some t ∧
        [sampleIdleHook 60][i]? = some h ∧ h.ProcessModule channel = true ∧
        h.IdlePeriod * nanosPerSecond ≤ now - t * nanosPerSecond) ∧
    (∀ channel, mapGet? [(str "100", (0 : Int))] channel = none →
      ∀ i, (channel, i) ∉
        idlePass [(str "100", 0)] [sampleIdleHook 60] [(str "100", 61 * nanosPerSecond)])) :=
  ⟨by decide,
    idlePass_fires [(str "100", 0)] [sampleIdleHook 60] [(str "100", 61 * nanosPerSecond)]
      (by
        intro h hh
        rw [List.mem_singleton] at hh
        subst hh
        decide)
      (by
        intro channel now t hmem hget
        rw [List.mem_singleton] at hmem
        cases hmem
        have ht : t = 0 := by
          have h0 : mapGet? [(str "100", (0 : Int))] (str "100") = some 0 := by decide
          rw [h0] at hget
          exact (Option.some.inj hget).symm
        subst ht
        decide)⟩

/-! ## Theorems: the rules command -/

theorem mem_map_fst_iff {β : Type} (m : GoMap Int β) (k : Int) :
    k ∈ m.map Prod.fst ↔ mapHas m k = true := by
  induction m with
  | nil => simp [mapHas, mapGet?]
  | cons p m ih =>
    obtain ⟨k1, v1⟩ := p
    unfold mapHas at ih ⊢
    by_cases h : k1 = k
    · simp [mapGet?, h]
    · have h2 : ¬ k = k1 := fun h2 => h h2.symm
      simp [mapGet?, h, h2, ih]

theorem mapKeys_mem {β : Type} (m : GoMap Int β) (k : Int) :
    k ∈ mapKeys m ↔ mapHas m k = true := by
  unfold mapKeys
  rw [List.mem_dedup]
  exact mem_map_fst_iff m k

theorem mapKeys_nodup {β : Type} (m : GoMap Int β) : (mapKeys m).Nodup :=
  List.nodup_dedup _

theorem sortInts_mem (l : List Int) (k : Int) : k ∈ sortInts l ↔ k ∈ l :=
  List.mem_insertionSort _

theorem sortInts_sorted (l : List Int) (h : l.Nodup) :
    (sortInts l).Sorted (fun a b => a < b) := by
  have hs : (sortInts l).Sorted (fun a b => a ≤ b) := List.sorted_insertionSort _ l
  have hn : (sortInts l).Nodup := (List.perm_insertionSort _ l).nodup_iff.2 h
  exact hs.lt_of_le hn

/-- C25. For a rule map that is not empty, with `MapIntToSlice` returning the keys of the map,
each once: without an argument `rulesCommand.Process` replies with the header line followed by
one line per listed index, the listed indices are in strictly ascending order, and an index is
listed if and only if it is a key of the map and, when `help.hidenegativerules` is set, not
negative; with an argument that `strconv.Atoi` reads as `k`, such as `-1`, where `k` is a key of
the map, it replies with the rule `k`, whether `help.hidenegativerules` is set or not. -/
theorem rulesCommandProcess_listing (MapIntToSlice : GoMap Int GoString → List Int)
    (name : GoString) (rules : GoMap Int GoString) (hide : Bool)
    (hne : rules ≠ [])
    (hkeys : ∀ k, k ∈ MapIntToSlice rules ↔ mapHas rules k = true)
    (hnodup : (MapIntToSlice rules).Nodup) :
    (∃ listed : List Int,
      rulesCommandProcess MapIntToSlice name rules hide [] =
        RulesReply.listing (rulesHeader name :: listed.map (ruleLine rules))
          (decide (listed.length + 1 > 4)) ∧
      listed.Sorted (fun a b => a < b) ∧
      ∀ k, k ∈ listed ↔ (mapHas rules k = true ∧ (hide = true → 0 ≤ k))) ∧
    (∀ (arg : GoString) (rest : List GoString) (k : Int) (text : GoString),
      Atoi arg = (k, true) → mapGet? rules k = some text →
      rulesCommandProcess MapIntToSlice name rules hide (arg :: rest) =
        RulesReply.rule k text) ∧
    Atoi (str "-1") = (-1, true) := by
  have hlen : ¬ rules.length = 0 := by
    intro h
    exact hne (List.length_eq_zero.1 h)
  refine ⟨⟨(sortInts (MapIntToSlice rules)).filter (fun v => !hide || decide (v ≥ 0)), ?_, ?_, ?_⟩,
    ?_, by decide⟩
  · unfold rulesCommandProcess
    simp only [hlen, if_false, List.length_cons, List.length_map]
  · exact (sortInts_sorted _ hnodup).filter _
  · intro k
    rw [List.mem_filter, sortInts_mem, hkeys]
    cases hide <;> simp
  · intro arg rest k text ha hk
    unfold rulesCommandProcess
    simp only [hlen, if_false, ha, Bool.not_true, Bool.false_eq_true, hk]

/-- C25, at a concrete server: the rules are `2`, `-1` and `1` and `help.hidenegativerules` is
set; the listing has the header and the rules `1` and `2`, and the argument `-1` displays the rule
`-1`. -/
theorem rulesCommandProcess_listing_witness :
    rulesCommandProcess mapKeys (str "S") sampleRules true [] =
      RulesReply.listing [rulesHeader (str "S"), str "1. no spam", str "2. be kind"] false ∧
    rulesCommandProcess mapKeys (str "S") sampleRules true (str "-1" :: []) =
      RulesReply.rule (-1) (str "joke") :=
  ⟨by decide,
    (rulesCommandProcess_listing mapKeys (str "S") sampleRules true (by decide)
      (mapKeys_mem sampleRules) (mapKeys_nodup sampleRules)).2.1 (str "-1") [] (-1) (str "joke")
      (by decide) (by decide)⟩

/-! ## Theorems: versions and the changelog command -/

theorem AssembleVersion_eq (a b c d : Nat) (hb : b < 256) (hc : c < 256) (hd : d < 256) :
    AssembleVersion a b c d = d + c * 2 ^ 8 + b * 2 ^ 16 + a * 2 ^ 24 := by
  unfold AssembleVersion
  simp only [Nat.shiftLeft_eq]
  have h1 : d ||| c * 2 ^ 8 = 2 ^ 8 * c + d := by
    rw [Nat.or_comm, Nat.mul_comm c, Nat.mul_add_lt_is_or (by omega) c]
  have h2 : (2 ^ 8 * c + d) ||| b * 2 ^ 16 = 2 ^ 16 * b + (2 ^ 8 * c + d) := by
    rw [Nat.or_comm, Nat.mul_comm b, Nat.mul_add_lt_is_or (by omega) b]
  have h3 : (2 ^ 16 * b + (2 ^ 8 * c + d)) ||| a * 2 ^ 24 =
      2 ^ 24 * a + (2 ^ 16 * b + (2 ^ 8 * c + d)) := by
    rw [Nat.or_comm, Nat.mul_comm a, Nat.mul_add_lt_is_or (by omega) a]
  rw [h1, h2, h3]
  omega

theorem toByte_natCast (x : Nat) : toByte (x : Int) = x % 256 := by
  unfold toByte
  omega

theorem land_natCast (x : Nat) : Int.land (x : Int) 0xFF = ((x % 256 : Nat) : Int) := by
  have h : Int.land (x : Int) 0xFF = ((x &&& 255 : Nat) : Int) := rfl
  rw [h]
  have h2 : x &&& 255 = x % 256 := Nat.and_pow_two_sub_one_eq_mod x 8
  rw [h2]

theorem shiftRight_natCast (x n : Nat) : ((x : Int) >>> n) = ((x / 2 ^ n : Nat) : Int) := by
  have h : ((x : Int) >>> n) = ((x >>> n : Nat) : Int) := rfl
  rw [h, Nat.shiftRight_eq_div_pow]

theorem versionOfKey_natCast (x : Nat) :
    versionOfKey (x : Int) =
      { major := x / 2 ^ 24 % 256, minor := x / 2 ^ 16 % 256, revision := x / 2 ^ 8 % 256,
        build := x % 256 } := by
  unfold versionOfKey
  rw [shiftRight_natCast, shiftRight_natCast, shiftRight_natCast, land_natCast, land_natCast,
    land_natCast, toByte_natCast, toByte_natCast, toByte_natCast, toByte_natCast]
  simp

theorem versionOfKey_AssembleVersion (a b c d : Nat) (ha : a < 256) (hb : b < 256)
    (hc : c < 256) (hd : d < 256) :
    versionOfKey (AssembleVersion a b c d : Nat) =
      { major := a, minor := b, revision := c, build := d } := by
  rw [versionOfKey_natCast, AssembleVersion_eq a b c d hb hc hd]
  congr 1 <;> omega

set_option maxRecDepth 100000 in
theorem fmtNat_byte : ∀ n, n < 256 →
    Atoi (fmtNat n) = ((n : Int), true) ∧ (fmtNat n).all (fun b => decide (b ≠ 46)) = true ∧
      (fmtNat n).head?.map isDigit = some true := by
  decide

theorem fmtNat_no_dot (n : Nat) (h : n < 256) : 46 ∉ fmtNat n := by
  intro hmem
  have hall := (fmtNat_byte n h).2.1
  rw [List.all_eq_true] at hall
  have := hall 46 hmem
  simp at this

theorem splitOnByte_cons (sep b : Nat) (bs : GoString) :
    splitOnByte sep (b :: bs) =
      if b = sep then [] :: splitOnByte sep bs
      else
        match splitOnByte sep bs with
        | [] => [[b]]
        | part :: parts => (b :: part) :: parts := rfl

theorem splitOnByte_single (sep : Nat) (x : GoString) (h : sep ∉ x) :
    splitOnByte sep x = [x] := by
  induction x with
  | nil => rfl
  | cons b x ih =>
    have hb : ¬ b = sep := fun hb => h (by rw [hb]; exact List.mem_cons_self _ _)
    have hx : sep ∉ x := fun hx => h (List.mem_cons_of_mem _ hx)
    rw [splitOnByte_cons, if_neg hb, ih hx]

theorem splitOnByte_append (sep : Nat) (x rest : GoString) (h : sep ∉ x) :
    splitOnByte sep (x ++ sep :: rest) = x :: splitOnByte sep rest := by
  induction x with
  | nil =>
    show splitOnByte sep (sep :: rest) = _
    rw [splitOnByte_cons, if_pos rfl]
  | cons b x ih =>
    have hb : ¬ b = sep := fun hb => h (by rw [hb]; exact List.mem_cons_self _ _)
    have hx : sep ∉ x := fun hx => h (List.mem_cons_of_mem _ hx)
    show splitOnByte sep (b :: (x ++ sep :: rest)) = _
    rw [splitOnByte_cons, if_neg hb, ih hx]

theorem parseVersion_two (a b : Nat) (ha : a < 256) (hb : b < 256) :
    parseVersion (fmtNat a ++ (46 :: fmtNat b)) =
      { major := a, minor := b, revision := 0, build := 0 } := by
  unfold parseVersion
  rw [splitOnByte_append 46 _ _ (fmtNat_no_dot a ha), splitOnByte_single 46 _ (fmtNat_no_dot b hb)]
  simp [(fmtNat_byte a ha).1, (fmtNat_byte b hb).1, toByte_natCast, Nat.mod_eq_of_lt ha,
    Nat.mod_eq_of_lt hb]

theorem parseVersion_three (a b c : Nat) (ha : a < 256) (hb : b < 256) (hc : c < 256) :
    parseVersion (fmtNat a ++ (46 :: (fmtNat b ++ (46 :: fmtNat c)))) =
      { major := a, minor := b, revision := c, build := 0 } := by
  unfold parseVersion
  rw [splitOnByte_append 46 _ _ (fmtNat_no_dot a ha),
    splitOnByte_append 46 _ _ (fmtNat_no_dot b hb), splitOnByte_single 46 _ (fmtNat_no_dot c hc)]
  simp [(fmtNat_byte a ha).1, (fmtNat_byte b hb).1, (fmtNat_byte c hc).1, toByte_natCast,
    Nat.mod_eq_of_lt ha, Nat.mod_eq_of_lt hb, Nat.mod_eq_of_lt hc]

theorem parseVersion_four (a b c d : Nat) (ha : a < 256) (hb : b < 256) (hc : c < 256)
    (hd : d < 256) :
    parseVersion (fmtNat a ++ (46 :: (fmtNat b ++ (46 :: (fmtNat c ++ (46 :: fmtNat d)))))) =
      { major := a, minor := b, revision := c, build := d } := by
  unfold parseVersion
  rw [splitOnByte_append 46 _ _ (fmtNat_no_dot a ha),
    splitOnByte_append 46 _ _ (fmtNat_no_dot b hb),
    splitOnByte_append 46 _ _ (fmtNat_no_dot c hc), splitOnByte_single 46 _ (fmtNat_no_dot d hd)]
  simp [(fmtNat_byte a ha).1, (fmtNat_byte b hb).1, (fmtNat_byte c hc).1, (fmtNat_byte d hd).1,
    toByte_natCast, Nat.mod_eq_of_lt ha, Nat.mod_eq_of_lt hb, Nat.mod_eq_of_lt hc,
    Nat.mod_eq_of_lt hd]

/-- Parsing the text of a version gives the version back. -/
theorem parseVersion_String (a b c d : Nat) (ha : a < 256) (hb : b < 256) (hc : c < 256)
    (hd : d < 256) :
    parseVersion (Version.String { major := a, minor := b, revision := c, build := d }) =
      { major := a, minor := b, revision := c, build := d } := by
  unfold Version.String
  simp only []
  by_cases h1 : d > 0
  · rw [if_pos h1]
    exact parseVersion_four a b c d ha hb hc hd
  · have hd0 : d = 0 := by omega
    subst hd0
    rw [if_neg h1]
    by_cases h2 : c > 0
    · rw [if_pos h2]
      exact parseVersion_three a b c ha hb hc
    · have hc0 : c = 0 := by omega
      subst hc0
      rw [if_neg h2]
      exact parseVersion_two a b ha hb

/-- The text of a version is not the word `current`, in any case of the letters. -/
theorem String_ne_current (v : Version) (ha : v.major < 256) :
    ¬ asciiToLower v.String = str "current" := by
  have hhead : ∀ rest : GoString, ¬ asciiToLower (fmtNat v.major ++ rest) = str "current" := by
    intro rest h
    have hd := (fmtNat_byte v.major ha).2.2
    have hcur : str "current" = [99, 117, 114, 114, 101, 110, 116] := by decide
    rw [hcur] at h
    cases hf : fmtNat v.major with
    | nil => rw [hf] at hd; simp at hd
    | cons x xs =>
      rw [hf] at hd h
      simp only [List.head?_cons, Option.map_some', Option.some.injEq, isDigit,
        decide_eq_true_eq] at hd
      simp only [asciiToLower, List.cons_append, List.map_cons, List.cons.injEq] at h
      have h1 := h.1
      split_ifs at h1 <;> omega
  unfold Version.String
  split_ifs <;> exact hhead _

/-- C30. For every four bytes `a`, `b`, `c`, `d`: the shifts of line 232 of HelpModule.go
applied to `AssembleVersion(a, b, c, d)` give the four bytes back; the version parsed from the
text `Version.String` prints for them has the integer `AssembleVersion(a, b, c, d)`; and when
that integer is a key of the changelog, `changelogCommand.Process` called with the version text
listed for the key replies with the changelog entry of the key. Without an argument the command
lists, after the header, the texts of the versions of the keys in descending order. -/
theorem changelogCommandProcess_round_trip (a b c d : Nat) (ha : a < 256) (hb : b < 256)
    (hc : c < 256) (hd : d < 256) :
    versionOfKey (AssembleVersion a b c d : Nat) =
      { major := a, minor := b, revision := c, build := d } ∧
    (parseVersion (Version.String { major := a, minor := b, revision := c, build := d })).Integer =
      AssembleVersion a b c d ∧
    (∀ (MapIntToSlice : GoMap Int GoString → List Int) (changelog : GoMap Int GoString)
        (current : Version) (log : GoString),
      mapGet? changelog ((AssembleVersion a b c d : Nat) : Int) = some log →
      changelogCommandProcess MapIntToSlice changelog current
          [(versionOfKey (AssembleVersion a b c d : Nat)).String] =
        ChangelogReply.entry
          (Version.String { major := a, minor := b, revision := c, build := d }) log) ∧
    (∀ (MapIntToSlice : GoMap Int GoString → List Int) (changelog : GoMap Int GoString)
        (current : Version),
      ∃ usepm, changelogCommandProcess MapIntToSlice changelog current [] =
        ChangelogReply.listing
          (changelogHeader ::
            (sortInts (MapIntToSlice changelog)).reverse.map (fun k => (versionOfKey k).String))
          usepm) := by
  have hkey := versionOfKey_AssembleVersion a b c d ha hb hc hd
  have hparse := parseVersion_String a b c d ha hb hc hd
  refine ⟨hkey, ?_, ?_, ?_⟩
  · rw [hparse]
    rfl
  · intro MapIntToSlice changelog current log hlog
    rw [hkey]
    unfold changelogCommandProcess
    simp only []
    rw [if_neg (String_ne_current _ ha), hparse]
    have hint : (({ major := a, minor := b, revision := c, build := d } : Version).Integer : Int) =
        ((AssembleVersion a b c d : Nat) : Int) := rfl
    rw [hint, hlog]
  · intro MapIntToSlice changelog current
    exact ⟨_, rfl⟩

/-- C30, at a concrete changelog: the key of version 0.9.8.14 is listed as `0.9.8.14`, and that
text as the argument retrieves the entry of the key. -/
theorem changelogCommandProcess_round_trip_witness :
    changelogCommandProcess mapKeys sampleChangelog
        { major := 1, minor := 0, revision := 0, build := 0 } [] =
      ChangelogReply.listing [changelogHeader, str "1.0", str "0.9.8.14", str "0.9.8"] false ∧
    changelogCommandProcess mapKeys sampleChangelog
        { major := 1, minor := 0, revision := 0, build := 0 }
        [(versionOfKey (AssembleVersion 0 9 8 14 : Nat)).String] =
      ChangelogReply.entry
        (Version.String { major := 0, minor := 9, revision := 8, build := 14 })
        (str "startup") :=
  ⟨by decide,
    (changelogCommandProcess_round_trip 0 9 8 14 (by decide) (by decide) (by decide)
      (by decide)).2.2.1 mapKeys sampleChangelog
      { major := 1, minor := 0, revision := 0, build := 0 } (str "startup") (by decide)⟩

/-! ## Theorems: `PartialSanitize` -/

/-- The byte lists of the model are the texts of lines 277 and 278. -/
theorem sanitize_texts :
    fence = str "```" ∧ escapedFence = str "\\`\\`\\`" ∧ emoteOpener = str "[](/" ∧
      brokenEmoteOpener = str "[\u200B](/" := by
  decide

theorem replaceAllFrom_skip (old new : GoString) (xs rest : GoString) :
    replaceAllFrom old new (xs ++ rest) xs.length = replaceAllFrom old new rest 0 := by
  induction xs with
  | nil =>
    simp
  | cons x xs ih =>
    simp only [List.cons_append, List.length_cons, replaceAllFrom]
    exact ih

theorem replaceAllFrom_cons_zero (old new : GoString) (c : Nat) (cs : GoString) :
    replaceAllFrom old new (c :: cs) 0 =
      if old.isPrefixOf (c :: cs) then new ++ replaceAllFrom old new cs (old.length - 1)
      else c :: replaceAllFrom old new cs 0 := rfl

theorem stringsReplace_nil (old new : GoString) : stringsReplace [] old new = [] := rfl

theorem stringsReplace_match (o : Nat) (os new rest : GoString) :
    stringsReplace ((o :: os) ++ rest) (o :: os) new = new ++ stringsReplace rest (o :: os) new := by
  unfold stringsReplace
  have hp : (o :: os).isPrefixOf (o :: (os ++ rest)) = true := by
    rw [List.isPrefixOf_iff_prefix]
    exact ⟨rest, rfl⟩
  show replaceAllFrom (o :: os) new (o :: (os ++ rest)) 0 = _
  rw [replaceAllFrom_cons_zero, if_pos hp]
  show new ++ replaceAllFrom (o :: os) new (os ++ rest) os.length = _
  rw [replaceAllFrom_skip]

theorem stringsReplace_nomatch (old new : GoString) (c : Nat) (cs : GoString)
    (h : old.isPrefixOf (c :: cs) = false) :
    stringsReplace (c :: cs) old new = c :: stringsReplace cs old new := by
  unfold stringsReplace
  rw [replaceAllFrom_cons_zero, h]
  rfl

/-- The three shapes of the text given to `strings.Replace`. -/
theorem stringsReplace_cases (o : Nat) (os : GoString) (x : GoString) :
    x = [] ∨ (∃ rest, x = (o :: os) ++ rest) ∨
      (∃ c cs, x = c :: cs ∧ (o :: os).isPrefixOf (c :: cs) = false) := by
  cases x with
  | nil => exact Or.inl rfl
  | cons c cs =>
    by_cases h : (o :: os).isPrefixOf (c :: cs) = true
    · rw [List.isPrefixOf_iff_prefix] at h
      obtain ⟨rest, hrest⟩ := h
      exact Or.inr (Or.inl ⟨rest, hrest.symm⟩)
    · exact Or.inr (Or.inr ⟨c, cs, rfl, Bool.eq_false_iff.2 h⟩)

theorem isPrefixOf_stringsReplace (o : Nat) (os : GoString) (n : Nat) (ns : GoString) :
    ∀ (p : GoString), (∀ b ∈ p, b ≠ n) → ∀ x : GoString,
      p.isPrefixOf (stringsReplace x (o :: os) (n :: ns)) = true → p.isPrefixOf x = true := by
  intro p
  induction p with
  | nil => intro _ x _; simp
  | cons b p ih =>
    intro hp x h
    have hb : b ≠ n := hp b (List.mem_cons_self _ _)
    have hp2 : ∀ b2 ∈ p, b2 ≠ n := fun b2 h2 => hp b2 (List.mem_cons_of_mem _ h2)
    rcases stringsReplace_cases o os x with hx | ⟨rest, hx⟩ | ⟨c, cs, hx, hno⟩
    · subst hx
      rw [stringsReplace_nil] at h
      exact h
    · subst hx
      rw [stringsReplace_match] at h
      simp [List.isPrefixOf, hb] at h
    · subst hx
      rw [stringsReplace_nomatch _ _ _ _ hno] at h
      simp only [List.isPrefixOf, Bool.and_eq_true] at h ⊢
      exact ⟨h.1, ih hp2 cs h.2⟩

theorem containsSub_cons (p : GoString) (c : Nat) (cs : GoString)
    (h : containsSub p cs = true) : containsSub p (c :: cs) = true := by
  simp [containsSub, h]

theorem containsSub_append (p : GoString) (xs ys : GoString)
    (h : containsSub p ys = true) : containsSub p (xs ++ ys) = true := by
  induction xs with
  | nil => exact h
  | cons x xs ih => exact containsSub_cons p x _ ih


theorem containsSub_cons_iff (p : GoString) (c : Nat) (cs : GoString) :
    containsSub p (c :: cs) = (p.isPrefixOf (c :: cs) || containsSub p cs) := rfl

/-- The emote opener does not occur in the result of the second replacement. -/
theorem emote_absent : ∀ (n : Nat) (u : GoString), u.length ≤ n →
    containsSub emoteOpener (stringsReplace u emoteOpener brokenEmoteOpener) = false := by
  intro n
  induction n with
  | zero =>
    intro u hu
    have : u = [] := List.length_eq_zero.1 (by omega)
    subst this
    rfl
  | succ n ih =>
    intro u hu
    rcases stringsReplace_cases 91 [93, 40, 47] u with hx | ⟨rest, hx⟩ | ⟨c, cs, hx, hno⟩
    · subst hx
      rfl
    · subst hx
      have hrest : rest.length ≤ n := by
        simp only [List.length_append, List.length_cons, List.length_nil] at hu
        omega
      have h := ih rest hrest
      unfold emoteOpener brokenEmoteOpener at h ⊢
      rw [stringsReplace_match]
      simp [containsSub_cons_iff, List.isPrefixOf, h]
    · subst hx
      have hcs : cs.length ≤ n := by
        simp only [List.length_cons] at hu
        omega
      have h := ih cs hcs
      unfold emoteOpener brokenEmoteOpener at h ⊢
      rw [stringsReplace_nomatch _ _ _ _ hno, containsSub_cons_iff, h, Bool.or_false]
      rw [Bool.eq_false_iff]
      intro hp
      apply Bool.eq_false_iff.1 hno
      simp only [List.isPrefixOf, Bool.and_eq_true] at hp ⊢
      refine ⟨hp.1, ?_⟩
      have := isPrefixOf_stringsReplace 91 [93, 40, 47] 91 [226, 128, 139, 93, 40, 47]
        [93, 40, 47] (by decide) cs (by simpa [List.isPrefixOf] using hp.2)
      simpa [List.isPrefixOf] using this


/-- The second replacement brings in no code fence. -/
theorem fence_after_emote : ∀ (n : Nat) (u : GoString), u.length ≤ n →
    containsSub fence (stringsReplace u emoteOpener brokenEmoteOpener) = true →
      containsSub fence u = true := by
  intro n
  induction n with
  | zero =>
    intro u hu h
    have : u = [] := List.length_eq_zero.1 (by omega)
    subst this
    exact h
  | succ n ih =>
    intro u hu h
    rcases stringsReplace_cases 91 [93, 40, 47] u with hx | ⟨rest, hx⟩ | ⟨c, cs, hx, hno⟩
    · subst hx
      exact h
    · subst hx
      have hrest : rest.length ≤ n := by
        simp only [List.length_append, List.length_cons, List.length_nil] at hu
        omega
      unfold emoteOpener brokenEmoteOpener at h
      rw [stringsReplace_match] at h
      unfold fence at h
      simp [containsSub_cons_iff, List.isPrefixOf] at h
      exact containsSub_append _ _ _ (ih rest hrest h)
    · subst hx
      have hcs : cs.length ≤ n := by
        simp only [List.length_cons] at hu
        omega
      unfold emoteOpener brokenEmoteOpener at h
      rw [stringsReplace_nomatch _ _ _ _ hno, containsSub_cons_iff, Bool.or_eq_true] at h
      rw [containsSub_cons_iff, Bool.or_eq_true]
      rcases h with h | h
      · left
        unfold fence at h ⊢
        simp only [List.isPrefixOf, Bool.and_eq_true] at h ⊢
        refine ⟨h.1, ?_⟩
        have := isPrefixOf_stringsReplace 91 [93, 40, 47] 91 [226, 128, 139, 93, 40, 47]
          [96, 96] (by decide) cs (by simpa [List.isPrefixOf] using h.2)
        simpa [List.isPrefixOf] using this
      · right
        exact ih cs hcs h

/-- A code fence in the result of the first replacement comes from five backticks in a row. -/
theorem fence_after_fence : ∀ (n : Nat) (s : GoString), s.length ≤ n →
    containsSub fence (stringsReplace s fence escapedFence) = true →
      containsSub fiveBackticks s = true := by
  intro n
  induction n with
  | zero =>
    intro s hs h
    have : s = [] := List.length_eq_zero.1 (by omega)
    subst this
    exact absurd h (by decide)
  | succ n ih =>
    intro s hs h
    rcases stringsReplace_cases 96 [96, 96] s with hx | ⟨rest, hx⟩ | ⟨c, cs, hx, hno⟩
    · subst hx
      exact absurd h (by decide)
    · subst hx
      have hrest : rest.length ≤ n := by
        simp only [List.length_append, List.length_cons, List.length_nil] at hs
        omega
      unfold fence escapedFence at h
      rw [stringsReplace_match] at h
      simp only [List.cons_append, List.nil_append, containsSub_cons_iff, List.isPrefixOf,
        Bool.or_eq_true, Bool.and_eq_true] at h
      simp only [beq_iff_eq] at h
      rcases h with h | h | h | h | h | h | h
      · omega
      · omega
      · omega
      · omega
      · omega
      · -- the last backtick of the replacement and two backticks that follow it
        have h2 := isPrefixOf_stringsReplace 96 [96, 96] 92 [96, 92, 96, 92, 96]
          [96, 96] (by decide) rest (by simpa [List.isPrefixOf] using h.2)
        rw [List.isPrefixOf_iff_prefix] at h2
        obtain ⟨tail, htail⟩ := h2
        rw [← htail]
        unfold fiveBackticks
        simp [containsSub_cons_iff, List.isPrefixOf]
      · exact containsSub_append _ _ _ (ih rest hrest h)
    · subst hx
      have hcs : cs.length ≤ n := by
        simp only [List.length_cons] at hs
        omega
      unfold fence escapedFence at h
      rw [stringsReplace_nomatch _ _ _ _ hno, containsSub_cons_iff, Bool.or_eq_true] at h
      rcases h with h | h
      · exfalso
        apply Bool.eq_false_iff.1 hno
        simp only [List.isPrefixOf, Bool.and_eq_true] at h ⊢
        refine ⟨h.1, ?_⟩
        have := isPrefixOf_stringsReplace 96 [96, 96] 92 [96, 92, 96, 92, 96]
          [96, 96] (by decide) cs (by simpa [List.isPrefixOf] using h.2)
        simpa [List.isPrefixOf] using this
      · exact containsSub_cons _ _ _ (ih cs hcs h)

/-- C28, counterexample. For the text of five backticks `PartialSanitize` replaces the first
three by three escaped backticks and keeps the other two: the result ends in three backticks in a
row. -/
theorem PartialSanitize_five_backticks :
    PartialSanitize fiveBackticks = [92, 96, 92, 96, 92, 96, 96, 96] ∧
    containsSub fence (PartialSanitize fiveBackticks) = true := by
  decide

/-- C28, amended. For every text `s`, `PartialSanitize s` does not contain the emote opener, and
it contains three backticks in a row only if `s` contains five backticks in a row. -/
theorem PartialSanitize_escapes (s : GoString) :
    containsSub emoteOpener (PartialSanitize s) = false ∧
    (containsSub fence (PartialSanitize s) = true → containsSub fiveBackticks s = true) := by
  unfold PartialSanitize
  refine ⟨emote_absent _ _ (le_refl _), ?_⟩
  intro h
  exact fence_after_fence _ s (le_refl _) (fence_after_emote _ _ (le_refl _) h)

end Sweetiebot
